import Mathlib

/-!
# Batch mark reconciliation of lavurso-backend

A shallow embedding of the handler `setMarksForLesson` (`cmd/api/marks.go`) and of the
helpers it relies on (`cmd/api/errors.go`, constants of `internal/data`), of the sibling
handlers `addMark`, `deleteMark`, `updateMark` and `getMarksForLesson`, of the grouping loop
of `getMarksForStudent`, and of the handler `newYear` (`cmd/api/years.go`).

* Go pointers (`*int`, `*string`, `*bool`) are `Option` values, `nil` being `none`.
* The mutable accumulators of the handler (validator, the four staged lists) are threaded
  explicitly through the loops as a value of type `Staged`.
* A Go `panic` is the `Except.error` branch of the staging functions.
* Collaborators whose code is outside the handler (lookups, JSON decoding and encoding, the
  persistence operations) are fields of `App`; every call the handler makes is recorded, in
  order, in a trace of `Event`s.
-/

namespace Lavurso

/-! ## Constants of package `data` -/

/-- Value of `data.MarkLessonGrade`. -/
def MarkLessonGrade : String := "lesson_grade"
/-- Value of `data.MarkNotDone`. -/
def MarkNotDone : String := "not_done"
/-- Value of `data.MarkNoticeGood`. -/
def MarkNoticeGood : String := "notice_good"
/-- Value of `data.MarkNoticeNeutral`. -/
def MarkNoticeNeutral : String := "notice_neutral"
/-- Value of `data.MarkNoticeBad`. -/
def MarkNoticeBad : String := "notice_bad"
/-- Value of `data.MarkAbsent`. -/
def MarkAbsent : String := "absent"
/-- Value of `data.MarkLate`. -/
def MarkLate : String := "late"
/-- Modelled from the spec: the constant `data.MarkCommonGrade` is used by the handler but its
declaration is not among the sources; the spec names the input alias `common_grade`. -/
def MarkCommonGrade : String := "common_grade"
/-- Value of `data.RoleAdministrator`. -/
def RoleAdministrator : String := "admin"
/-- Text of `data.ErrNoSuchMark`. -/
def ErrNoSuchMark : String := "no such mark"
/-- Text of `data.ErrNoSuchType`. -/
def ErrNoSuchType : String := "no such mark type"
/-- Modelled from the spec: the text of `data.ErrNoSuchLesson`, whose declaration is not among
the sources (not-found failure for a lesson). -/
def ErrNoSuchLesson : String := "no such lesson"
/-- Modelled from the spec: the text of `data.ErrNoSuchJournal`, whose declaration is not among
the sources (not-found failure for a journal). -/
def ErrNoSuchJournal : String := "no such journal"
/-- Modelled from the spec: the text of `data.ErrUserNotInJournal`, whose declaration is not
among the sources (the sibling handler answers with the literal `user not in journal`). -/
def ErrUserNotInJournal : String := "user not in journal"

/-- Value of `data.MarkCourseGrade`. -/
def MarkCourseGrade : String := "course_grade"
/-- Value of `data.MarkSubjectGrade`. -/
def MarkSubjectGrade : String := "subject_grade"
/-- Value of `data.RoleStudent`. -/
def RoleStudent : String := "student"
/-- Text of `data.ErrNoSuchUser`. -/
def ErrNoSuchUser : String := "no such user"
/-- Text of `data.ErrNotAStudent`. -/
def ErrNotAStudent : String := "not a student"
/-- Modelled from the spec: the text of `data.ErrNoSuchGrade`, whose declaration is not among
the sources (not-found failure for a grade). -/
def ErrNoSuchGrade : String := "no such grade"

/-- Go `http.StatusOK`. -/
def StatusOK : Nat := 200
/-- Go `http.StatusCreated`. -/
def StatusCreated : Nat := 201
/-- Go `http.StatusBadRequest`. -/
def StatusBadRequest : Nat := 400
/-- Go `http.StatusForbidden`. -/
def StatusForbidden : Nat := 403
/-- Go `http.StatusNotFound`. -/
def StatusNotFound : Nat := 404
/-- Go `http.StatusTeapot`. -/
def StatusTeapot : Nat := 418
/-- Go `http.StatusInternalServerError`. -/
def StatusInternalServerError : Nat := 500

/-! ## Data model -/

/-- Record type `model.Marks` (generated code, not among the sources): the fields that
`newMark` fills in. -/
structure Marks where
  ID : Int
  UserID : Option Int
  LessonID : Option Int
  Course : Option Int
  JournalID : Option Int
  TeacherID : Option Int
  Type_ : Option String
  GradeID : Option Int
  Comment : Option String
  CreatedAt : Option Nat
  UpdatedAt : Option Nat
deriving DecidableEq, Repr

/-- Key `data.MarkByStudentIDType` of a bulk delete. -/
structure MarkByStudentIDType where
  StudentID : Int
  Type_ : String
deriving DecidableEq, Repr

/-- The fields of `data.Mark` that the handler `addMark` fills in; `mark.Lesson.ID`,
`mark.Grade.ID` and `mark.Teacher.ID` are the fields `LessonID`, `GradeID` and `TeacherID`. -/
structure Mark where
  ID : Int
  UserID : Int
  LessonID : Option Int
  Course : Option Int
  JournalID : Option Int
  GradeID : Option Int
  Comment : Option String
  Type_ : String
  TeacherID : Option Int
  CreatedAt : Nat
  UpdatedAt : Nat
deriving DecidableEq, Repr

/-- The decoded body of a request to `addMark` (the anonymous struct `input`). -/
structure AddMarkInput where
  UserID : Int
  LessonID : Option Int
  Course : Option Int
  JournalID : Option Int
  GradeID : Option Int
  Comment : Option String
  Type_ : String
deriving DecidableEq, Repr

/-- The decoded body of a request to `updateMark` (the anonymous struct `input`). -/
structure UpdateMarkInput where
  GradeID : Option Int
  Comment : Option String
deriving DecidableEq, Repr

/-- One element of the `marks` array of a batch entry (the inner anonymous struct of `input`). -/
structure MarkInput where
  ID : Option Int
  Grade : Option Int
  Type_ : String
  Comment : Option String
  Remove : Bool
deriving DecidableEq, Repr

/-- One batch entry (the outer anonymous struct of `input`). -/
structure StudentInput where
  StudentID : Int
  Absent : Option Bool
  Late : Option Bool
  NotDone : Option Bool
  Marks : List MarkInput
deriving DecidableEq, Repr

/-- The fields of a lesson that the handler reads: `lesson.ID`, `lesson.Course`,
`lesson.Journal.ID`. -/
structure Lesson where
  ID : Int
  Course : Option Int
  JournalID : Int
deriving DecidableEq, Repr

/-- The fields of a journal that the handler reads. -/
structure Journal where
  ID : Int
  TeacherID : Int
deriving DecidableEq, Repr

/-- Modelled from the spec: the method `Journal.IsUserTeacherOfJournal` is not among the
sources; a journal has one teacher, and the user is the teacher of the journal when the
identifiers agree. -/
def Journal.IsUserTeacherOfJournal (j : Journal) (userID : Int) : Bool :=
  j.TeacherID == userID

/-- The fields of the session user that the handler reads. -/
structure User where
  ID : Int
  Role : String
deriving DecidableEq, Repr

/-- Modelled from the spec: the package `validator` is not among the sources. The spec
describes a validation-error aggregation that collects an ordered list of field-scoped
messages (field, message), reported together. -/
structure Validator where
  Errors : List (String × String)
deriving DecidableEq, Repr

/-- Modelled from the spec: `validator.NewValidator`, an accumulator without errors. -/
def NewValidator : Validator := ⟨[]⟩

/-- Modelled from the spec: `Validator.Add` collects one more field-scoped message, after
those collected so far. -/
def Validator.Add (v : Validator) (field message : String) : Validator :=
  ⟨v.Errors ++ [(field, message)]⟩

/-- Modelled from the spec: `Validator.Valid` holds when no error was collected. -/
def Validator.Valid (v : Validator) : Bool := v.Errors.isEmpty

/-- Modelled from the spec: `Validator.Check` collects the message when the condition does
not hold. -/
def Validator.Check (v : Validator) (ok : Bool) (field message : String) : Validator :=
  if ok then v else v.Add field message

/-- What the closure `newMark` and the loops capture from the enclosing handler. -/
structure Ctx where
  lesson : Lesson
  journal : Journal
  sessionUser : User
  currentTime : Nat
  allMarkIDs : List Int
  allStudentIDs : List Int
  allGradeIDs : List Int

/-- The mutable variables of the staging loops: the validator `v` and the four staged lists.
A `nil` record appended to a list is `none`. -/
structure Staged where
  v : Validator
  insertMarks : List (Option Marks)
  updateMarks : List (Option Marks)
  deletedMarkIDs : List Int
  deletedMarksByStudentIDType : List MarkByStudentIDType
deriving DecidableEq, Repr

/-! ## The closure `newMark` -/

/-- Second half of `newMark` (lines 723-746): empty comment and zero grade become `nil`,
`common_grade` is stored as `lesson_grade`, and the record is built. -/
def buildMark (c : Ctx) (ID studentID : Int) (mtype : String) (comment : Option String)
    (grade : Option Int) : Marks :=
  let comment := if comment = some "" then none else comment
  let grade := if grade = some 0 then none else grade
  let mtype := if mtype = MarkCommonGrade then MarkLessonGrade else mtype
  { ID := ID
    UserID := some studentID
    LessonID := some c.lesson.ID
    Course := c.lesson.Course
    JournalID := some c.journal.ID
    TeacherID := some c.sessionUser.ID
    Type_ := some mtype
    GradeID := grade
    Comment := comment
    CreatedAt := some c.currentTime
    UpdatedAt := some c.currentTime }

/-- The closure `newMark` (lines 703-747). The result is the returned pointer together with
the validator after the call; the `default` branch of the type switch panics. -/
def newMark (c : Ctx) (v : Validator) (index : Nat) (ID studentID : Int) (mtype : String)
    (comment : Option String) (grade : Option Int) : Except String (Option Marks × Validator) :=
  if mtype = MarkCommonGrade then
    match grade with
    | none => .ok (none, v.Add "grade" (toString index ++ ": must be provided"))
    | some g =>
      if g ∉ c.allGradeIDs then
        .ok (none, v.Add "grade" (toString index ++ ": invalid grade ID"))
      else .ok (some (buildMark c ID studentID mtype comment grade), v)
  else if mtype = MarkNoticeBad ∨ mtype = MarkNoticeNeutral ∨ mtype = MarkNoticeGood then
    if comment = none ∨ comment = some "" then
      .ok (none, v.Add "comment" (toString index ++ ": must be provided and not empty"))
    else .ok (some (buildMark c ID studentID mtype comment grade), v)
  else if mtype = MarkAbsent ∨ mtype = MarkLate ∨ mtype = MarkNotDone then
    .ok (some (buildMark c ID studentID mtype comment grade), v)
  else .error ("invalid or no type: " ++ mtype)

/-! ## The staging loops (lines 749-813) -/

/-- One of the three flag blocks (lines 765-771, 773-779, 781-787), which differ only in the
flag read and in the mark type: a `nil` flag does nothing, `true` appends the result of
`newMark(0, 0, studentID, mtype, nil, nil)` to `insertMarks`, `false` appends the key
(student, type) to `deletedMarksByStudentIDType`. -/
def flagStep (c : Ctx) (studentID : Int) (mtype : String) (flag : Option Bool) (st : Staged) :
    Except String Staged :=
  match flag with
  | none => .ok st
  | some true =>
    match newMark c st.v 0 0 studentID mtype none none with
    | .error e => .error e
    | .ok (r, v) => .ok { st with v := v, insertMarks := st.insertMarks ++ [r] }
  | some false =>
    .ok { st with deletedMarksByStudentIDType :=
            st.deletedMarksByStudentIDType ++ [⟨studentID, mtype⟩] }

/-- Body of the loop labelled `marks` (lines 790-812) for the edit `m` at index `mi`. -/
def markStep (c : Ctx) (studentID : Int) (st : Staged) (mi : Nat) (m : MarkInput) :
    Except String Staged :=
  if m.Type_ ≠ MarkCommonGrade ∧ m.Type_ ≠ MarkNoticeBad ∧ m.Type_ ≠ MarkNoticeNeutral ∧
      m.Type_ ≠ MarkNoticeGood ∧ m.Remove = false then
    .ok { st with v := st.v.Add "type" (ErrNoSuchType ++ ": " ++ toString mi) }
  else
    match m.ID with
    | some id =>
      if id ∉ c.allMarkIDs then
        .ok { st with
              v := st.v.Add "mark_id" (ErrNoSuchMark ++ ": " ++ toString id ++ " at " ++ toString mi) }
      else if m.Remove = true then
        .ok { st with deletedMarkIDs := st.deletedMarkIDs ++ [id] }
      else
        match newMark c st.v mi id 0 m.Type_ m.Comment m.Grade with
        | .error e => .error e
        | .ok (r, v) => .ok { st with v := v, updateMarks := st.updateMarks ++ [r] }
    | none =>
      if m.Remove = true then .ok st
      else
        match newMark c st.v mi 0 studentID m.Type_ m.Comment m.Grade with
        | .error e => .error e
        | .ok (r, v) => .ok { st with v := v, insertMarks := st.insertMarks ++ [r] }

/-- The loop labelled `marks` over the edits of one entry, `mi` being the index of the first
edit of the list. -/
def marksLoop (c : Ctx) (studentID : Int) : Staged → Nat → List MarkInput → Except String Staged
  | st, _, [] => .ok st
  | st, mi, m :: ms =>
    match markStep c studentID st mi m with
    | .error e => .error e
    | .ok st1 => marksLoop c studentID st1 (mi + 1) ms

/-- Body of the loop labelled `student` (lines 756-813) for the entry `s`. -/
def studentStep (c : Ctx) (st : Staged) (s : StudentInput) : Except String Staged :=
  if s.StudentID < 1 then .ok st
  else if s.StudentID ∉ c.allStudentIDs then
    .ok { st with
          v := st.v.Add "student_id" (ErrUserNotInJournal ++ ": " ++ toString s.StudentID) }
  else
    match flagStep c s.StudentID MarkAbsent s.Absent st with
    | .error e => .error e
    | .ok st1 =>
      match flagStep c s.StudentID MarkLate s.Late st1 with
      | .error e => .error e
      | .ok st2 =>
        match flagStep c s.StudentID MarkNotDone s.NotDone st2 with
        | .error e => .error e
        | .ok st3 => marksLoop c s.StudentID st3 0 s.Marks

/-- The loop labelled `student` over the batch. -/
def studentsLoop (c : Ctx) : Staged → List StudentInput → Except String Staged
  | st, [] => .ok st
  | st, s :: ss =>
    match studentStep c st s with
    | .error e => .error e
    | .ok st1 => studentsLoop c st1 ss

/-- The state of the accumulators before the loops: a fresh validator and four `nil` lists. -/
def Staged.initial : Staged := ⟨NewValidator, [], [], [], []⟩

/-- Lines 749-813: the staging of a decoded batch. -/
def stage (c : Ctx) (input : List StudentInput) : Except String Staged :=
  studentsLoop c Staged.initial input

/-! ## The handler and its collaborators -/

/-- Body of a JSON response: `envelope` with one key. -/
inductive Payload where
  /-- The envelope with key `error` holding a string. -/
  | error (message : String)
  /-- The envelope with key `error` holding the validator errors `v.Errors`. -/
  | errors (errs : List (String × String))
  /-- The envelope with key `message`. -/
  | message (text : String)
  /-- The envelope with key `students`, the students being named by their identifiers; a
  `nil` slice is the empty list. -/
  | students (students : List Int)
deriving DecidableEq, Repr

/-- A call made by the handler to a collaborator, or something it writes. -/
inductive Event where
  | GetLessonByID (lessonID : Int)
  | GetJournalByID (journalID : Int)
  | inputJSON
  | GetMarkIDsForLesson (lessonID : Int)
  | GetStudentIDsForJournal (journalID : Int)
  | GetAllGradeIDs
  | Begin
  | InsertMarks (marks : List (Option Marks))
  | UpdateMarks (marks : List (Option Marks))
  | DeleteMarks (ids : List Int)
  | DeleteMarksByStudentIDType (keys : List MarkByStudentIDType)
  | Commit
  | Rollback
  /-- A line written to `app.errorLogger`. -/
  | log (err : String)
  /-- A response written by `app.outputJSON`. -/
  | outputJSON (status : Nat) (payload : Payload)
  /-- Call of `w.WriteHeader`. -/
  | writeHeader (status : Nat)
  /-- Call of `w.Write`. -/
  | write (body : String)
  /-- A Go panic that leaves the handler. -/
  | goPanic (msg : String)
  | GetUserByID (userID : Int)
  | GetGradeByID (gradeID : Int)
  | IsUserInJournal (userID journalID : Int)
  | InsertMark (mark : Mark)
  | SetJournalLastUpdated (journalID : Int)
  | GetMarkByID (markID : Int)
  | DeleteMark (markID : Int)
  | UpdateMark (mark : Mark)
  | GetStudentsForLesson (lessonID : Int)
  | GetAllClassIDs
  | InsertYear (displayName : String) (courses : Int)
  | InsertClass (name : String) (teacherID : Int)
  | InsertYearForClass (yearID classID : Int) (displayName : String)
  | RemoveCurrentYear
  | SetYearAsCurrent (yearID : Int)
deriving DecidableEq, Repr

/-- The event is a database lookup. -/
def Event.isLookup : Event → Bool
  | .GetLessonByID _ => true
  | .GetJournalByID _ => true
  | .GetMarkIDsForLesson _ => true
  | .GetStudentIDsForJournal _ => true
  | .GetAllGradeIDs => true
  | .GetUserByID _ => true
  | .GetGradeByID _ => true
  | .IsUserInJournal _ _ => true
  | .GetMarkByID _ => true
  | .GetStudentsForLesson _ => true
  | .GetAllClassIDs => true
  | _ => false

/-- The event is one of the four persistence operations. -/
def Event.isWrite : Event → Bool
  | .InsertMarks _ => true
  | .UpdateMarks _ => true
  | .DeleteMarks _ => true
  | .DeleteMarksByStudentIDType _ => true
  | _ => false

/-- The event is a call on the transaction handle or a persistence operation. -/
def Event.isTx : Event → Bool
  | .Begin => true
  | .Commit => true
  | .Rollback => true
  | e => e.isWrite

/-- The event writes something of a response. -/
def Event.isResponse : Event → Bool
  | .outputJSON _ _ => true
  | .writeHeader _ => true
  | .write _ => true
  | _ => false

/-- The event is part of an error report or of a response: a line of the error log or
something written to the response. -/
def Event.isReport : Event → Bool
  | .log _ => true
  | e => e.isResponse

/-- The event is a write of one of the single-mark handlers: `InsertMark`, `UpdateMark`,
`DeleteMark`, or the update of the last-updated marker of a journal. -/
def Event.isSingleWrite : Event → Bool
  | .InsertMark _ => true
  | .UpdateMark _ => true
  | .DeleteMark _ => true
  | .SetJournalLastUpdated _ => true
  | _ => false

/-- The collaborators of the handler, over a database whose committed state has type `σ`.
Lookups read the committed state. `Begin` yields the working state of a transaction, the four
persistence operations transform it, and `Commit` yields the new committed state; a
transaction that is not committed leaves the committed state as it was. Errors are
represented by their text. -/
structure App (σ : Type) where
  GetLessonByID : σ → Int → Except String Lesson
  GetJournalByID : σ → Int → Except String Journal
  inputJSON : String → Except String (List StudentInput)
  outputJSON : Nat → Payload → Except String Unit
  now : Nat
  GetMarkIDsForLesson : σ → Int → Except String (List Int)
  GetStudentIDsForJournal : σ → Int → Except String (List Int)
  GetAllGradeIDs : σ → Except String (List Int)
  Begin : σ → Except String σ
  InsertMarks : σ → List (Option Marks) → Except String σ
  UpdateMarks : σ → List (Option Marks) → Except String σ
  DeleteMarks : σ → List Int → Except String σ
  DeleteMarksByStudentIDType : σ → List MarkByStudentIDType → Except String σ
  Commit : σ → Except String σ

/-- What the handler reads of the HTTP request: the session user, the result of
`strconv.Atoi` on the URL parameter `id` (`none` when it fails) and the body. -/
structure Request where
  sessionUser : User
  URLParamID : Option Int
  body : String

/-- Result of running the handler: the calls it made, in order, and the committed state of
the database afterwards. -/
structure Outcome (σ : Type) where
  trace : List Event
  db : σ

/-- Helper `app.writeErrorResponse` of `cmd/api/errors.go`. -/
def writeErrorResponse {σ : Type} (app : App σ) (status : Nat) (data : Payload) : List Event :=
  match app.outputJSON status data with
  | .ok _ => [.outputJSON status data]
  | .error err => [.log err, .writeHeader StatusInternalServerError, .write "Internal server error"]

/-- Helper `app.writeInternalServerError` of `cmd/api/errors.go`. -/
def writeInternalServerError {σ : Type} (app : App σ) (err : String) : List Event :=
  [.log err] ++ writeErrorResponse app StatusInternalServerError (.error "internal server error")

/-- Modelled from the spec: the helper `app.notAllowed` is not among the sources; it reports
the authorization failure. -/
def notAllowed {σ : Type} (app : App σ) : List Event :=
  writeErrorResponse app StatusForbidden (.error "not allowed")

/-- One guarded persistence call of lines 826-856: the operation is invoked only when the
staged list is not empty. -/
def txCall {σ α : Type} (xs : List α) (ev : Event) (op : σ → List α → Except String σ) (tx : σ) :
    List Event × Except String σ :=
  if xs.length > 0 then ([ev], op tx xs) else ([], .ok tx)

/-- Lines 826-862: the four guarded persistence calls in their order, then `tx.Commit`. The
first error ends the sequence. -/
def applyStaged {σ : Type} (app : App σ) (st : Staged) (tx0 : σ) : List Event × Except String σ :=
  match txCall st.insertMarks (.InsertMarks st.insertMarks) app.InsertMarks tx0 with
  | (e1, .error err) => (e1, .error err)
  | (e1, .ok tx1) =>
    match txCall st.updateMarks (.UpdateMarks st.updateMarks) app.UpdateMarks tx1 with
    | (e2, .error err) => (e1 ++ e2, .error err)
    | (e2, .ok tx2) =>
      match txCall st.deletedMarkIDs (.DeleteMarks st.deletedMarkIDs) app.DeleteMarks tx2 with
      | (e3, .error err) => (e1 ++ e2 ++ e3, .error err)
      | (e3, .ok tx3) =>
        match txCall st.deletedMarksByStudentIDType
            (.DeleteMarksByStudentIDType st.deletedMarksByStudentIDType)
            app.DeleteMarksByStudentIDType tx3 with
        | (e4, .error err) => (e1 ++ e2 ++ e3 ++ e4, .error err)
        | (e4, .ok tx4) =>
          match app.Commit tx4 with
          | .error err => (e1 ++ e2 ++ e3 ++ e4 ++ [.Commit], .error err)
          | .ok db1 => (e1 ++ e2 ++ e3 ++ e4 ++ [.Commit], .ok db1)

/-- Lines 815-868: the validation report or the transaction. Every error path of lines
820-862 is `writeInternalServerError` followed by `return`. -/
def persist {σ : Type} (app : App σ) (db : σ) (st : Staged) : Outcome σ :=
  if st.v.Valid = false then
    ⟨writeErrorResponse app StatusBadRequest (.errors st.v.Errors), db⟩
  else
    match app.Begin db with
    | .error err => ⟨[.Begin] ++ writeInternalServerError app err, db⟩
    | .ok tx0 =>
      match applyStaged app st tx0 with
      | (evs, .error err) => ⟨[.Begin] ++ evs ++ writeInternalServerError app err, db⟩
      | (evs, .ok db1) =>
        match app.outputJSON StatusCreated (.message "success") with
        | .ok _ => ⟨[.Begin] ++ evs ++ [.outputJSON StatusCreated (.message "success")], db1⟩
        | .error err => ⟨[.Begin] ++ evs ++ writeInternalServerError app err, db1⟩

/-- The handler `setMarksForLesson` (lines 628-868). -/
def setMarksForLesson {σ : Type} (app : App σ) (req : Request) (db : σ) : Outcome σ :=
  match req.URLParamID with
  | none => ⟨writeErrorResponse app StatusNotFound (.error ErrNoSuchLesson), db⟩
  | some lessonID =>
    if lessonID < 0 then ⟨writeErrorResponse app StatusNotFound (.error ErrNoSuchLesson), db⟩
    else
    match app.GetLessonByID db lessonID with
    | .error err =>
      ⟨[.GetLessonByID lessonID] ++
        (if err = ErrNoSuchLesson then writeErrorResponse app StatusNotFound (.error err)
         else writeInternalServerError app err), db⟩
    | .ok lesson =>
    match app.GetJournalByID db lesson.JournalID with
    | .error err =>
      ⟨[.GetLessonByID lessonID, .GetJournalByID lesson.JournalID] ++
        (if err = ErrNoSuchJournal then writeErrorResponse app StatusNotFound (.error err)
         else writeInternalServerError app err), db⟩
    | .ok journal =>
    if journal.IsUserTeacherOfJournal req.sessionUser.ID = false ∧
        req.sessionUser.Role ≠ RoleAdministrator then
      ⟨[.GetLessonByID lessonID, .GetJournalByID lesson.JournalID] ++ notAllowed app, db⟩
    else
    match app.inputJSON req.body with
    | .error err =>
      ⟨[.GetLessonByID lessonID, .GetJournalByID lesson.JournalID, .inputJSON] ++
        writeErrorResponse app StatusBadRequest (.error err), db⟩
    | .ok input =>
    match app.GetMarkIDsForLesson db lesson.ID with
    | .error err =>
      ⟨[.GetLessonByID lessonID, .GetJournalByID lesson.JournalID, .inputJSON,
        .GetMarkIDsForLesson lesson.ID] ++ writeInternalServerError app err, db⟩
    | .ok allMarkIDs =>
    match app.GetStudentIDsForJournal db journal.ID with
    | .error err =>
      ⟨[.GetLessonByID lessonID, .GetJournalByID lesson.JournalID, .inputJSON,
        .GetMarkIDsForLesson lesson.ID, .GetStudentIDsForJournal journal.ID] ++
        writeInternalServerError app err, db⟩
    | .ok allStudentIDs =>
    match app.GetAllGradeIDs db with
    | .error err =>
      ⟨[.GetLessonByID lessonID, .GetJournalByID lesson.JournalID, .inputJSON,
        .GetMarkIDsForLesson lesson.ID, .GetStudentIDsForJournal journal.ID, .GetAllGradeIDs] ++
        writeInternalServerError app err, db⟩
    | .ok allGradeIDs =>
    match stage ⟨lesson, journal, req.sessionUser, app.now, allMarkIDs, allStudentIDs,
        allGradeIDs⟩ input with
    | .error msg =>
      ⟨[.GetLessonByID lessonID, .GetJournalByID lesson.JournalID, .inputJSON,
        .GetMarkIDsForLesson lesson.ID, .GetStudentIDsForJournal journal.ID, .GetAllGradeIDs,
        .goPanic msg], db⟩
    | .ok st =>
      ⟨[.GetLessonByID lessonID, .GetJournalByID lesson.JournalID, .inputJSON,
        .GetMarkIDsForLesson lesson.ID, .GetStudentIDsForJournal journal.ID, .GetAllGradeIDs] ++
        (persist app db st).trace, (persist app db st).db⟩

/-! ## The handler `addMark` (lines 18-197) -/

/-- The collaborators of the single-mark handlers, in addition to those of `App`: decoding of
the body of `addMark`, the lookups of a user, of a grade and of the membership of a user in a
journal, and the two writes, which act on the committed state at once; for `deleteMark` and
`updateMark` the lookup of a mark, the decoding of the body of `updateMark` and the two
writes; for `getMarksForLesson` the lookup of the students of a lesson, the students being
named by their identifiers (the slice returned together with an error is taken to be `nil`). -/
structure MarkApp (σ : Type) extends App σ where
  inputAddMark : String → Except String AddMarkInput
  GetUserByID : σ → Int → Except String User
  GetGradeByID : σ → Int → Except String Int
  IsUserInJournal : σ → Int → Int → Except String Bool
  InsertMark : σ → Mark → Except String σ
  SetJournalLastUpdated : σ → Int → Except String σ
  GetMarkByID : σ → Int → Except String Mark
  DeleteMark : σ → Int → Except String σ
  inputUpdateMark : String → Except String UpdateMarkInput
  UpdateMark : σ → Mark → Except String σ
  GetStudentsForLesson : σ → Int → Except String (List Int)

/-- Where the type switch of `addMark` (lines 71-146) leaves the handler: it has returned
after the calls `trace`, or it goes on after the calls `trace` with the mark filled so far. -/
inductive Resolved where
  | done (trace : List Event)
  | cont (trace : List Event) (mark : Mark)

/-- Lines 102-116: the lesson check of the first case of the type switch, after the calls
`evs`. -/
def addMarkLesson {σ : Type} (app : MarkApp σ) (db : σ) (input : AddMarkInput)
    (evs : List Event) (mark : Mark) : Resolved :=
  match input.LessonID with
  | none => .done (evs ++ [.goPanic "nil pointer dereference"])
  | some lid =>
    match app.GetLessonByID db lid with
    | .error err =>
      .done (evs ++ [.GetLessonByID lid] ++
        (if err = ErrNoSuchLesson then
          writeErrorResponse app.toApp StatusNotFound (.error err)
         else writeInternalServerError app.toApp err))
    | .ok lesson =>
      .cont (evs ++ [.GetLessonByID lid])
        { mark with LessonID := some lesson.ID, Course := lesson.Course,
                    JournalID := some lesson.JournalID }

/-- Lines 71-146: the type switch of `addMark`, entered with a validator `v` and the mark
filled so far. -/
def addMarkSwitch {σ : Type} (app : MarkApp σ) (db : σ) (input : AddMarkInput) (v : Validator)
    (mark : Mark) : Resolved :=
  if mark.Type_ = MarkLessonGrade ∨ mark.Type_ = MarkNotDone ∨ mark.Type_ = MarkNoticeGood ∨
      mark.Type_ = MarkNoticeNeutral ∨ mark.Type_ = MarkNoticeBad ∨ mark.Type_ = MarkAbsent ∨
      mark.Type_ = MarkLate then
    let v1 := v.Check (decide (∃ l ∈ input.LessonID, l > 0)) "lesson_id"
      "must be provided and valid"
    if v1.Valid = false then
      .done (writeErrorResponse app.toApp StatusBadRequest (.errors v1.Errors))
    else if input.Type_ = MarkLessonGrade then
      let v2 := v1.Check (decide (∃ g ∈ input.GradeID, g > 0)) "grade_id"
        "must be provided and valid"
      if v2.Valid = false then
        .done (writeErrorResponse app.toApp StatusBadRequest (.errors v2.Errors))
      else
        match input.GradeID with
        | none => .done [.goPanic "nil pointer dereference"]
        | some gid =>
          match app.GetGradeByID db gid with
          | .error err =>
            .done ([.GetGradeByID gid] ++
              (if err = ErrNoSuchGrade then
                writeErrorResponse app.toApp StatusNotFound (.error err)
               else writeInternalServerError app.toApp err))
          | .ok gradeID =>
            addMarkLesson app db input [.GetGradeByID gid] { mark with GradeID := some gradeID }
    else addMarkLesson app db input [] mark
  else if mark.Type_ = MarkCourseGrade ∨ mark.Type_ = MarkSubjectGrade then
    let v1 := if mark.Type_ = MarkCourseGrade then
        v.Check (decide (∃ k ∈ input.Course, k > 0)) "course" "must be provided and valid"
      else v
    let mark1 := if mark.Type_ = MarkCourseGrade then { mark with Course := input.Course }
      else mark
    let v2 := v1.Check (decide (∃ j ∈ input.JournalID, j > 0)) "journal_id"
      "must be provided and valid"
    let v3 := v2.Check (decide (∃ g ∈ input.GradeID, g > 0)) "grade_id"
      "must be provided and valid"
    if v3.Valid = false then
      .done (writeErrorResponse app.toApp StatusBadRequest (.errors v3.Errors))
    else
      match input.GradeID with
      | none => .done [.goPanic "nil pointer dereference"]
      | some gid =>
        match app.GetGradeByID db gid with
        | .error err =>
          .done ([.GetGradeByID gid] ++
            (if err = ErrNoSuchGrade then
              writeErrorResponse app.toApp StatusNotFound (.error err)
             else writeInternalServerError app.toApp err))
        | .ok gradeID =>
          .cont [.GetGradeByID gid]
            { mark1 with GradeID := some gradeID, JournalID := input.JournalID }
  else .done (writeErrorResponse app.toApp StatusNotFound (.error ErrNoSuchType))

/-- Lines 148-197: the journal lookup, the authorization and membership checks, and the two
writes, after the calls `evs`. The two readings of the clock at lines 178-179 are taken to
give the same time. -/
def addMarkTail {σ : Type} (app : MarkApp σ) (req : Request) (db : σ) (input : AddMarkInput)
    (evs : List Event) (mark : Mark) : Outcome σ :=
  match mark.JournalID with
  | none => ⟨evs ++ [.goPanic "nil pointer dereference"], db⟩
  | some jid =>
    match app.GetJournalByID db jid with
    | .error err =>
      ⟨evs ++ [.GetJournalByID jid] ++
        (if err = ErrNoSuchJournal then
          writeErrorResponse app.toApp StatusNotFound (.error err)
         else writeInternalServerError app.toApp err), db⟩
    | .ok journal =>
      if journal.IsUserTeacherOfJournal req.sessionUser.ID = false ∧
          req.sessionUser.Role ≠ RoleAdministrator then
        ⟨evs ++ [.GetJournalByID jid] ++ notAllowed app.toApp, db⟩
      else
        match app.IsUserInJournal db mark.UserID journal.ID with
        | .error err =>
          ⟨evs ++ [.GetJournalByID jid, .IsUserInJournal mark.UserID journal.ID] ++
            writeInternalServerError app.toApp err, db⟩
        | .ok false =>
          ⟨evs ++ [.GetJournalByID jid, .IsUserInJournal mark.UserID journal.ID] ++
            writeErrorResponse app.toApp StatusTeapot (.error "user not in journal"), db⟩
        | .ok true =>
          match app.InsertMark db
              { mark with JournalID := some journal.ID, Comment := input.Comment,
                          TeacherID := some req.sessionUser.ID, CreatedAt := app.now,
                          UpdatedAt := app.now } with
          | .error err =>
            ⟨evs ++ [.GetJournalByID jid, .IsUserInJournal mark.UserID journal.ID,
              .InsertMark
                { mark with JournalID := some journal.ID, Comment := input.Comment,
                            TeacherID := some req.sessionUser.ID, CreatedAt := app.now,
                            UpdatedAt := app.now }] ++
              writeInternalServerError app.toApp err, db⟩
          | .ok db1 =>
            match app.SetJournalLastUpdated db1 journal.ID with
            | .error err =>
              ⟨evs ++ [.GetJournalByID jid, .IsUserInJournal mark.UserID journal.ID,
                .InsertMark
                  { mark with JournalID := some journal.ID, Comment := input.Comment,
                              TeacherID := some req.sessionUser.ID, CreatedAt := app.now,
                              UpdatedAt := app.now },
                .SetJournalLastUpdated journal.ID] ++
                writeInternalServerError app.toApp err, db1⟩
            | .ok db2 =>
              ⟨evs ++ [.GetJournalByID jid, .IsUserInJournal mark.UserID journal.ID,
                .InsertMark
                  { mark with JournalID := some journal.ID, Comment := input.Comment,
                              TeacherID := some req.sessionUser.ID, CreatedAt := app.now,
                              UpdatedAt := app.now },
                .SetJournalLastUpdated journal.ID] ++
                (match app.outputJSON StatusCreated (.message "success") with
                 | .ok _ => [.outputJSON StatusCreated (.message "success")]
                 | .error err => writeInternalServerError app.toApp err), db2⟩

/-- The handler `addMark` (lines 18-197). -/
def addMark {σ : Type} (app : MarkApp σ) (req : Request) (db : σ) : Outcome σ :=
  match app.inputAddMark req.body with
  | .error err =>
    ⟨[.inputJSON] ++ writeErrorResponse app.toApp StatusBadRequest (.error err), db⟩
  | .ok input =>
    let v := (NewValidator.Check (decide (input.UserID > 0)) "user_id"
      "must be provided and valid").Check (decide (input.Type_ ≠ "")) "type"
      "must be provided and valid"
    if v.Valid = false then
      ⟨[.inputJSON] ++ writeErrorResponse app.toApp StatusBadRequest (.errors v.Errors), db⟩
    else
      match app.GetUserByID db input.UserID with
      | .error err =>
        ⟨[.inputJSON, .GetUserByID input.UserID] ++
          (if err = ErrNoSuchUser then
            writeErrorResponse app.toApp StatusNotFound (.error err)
           else writeInternalServerError app.toApp err), db⟩
      | .ok user =>
        if user.Role ≠ RoleStudent then
          ⟨[.inputJSON, .GetUserByID input.UserID] ++
            writeErrorResponse app.toApp StatusBadRequest (.error ErrNotAStudent), db⟩
        else
          match addMarkSwitch app db input v
              ⟨0, user.ID, none, none, none, none, none, input.Type_, none, 0, 0⟩ with
          | .done evs => ⟨[.inputJSON, .GetUserByID input.UserID] ++ evs, db⟩
          | .cont evs mark =>
            addMarkTail app req db input ([.inputJSON, .GetUserByID input.UserID] ++ evs) mark

/-! ## The handlers `deleteMark`, `updateMark` and `getMarksForLesson` -/

/-- The closing lines of a handler: `app.outputJSON`, and `writeInternalServerError` when it
fails. -/
def outputOrInternalError {σ : Type} (app : App σ) (status : Nat) (data : Payload) :
    List Event :=
  match app.outputJSON status data with
  | .ok _ => [.outputJSON status data]
  | .error err => writeInternalServerError app err

/-- The handler `getMarksForLesson` (lines 581-626). The error branch of lines 618-620 has no
`return`: the handler goes on to line 622 with the `nil` slice. -/
def getMarksForLesson {σ : Type} (app : MarkApp σ) (req : Request) (db : σ) : Outcome σ :=
  match req.URLParamID with
  | none => ⟨writeErrorResponse app.toApp StatusNotFound (.error ErrNoSuchLesson), db⟩
  | some lessonID =>
    if lessonID < 0 then
      ⟨writeErrorResponse app.toApp StatusNotFound (.error ErrNoSuchLesson), db⟩
    else
    match app.GetLessonByID db lessonID with
    | .error err =>
      ⟨[.GetLessonByID lessonID] ++
        (if err = ErrNoSuchLesson then writeErrorResponse app.toApp StatusNotFound (.error err)
         else writeInternalServerError app.toApp err), db⟩
    | .ok lesson =>
    match app.GetJournalByID db lesson.JournalID with
    | .error err =>
      ⟨[.GetLessonByID lessonID, .GetJournalByID lesson.JournalID] ++
        (if err = ErrNoSuchJournal then
          writeErrorResponse app.toApp StatusNotFound (.error err)
         else writeInternalServerError app.toApp err), db⟩
    | .ok journal =>
    if journal.IsUserTeacherOfJournal req.sessionUser.ID = false ∧
        req.sessionUser.Role ≠ RoleAdministrator then
      ⟨[.GetLessonByID lessonID, .GetJournalByID lesson.JournalID] ++ notAllowed app.toApp, db⟩
    else
    match app.GetStudentsForLesson db lesson.ID with
    | .error err =>
      ⟨[.GetLessonByID lessonID, .GetJournalByID lesson.JournalID,
        .GetStudentsForLesson lesson.ID] ++ writeInternalServerError app.toApp err ++
        outputOrInternalError app.toApp StatusOK (.students []), db⟩
    | .ok students =>
      ⟨[.GetLessonByID lessonID, .GetJournalByID lesson.JournalID,
        .GetStudentsForLesson lesson.ID] ++
        outputOrInternalError app.toApp StatusOK (.students students), db⟩

/-! ## Vocabulary of the statements -/

/-- The request passes the lookups, the authorization check, the decoding and the three
preloads of lines 628-701, with lesson, journal, session user, time and reference sets as in
`c` and with decoded batch `input`. -/
def Prepared {σ : Type} (app : App σ) (req : Request) (db : σ) (lessonID : Int) (c : Ctx)
    (input : List StudentInput) : Prop :=
  req.URLParamID = some lessonID ∧ 0 ≤ lessonID ∧
  app.GetLessonByID db lessonID = .ok c.lesson ∧
  app.GetJournalByID db c.lesson.JournalID = .ok c.journal ∧
  (c.journal.IsUserTeacherOfJournal req.sessionUser.ID = true ∨
    req.sessionUser.Role = RoleAdministrator) ∧
  app.inputJSON req.body = .ok input ∧
  app.GetMarkIDsForLesson db c.lesson.ID = .ok c.allMarkIDs ∧
  app.GetStudentIDsForJournal db c.journal.ID = .ok c.allStudentIDs ∧
  app.GetAllGradeIDs db = .ok c.allGradeIDs ∧
  c.sessionUser = req.sessionUser ∧ c.currentTime = app.now

/-- The calls made by a prepared request before the staging loops. -/
def preloadTrace (lessonID : Int) (c : Ctx) : List Event :=
  [.GetLessonByID lessonID, .GetJournalByID c.lesson.JournalID, .inputJSON,
   .GetMarkIDsForLesson c.lesson.ID, .GetStudentIDsForJournal c.journal.ID, .GetAllGradeIDs]

/-- The request reaches the authorization check of line 659 and fails it: the lesson and its
journal are found, and the session user is neither the teacher of the journal nor an
administrator. -/
def Unauthorized {σ : Type} (app : App σ) (req : Request) (db : σ) (lessonID : Int)
    (lesson : Lesson) (journal : Journal) : Prop :=
  req.URLParamID = some lessonID ∧ 0 ≤ lessonID ∧
  app.GetLessonByID db lessonID = .ok lesson ∧
  app.GetJournalByID db lesson.JournalID = .ok journal ∧
  journal.IsUserTeacherOfJournal req.sessionUser.ID = false ∧
  req.sessionUser.Role ≠ RoleAdministrator

/-- The type is one of `common_grade`, `notice_good`, `notice_neutral`, `notice_bad`. -/
def EditType (t : String) : Prop :=
  t = MarkCommonGrade ∨ t = MarkNoticeGood ∨ t = MarkNoticeNeutral ∨ t = MarkNoticeBad

instance (t : String) : Decidable (EditType t) :=
  inferInstanceAs (Decidable (_ ∨ _))

/-- The type is one of the three notice types. -/
def NoticeType (t : String) : Prop :=
  t = MarkNoticeGood ∨ t = MarkNoticeNeutral ∨ t = MarkNoticeBad

instance (t : String) : Decidable (NoticeType t) :=
  inferInstanceAs (Decidable (_ ∨ _))

/-- The edit passes the type check of line 791: its type is an edit type or it is a removal. -/
def PassesTypeCheck (m : MarkInput) : Prop := EditType m.Type_ ∨ m.Remove = true

instance (m : MarkInput) : Decidable (PassesTypeCheck m) :=
  inferInstanceAs (Decidable (_ ∨ _))

/-- An edit is valid for its type, in the words of the spec: the type is an edit type or the
edit is a removal; the id, when given, is one of the mark ids of the lesson; and, for an edit
that is not a removal, a `common_grade` carries a grade of the valid grade ids and a notice
carries a non-empty comment. -/
def ValidEdit (c : Ctx) (m : MarkInput) : Prop :=
  PassesTypeCheck m ∧
  (∀ id ∈ m.ID, id ∈ c.allMarkIDs) ∧
  (m.Remove = false → m.Type_ = MarkCommonGrade → ∃ g ∈ m.Grade, g ∈ c.allGradeIDs) ∧
  (m.Remove = false → NoticeType m.Type_ → ∃ s ∈ m.Comment, s ≠ "")

instance (c : Ctx) (m : MarkInput) : Decidable (ValidEdit c m) :=
  inferInstanceAs (Decidable (_ ∧ _))

/-- The insert implied by one edit of an entry of student `studentID`: an edit without id that
is not a removal inserts the record built from it. -/
def editInsert (c : Ctx) (studentID : Int) (m : MarkInput) : Option (Option Marks) :=
  if m.ID = none ∧ m.Remove = false then
    some (some (buildMark c 0 studentID m.Type_ m.Comment m.Grade))
  else none

/-- The update implied by one edit: an edit with an id that is not a removal updates the mark
with that id by the record built from it (the record names user 0). -/
def editUpdate (c : Ctx) (m : MarkInput) : Option (Option Marks) :=
  match m.ID with
  | some id =>
    if m.Remove = false then some (some (buildMark c id 0 m.Type_ m.Comment m.Grade)) else none
  | none => none

/-- The delete by id implied by one edit: a removal with an id deletes that id. -/
def editDelete (m : MarkInput) : Option Int :=
  if m.Remove = true then m.ID else none

/-- The inserts implied by one entry, in input order: one per flag that is `true`, then one
per edit without id that is not a removal. -/
def impliedInserts (c : Ctx) (s : StudentInput) : List (Option Marks) :=
  (if s.Absent = some true then [some (buildMark c 0 s.StudentID MarkAbsent none none)] else []) ++
  (if s.Late = some true then [some (buildMark c 0 s.StudentID MarkLate none none)] else []) ++
  (if s.NotDone = some true then [some (buildMark c 0 s.StudentID MarkNotDone none none)]
    else []) ++
  s.Marks.filterMap (editInsert c s.StudentID)

/-- The updates implied by one entry, in input order: one per edit with an id that is not a
removal. -/
def impliedUpdates (c : Ctx) (s : StudentInput) : List (Option Marks) :=
  s.Marks.filterMap (editUpdate c)

/-- The deletes by id implied by one entry, in input order: one per removal with an id. -/
def impliedDeletes (s : StudentInput) : List Int :=
  s.Marks.filterMap editDelete

/-- The deletes by (student, type) implied by one entry: one per flag that is `false`. -/
def impliedKeyDeletes (s : StudentInput) : List MarkByStudentIDType :=
  (if s.Absent = some false then [⟨s.StudentID, MarkAbsent⟩] else []) ++
  (if s.Late = some false then [⟨s.StudentID, MarkLate⟩] else []) ++
  (if s.NotDone = some false then [⟨s.StudentID, MarkNotDone⟩] else [])

/-- What a batch of valid items implies: no validation error and the four lists of implied
operations, each in input order. -/
def impliedStaged (c : Ctx) (input : List StudentInput) : Staged :=
  { v := NewValidator
    insertMarks := (input.map (impliedInserts c)).flatten
    updateMarks := (input.map (impliedUpdates c)).flatten
    deletedMarkIDs := (input.map impliedDeletes).flatten
    deletedMarksByStudentIDType := (input.map impliedKeyDeletes).flatten }

/-- The persistence calls for staged lists, in the fixed order, a call being made only for a
list that is not empty. -/
def stagedCalls (st : Staged) : List Event :=
  (if st.insertMarks = [] then [] else [Event.InsertMarks st.insertMarks]) ++
  (if st.updateMarks = [] then [] else [Event.UpdateMarks st.updateMarks]) ++
  (if st.deletedMarkIDs = [] then [] else [Event.DeleteMarks st.deletedMarkIDs]) ++
  (if st.deletedMarksByStudentIDType = [] then []
    else [Event.DeleteMarksByStudentIDType st.deletedMarksByStudentIDType])

/-- An item of a batch: an entry, or an edit of an entry together with its index in the
`marks` array of the entry. -/
inductive Item where
  | entry (s : StudentInput)
  | edit (s : StudentInput) (mi : Nat) (m : MarkInput)
deriving DecidableEq, Repr

/-- The items of a batch in input order: each entry, followed by its edits. -/
def items (input : List StudentInput) : List Item :=
  (input.map (fun s => Item.entry s :: s.Marks.enum.map (fun p => Item.edit s p.1 p.2))).flatten

/-- An item that the handler checks and rejects. An entry is rejected when its student id is
at least 1 and is not enrolled. An edit is checked only inside an entry whose student id is
at least 1 and enrolled; it is rejected when it is not valid for its type. -/
def Item.Rejected (c : Ctx) : Item → Prop
  | .entry s => 1 ≤ s.StudentID ∧ s.StudentID ∉ c.allStudentIDs
  | .edit s _ m => 1 ≤ s.StudentID ∧ s.StudentID ∈ c.allStudentIDs ∧ ¬ ValidEdit c m

instance (c : Ctx) (i : Item) : Decidable (i.Rejected c) :=
  match i with
  | .entry _ => inferInstanceAs (Decidable (_ ∧ _))
  | .edit _ _ _ => inferInstanceAs (Decidable (_ ∧ _))

/-- The message reported for an edit whose grade or comment is rejected: a `common_grade`
without grade, a `common_grade` whose grade is not a valid grade id, or a notice without
comment. -/
def contentError (mi : Nat) (m : MarkInput) : String × String :=
  if m.Type_ = MarkCommonGrade then
    (if m.Grade = none then ("grade", toString mi ++ ": must be provided")
     else ("grade", toString mi ++ ": invalid grade ID"))
  else ("comment", toString mi ++ ": must be provided and not empty")

/-- The message reported for a rejected edit: the first failing check among type, id, and
grade or comment. -/
def editError (c : Ctx) (mi : Nat) (m : MarkInput) : String × String :=
  if ¬ PassesTypeCheck m then ("type", ErrNoSuchType ++ ": " ++ toString mi)
  else
    match m.ID with
    | some id =>
      if id ∉ c.allMarkIDs then
        ("mark_id", ErrNoSuchMark ++ ": " ++ toString id ++ " at " ++ toString mi)
      else contentError mi m
    | none => contentError mi m

/-- The message reported for a rejected item. -/
def Item.error (c : Ctx) : Item → String × String
  | .entry s => ("student_id", ErrUserNotInJournal ++ ": " ++ toString s.StudentID)
  | .edit _ mi m => editError c mi m

/-- The validation report in the words of the spec: one message per rejected item, in the
order of the items in the batch. -/
def reportedErrors (c : Ctx) (input : List StudentInput) : List (String × String) :=
  ((items input).filter (fun i => decide (i.Rejected c))).map (Item.error c)

/-- The accumulators after the three flag blocks of an entry: the inserts of the flags that
are `true` and the delete keys of the flags that are `false` are appended. -/
def flagsStaged (c : Ctx) (st : Staged) (s : StudentInput) : Staged :=
  { st with
    insertMarks := st.insertMarks ++
      ((if s.Absent = some true then [some (buildMark c 0 s.StudentID MarkAbsent none none)]
        else []) ++
       (if s.Late = some true then [some (buildMark c 0 s.StudentID MarkLate none none)]
        else []) ++
       (if s.NotDone = some true then [some (buildMark c 0 s.StudentID MarkNotDone none none)]
        else []))
    deletedMarksByStudentIDType := st.deletedMarksByStudentIDType ++ impliedKeyDeletes s }

/-- The type is one of the three flag types `absent`, `late`, `not_done`. -/
def FlagType (t : String) : Prop :=
  t = MarkAbsent ∨ t = MarkLate ∨ t = MarkNotDone

instance (t : String) : Decidable (FlagType t) :=
  inferInstanceAs (Decidable (_ ∨ _))

/-- A record that `newMark` returns: it is built by `buildMark` from a type that the type
switch accepts, with a valid grade when the type is `common_grade` and a non-empty comment
when the type is a notice. -/
def Produced (c : Ctx) (r : Marks) : Prop :=
  ∃ (ID studentID : Int) (mtype : String) (comment : Option String) (grade : Option Int),
    r = buildMark c ID studentID mtype comment grade ∧
    (EditType mtype ∨ FlagType mtype) ∧
    (mtype = MarkCommonGrade → ∃ g ∈ grade, g ∈ c.allGradeIDs) ∧
    (NoticeType mtype → ∃ t ∈ comment, t ≠ "")

/-- Every record of the staged insert and update lists (the entries that are not `nil`) is a
record that `newMark` returns. -/
def Staged.AllProduced (c : Ctx) (st : Staged) : Prop :=
  ∀ r, some r ∈ st.insertMarks ∨ some r ∈ st.updateMarks → Produced c r

/-! ## An in-memory instance of the collaborators -/

/-- Modelled from the spec: `MarkModel.InsertMarks` is not among the sources; a bulk insert
adds the staged records to the marks, each under a fresh identity. A `nil` record is an
error. -/
def memInsertMarks (tx : List Marks) : List (Option Marks) → Except String (List Marks)
  | [] => .ok tx
  | none :: _ => .error "nil mark"
  | some r :: rs =>
    memInsertMarks (tx ++ [{ r with ID := (tx.map (fun x => x.ID)).foldl max 0 + 1 }]) rs

/-- Modelled from the spec: `MarkModel.UpdateMarks` is not among the sources; a bulk update by
id sets the grade, comment, teacher and update time of the existing mark with that id. -/
def memUpdateMarks (tx : List Marks) : List (Option Marks) → Except String (List Marks)
  | [] => .ok tx
  | none :: _ => .error "nil mark"
  | some r :: rs =>
    memUpdateMarks (tx.map (fun x =>
      if x.ID = r.ID then
        { x with GradeID := r.GradeID, Comment := r.Comment, TeacherID := r.TeacherID,
                 UpdatedAt := r.UpdatedAt }
      else x)) rs

/-- Modelled from the spec: `MarkModel.DeleteMarks` is not among the sources; a bulk delete by
id list removes the marks whose id is listed. -/
def memDeleteMarks (tx : List Marks) (ids : List Int) : Except String (List Marks) :=
  .ok (tx.filter (fun x => x.ID ∉ ids))

/-- Modelled from the spec: `MarkModel.DeleteMarksByStudentIDType` is not among the sources; a
bulk delete by (student, type) pairs removes any existing mark of that type for that student,
regardless of count. -/
def memDeleteMarksByStudentIDType (tx : List Marks) (keys : List MarkByStudentIDType) :
    Except String (List Marks) :=
  .ok (tx.filter (fun x =>
    ¬ ∃ k ∈ keys, x.UserID = some k.StudentID ∧ x.Type_ = some k.Type_))

/-- An instance of the collaborators over a list of marks: one lesson, its journal with the
students `enrolled`, the valid grade ids `grades`; every body decodes to `decoded`. -/
def memApp (lesson : Lesson) (journal : Journal) (enrolled grades : List Int)
    (decoded : Except String (List StudentInput)) (now : Nat) : App (List Marks) :=
  { GetLessonByID := fun _ id => if id = lesson.ID then .ok lesson else .error ErrNoSuchLesson
    GetJournalByID := fun _ id =>
      if id = journal.ID then .ok journal else .error ErrNoSuchJournal
    inputJSON := fun _ => decoded
    outputJSON := fun _ _ => .ok ()
    now := now
    GetMarkIDsForLesson := fun db id =>
      .ok ((db.filter (fun x => x.LessonID = some id)).map (fun x => x.ID))
    GetStudentIDsForJournal := fun _ id => if id = journal.ID then .ok enrolled else .ok []
    GetAllGradeIDs := fun _ => .ok grades
    Begin := fun db => .ok db
    InsertMarks := memInsertMarks
    UpdateMarks := memUpdateMarks
    DeleteMarks := memDeleteMarks
    DeleteMarksByStudentIDType := memDeleteMarksByStudentIDType
    Commit := fun tx => .ok tx }

/-- What the transaction of the handler does to a list of marks with the in-memory
operations: bulk insert, bulk update, delete by id, delete by (student, type), in this
order. -/
def memApply (tx : List Marks) (st : Staged) : Except String (List Marks) :=
  match memInsertMarks tx st.insertMarks with
  | .error e => .error e
  | .ok t1 =>
    match memUpdateMarks t1 st.updateMarks with
    | .error e => .error e
    | .ok t2 =>
      match memDeleteMarks t2 st.deletedMarkIDs with
      | .error e => .error e
      | .ok t3 => memDeleteMarksByStudentIDType t3 st.deletedMarksByStudentIDType

/-- The context of a request of `user` on the in-memory instance with marks `db`. -/
def memCtx (lesson : Lesson) (journal : Journal) (enrolled grades : List Int) (user : User)
    (now : Nat) (db : List Marks) : Ctx :=
  ⟨lesson, journal, user, now,
    (db.filter (fun x => x.LessonID = some lesson.ID)).map (fun x => x.ID), enrolled, grades⟩

/-- The batch entry that sets the one flag of type `mtype` (absent, late or not_done) of a
student to `flag` and carries nothing else. -/
def flagEntry (studentID : Int) (mtype : String) (flag : Bool) : StudentInput :=
  ⟨studentID, if mtype = MarkAbsent then some flag else none,
    if mtype = MarkLate then some flag else none,
    if mtype = MarkNotDone then some flag else none, []⟩

/-- The marks of type `mtype` of a student among the marks `db`. -/
def marksOf (studentID : Int) (mtype : String) (db : List Marks) : List Marks :=
  db.filter (fun x => x.UserID = some studentID ∧ x.Type_ = some mtype)

/-- The lesson of the examples: lesson 7 of course 2 in journal 3. -/
def demoLesson : Lesson := ⟨7, some 2, 3⟩
/-- The journal of the examples: journal 3, taught by user 10. -/
def demoJournal : Journal := ⟨3, 10⟩
/-- The teacher of the journal of the examples. -/
def demoTeacher : User := ⟨10, "teacher"⟩
/-- A user who is neither the teacher of the journal of the examples nor an administrator. -/
def demoOutsider : User := ⟨11, "teacher"⟩
/-- The database of the examples: mark 42, a lesson grade of student 5 in lesson 7. -/
def demoDB : List Marks :=
  [⟨42, some 5, some 7, some 2, some 3, some 10, some "lesson_grade", some 3, none, some 1,
    some 1⟩]
/-- The collaborators of the examples: student 5 is enrolled, grade 3 is valid. -/
def demoApp (decoded : List StudentInput) : App (List Marks) :=
  memApp demoLesson demoJournal [5] [3] (.ok decoded) 1000
/-- The context of a request of the teacher on the examples. -/
def demoCtx : Ctx := ⟨demoLesson, demoJournal, demoTeacher, 1000, [42], [5], [3]⟩
/-- A request of the teacher for lesson 7. -/
def demoRequest : Request := ⟨demoTeacher, some 7, ""⟩
/-- A batch of valid items: student 5 is late and not marked absent, receives grade 3, and the
existing mark 42 is removed. -/
def demoBatch : List StudentInput :=
  [⟨5, some false, some true, none,
    [⟨none, some 3, "common_grade", none, false⟩, ⟨some 42, none, "", none, true⟩]⟩]

/-- A batch whose first entry names student 0, who is not enrolled, and whose second entry
marks the enrolled student 5 absent. -/
def skippedBatch : List StudentInput :=
  [⟨0, none, none, none, []⟩, ⟨5, some true, none, none, []⟩]
/-- A batch with rejected items: an edit of an unknown type, an edit of the unknown mark 41, a
notice without comment, a removal without id, and an entry of student 6, who is not
enrolled. -/
def rejectedBatch : List StudentInput :=
  [⟨5, none, some true, none,
    [⟨none, none, "praise", none, false⟩, ⟨some 41, none, "notice_bad", some "x", false⟩,
     ⟨none, none, "notice_good", some "", false⟩, ⟨none, none, "", none, true⟩]⟩,
   ⟨6, some true, none, none, []⟩]
/-- The collaborators of the examples with a bulk insert that fails. -/
def failingApp (decoded : List StudentInput) : App (List Marks) :=
  { demoApp decoded with InsertMarks := fun _ _ => .error "insert failed" }
/-- A request of the outsider for lesson 7. -/
def outsiderRequest (body : String) : Request := ⟨demoOutsider, some 7, body⟩
/-- The row of the marks that an inserted `data.Mark` becomes, under the identity `id`. -/
def Mark.toRow (m : Mark) (id : Int) : Marks :=
  ⟨id, some m.UserID, m.LessonID, m.Course, m.JournalID, m.TeacherID, some m.Type_, m.GradeID,
    m.Comment, some m.CreatedAt, some m.UpdatedAt⟩
/-- The `data.Mark` read from a row of the marks. -/
def Marks.toMark (x : Marks) : Mark :=
  ⟨x.ID, x.UserID.getD 0, x.LessonID, x.Course, x.JournalID, x.GradeID, x.Comment,
    x.Type_.getD "", x.TeacherID, x.CreatedAt.getD 0, x.UpdatedAt.getD 0⟩
/-- The collaborators of the examples for the single-mark handlers: user 5 is a student of
journal 3, grade 3 exists, every body of `addMark` decodes to `decoded` and every body of
`updateMark` to an input without grade and without comment; the students of a lesson are the
owners of its marks. -/
def demoMarkApp (decoded : AddMarkInput) : MarkApp (List Marks) :=
  { toApp := demoApp []
    inputAddMark := fun _ => .ok decoded
    GetUserByID := fun _ id => if id = 5 then .ok ⟨5, RoleStudent⟩ else .error ErrNoSuchUser
    GetGradeByID := fun _ id => if id = 3 then .ok 3 else .error ErrNoSuchGrade
    IsUserInJournal := fun _ userID journalID => .ok (decide (userID = 5 ∧ journalID = 3))
    InsertMark := fun db m => .ok (db ++ [m.toRow ((db.map (fun x => x.ID)).foldl max 0 + 1)])
    SetJournalLastUpdated := fun db _ => .ok db
    GetMarkByID := fun db id =>
      match db.find? (fun x => x.ID = id) with
      | some x => .ok x.toMark
      | none => .error ErrNoSuchMark
    DeleteMark := fun db id => .ok (db.filter (fun x => x.ID ≠ id))
    inputUpdateMark := fun _ => .ok ⟨none, none⟩
    UpdateMark := fun db m => .ok (db.map (fun x => if x.ID = m.ID then m.toRow m.ID else x))
    GetStudentsForLesson := fun db id =>
      .ok ((db.filter (fun x => x.LessonID = some id)).map (fun x => x.UserID.getD 0)) }
/-- A request to `addMark` for a good notice for student 5 in lesson 7, without comment. -/
def noticeWithoutComment : AddMarkInput := ⟨5, some 7, none, none, none, none, "notice_good"⟩

/-! ## Vocabulary of the statements about the transaction and the single-mark handlers -/

/-- The result of the guarded persistence calls of lines 826-856 alone, without the commit:
the working state of the transaction after the four calls, each made on the state left by the
one before and only when its staged list is not empty, or the first error. -/
def applyOps {σ : Type} (app : App σ) (st : Staged) (tx0 : σ) : Except String σ :=
  match (txCall st.insertMarks (.InsertMarks st.insertMarks) app.InsertMarks tx0).2 with
  | .error err => .error err
  | .ok tx1 =>
    match (txCall st.updateMarks (.UpdateMarks st.updateMarks) app.UpdateMarks tx1).2 with
    | .error err => .error err
    | .ok tx2 =>
      match (txCall st.deletedMarkIDs (.DeleteMarks st.deletedMarkIDs) app.DeleteMarks tx2).2 with
      | .error err => .error err
      | .ok tx3 =>
        (txCall st.deletedMarksByStudentIDType
          (.DeleteMarksByStudentIDType st.deletedMarksByStudentIDType)
          app.DeleteMarksByStudentIDType tx3).2

/-- The entry is processed by the staging loop: its student id is at least 1 and enrolled. -/
def Processed (c : Ctx) (s : StudentInput) : Prop :=
  1 ≤ s.StudentID ∧ s.StudentID ∈ c.allStudentIDs

instance (c : Ctx) (s : StudentInput) : Decidable (Processed c s) :=
  inferInstanceAs (Decidable (_ ∧ _))

/-- Two states of the accumulators agree on the validator, on the staged updates and on the
staged deletes by id. -/
def SameUpdates (st st1 : Staged) : Prop :=
  st.v = st1.v ∧ st.updateMarks = st1.updateMarks ∧ st.deletedMarkIDs = st1.deletedMarkIDs

/-- Two entries carry the same edits, and are the same entry or are both processed. -/
def SameEdits (c : Ctx) (s s1 : StudentInput) : Prop :=
  s1 = s ∨ (s.Marks = s1.Marks ∧ Processed c s ∧ Processed c s1)

/-- A `nil` record among the staged inserts or updates comes with a recorded validation
error. -/
def Staged.NilMeansError (st : Staged) : Prop :=
  (none ∈ st.insertMarks ∨ none ∈ st.updateMarks) → st.v.Errors ≠ []

/-- The operation that a recorded call on the transaction stands for, applied to the working
state of the transaction: the four persistence operations with the list they were called
with, and the commit. Other events leave the state as it is. -/
def Event.run {σ : Type} (app : App σ) : Event → σ → Except String σ
  | .InsertMarks marks, tx => app.InsertMarks tx marks
  | .UpdateMarks marks, tx => app.UpdateMarks tx marks
  | .DeleteMarks ids, tx => app.DeleteMarks tx ids
  | .DeleteMarksByStudentIDType keys, tx => app.DeleteMarksByStudentIDType tx keys
  | .Commit, tx => app.Commit tx
  | _, tx => .ok tx

/-- The operations of a list of recorded calls, applied one after the other, each to the state
left by the one before; the first error ends the run. -/
def runEvents {σ : Type} (app : App σ) : List Event → σ → Except String σ
  | [], tx => .ok tx
  | e :: es, tx =>
    match e.run app tx with
    | .error err => .error err
    | .ok tx1 => runEvents app es tx1

/-! ## The grouping loop of `getMarksForStudent` (lines 456-476) -/

/-- The field of `data.NJournal` that the grouping loop reads. -/
structure NJournal where
  ID : Int
deriving DecidableEq, Repr

/-- The local type `jwm`: a journal (the embedded `*data.NJournal`, here the field `journal`)
with its marks by key. The Go map `map[int][]*data.Mark` is the function that gives the slice
stored under a key, a key that is not in the map giving the `nil` slice, as a read of the map
does. -/
structure jwm where
  journal : NJournal
  Marks : Int → List Mark

/-- The assignment `j.Marks[k] = append(j.Marks[k], m)`. -/
def appendAt (marks : Int → List Mark) (k : Int) (m : Mark) : Int → List Mark :=
  fun k1 => if k1 = k then marks k1 ++ [m] else marks k1

/-- Body of the inner loop (lines 467-473) for the journal `j` and the mark `m`; a mark whose
journal id is `nil` makes `*m.JournalID` panic. -/
def groupStep (j : jwm) (m : Mark) : Except String jwm :=
  match m.JournalID with
  | none => .error "nil pointer dereference"
  | some journalID =>
    if j.journal.ID = journalID then
      match m.Course with
      | some course => .ok { j with Marks := appendAt j.Marks course m }
      | none => .ok { j with Marks := appendAt j.Marks (-1) m }
    else .ok j

/-- The inner loop (lines 466-474) over the marks, for one journal. -/
def groupInner : jwm → List Mark → Except String jwm
  | j, [] => .ok j
  | j, m :: ms =>
    match groupStep j m with
    | .error e => .error e
    | .ok j1 => groupInner j1 ms

/-- The outer loop (lines 465-475) over the journals with their marks. -/
def groupOuter : List jwm → List Mark → Except String (List jwm)
  | [], _ => .ok []
  | j :: js, marks =>
    match groupInner j marks with
    | .error e => .error e
    | .ok j1 =>
      match groupOuter js marks with
      | .error e => .error e
      | .ok rest => .ok (j1 :: rest)

/-- Lines 456-476: every journal is paired with an empty map, then the marks are distributed
over the maps. -/
def journalsWithMarks (journals : List NJournal) (marks : List Mark) :
    Except String (List jwm) :=
  groupOuter (journals.map (fun j => ⟨j, fun _ => []⟩)) marks

/-- The key of a mark in the words of the claim: its course number, or -1 when it has no
course. -/
def courseKey (m : Mark) : Int :=
  match m.Course with
  | some course => course
  | none => -1

/-- The marks of journal `journalID` with key `key` among `marks`, in the order of `marks`. -/
def bucket (journalID key : Int) (marks : List Mark) : List Mark :=
  marks.filter (fun m => m.JournalID = some journalID ∧ courseKey m = key)

/-! ## The handler `newYear` (`cmd/api/years.go`, lines 83-195) -/

/-- One element of `new_classes` in the body of a request to `newYear`. -/
structure NewClassInput where
  Name : String
  DisplayName : String
deriving DecidableEq, Repr

/-- One element of `old_classes` in the body of a request to `newYear`. -/
structure OldClassInput where
  ClassID : Int
  DisplayName : String
deriving DecidableEq, Repr

/-- The decoded body of a request to `newYear` (the anonymous struct `input`). -/
structure NewYearInput where
  DisplayName : String
  Courses : Int
  NewClasses : List NewClassInput
  OldClasses : List OldClassInput
deriving DecidableEq, Repr

/-- Record `data.ClassYear` as the handler fills it in. -/
structure ClassYear where
  YearID : Int
  ClassID : Int
  DisplayName : String
deriving DecidableEq, Repr

/-- The collaborators of `newYear`, in addition to those of `App`: decoding of the body, the
lookup of the class ids, and the writes, which act on the committed state at once;
`InsertYear` and `InsertClass` give the new identifier. -/
structure YearApp (σ : Type) extends App σ where
  inputNewYear : String → Except String NewYearInput
  GetAllClassIDs : σ → Except String (List Int)
  InsertYear : σ → String → Int → Except String (Int × σ)
  InsertClass : σ → String → Int → Except String (Int × σ)
  InsertYearForClass : σ → ClassYear → Except String σ
  RemoveCurrentYear : σ → Except String σ
  SetYearAsCurrent : σ → Int → Except String σ

/-- Modelled from the spec: `helpers.VerifyExistsInSlice` is not among the sources. Its callers
read the result as the list of the bad ids: `nil` when every id of the first slice is in the
second, and otherwise the ids that are not, in their order (`addStudentsToJournal` rejects the
request exactly when the result is not `nil`). -/
def VerifyExistsInSlice (ids all : List Int) : Option (List Int) :=
  if ids.filter (fun i => i ∉ all) = [] then none else some (ids.filter (fun i => i ∉ all))

/-- Go `fmt.Sprintf("%v", ids)` for a slice of integers; the `nil` slice prints as `[]`. -/
def sprintInts (ids : Option (List Int)) : String :=
  "[" ++ " ".intercalate ((ids.getD []).map toString) ++ "]"

/-- Lines 112-115: the loop over `old_classes`, which checks the display names. -/
def checkOldClasses (v : Validator) : List OldClassInput → Validator
  | [] => v
  | oc :: ocs =>
    checkOldClasses
      (v.Check (decide (oc.DisplayName ≠ "")) "display_name"
        ("class id " ++ toString oc.ClassID ++ " name cannot be empty")) ocs

/-- Lines 117-120: the loop over `new_classes`, which checks the display names and names. -/
def checkNewClasses (v : Validator) : List NewClassInput → Validator
  | [] => v
  | nc :: ncs =>
    checkNewClasses
      ((v.Check (decide (nc.DisplayName ≠ "")) "display_name"
          "new class display name cannot be empty").Check (decide (nc.Name ≠ "")) "name"
        "new class name cannot be empty") ncs

/-- Lines 105-128: the validator of `newYear` after all its checks, for the class ids
`allClassIDs` read from the database. The check of line 128 is
`v.Check(badIDs != nil, "class_id", ...)`. -/
def newYearChecks (input : NewYearInput) (allClassIDs : List Int) : Validator :=
  (checkNewClasses
    (checkOldClasses
      ((NewValidator.Check (decide (input.DisplayName ≠ "")) "display_name"
          "cannot be empty").Check (decide (input.Courses > 0)) "courses" "must be valid")
      input.OldClasses)
    input.NewClasses).Check
    (decide (VerifyExistsInSlice (input.OldClasses.map (fun oc => oc.ClassID)) allClassIDs ≠ none))
    "class_id"
    ("invalid class id(s): " ++
      sprintInts (VerifyExistsInSlice (input.OldClasses.map (fun oc => oc.ClassID)) allClassIDs))

/-- Lines 148-163: the loop that inserts the new classes, after the calls `evs` and with the
class years collected so far. -/
def insertNewClasses {σ : Type} (app : YearApp σ) (req : Request) (yearID : Int) :
    σ → List Event → List ClassYear → List NewClassInput →
      List Event × σ × Except String (List ClassYear)
  | db, evs, cys, [] => (evs, db, .ok cys)
  | db, evs, cys, nc :: ncs =>
    match app.InsertClass db nc.Name req.sessionUser.ID with
    | .error err => (evs ++ [.InsertClass nc.Name req.sessionUser.ID], db, .error err)
    | .ok (classID, db1) =>
      insertNewClasses app req yearID db1 (evs ++ [.InsertClass nc.Name req.sessionUser.ID])
        (cys ++ [⟨yearID, classID, nc.DisplayName⟩]) ncs

/-- Lines 173-179: the loop that inserts the class years, after the calls `evs`. -/
def insertClassYears {σ : Type} (app : YearApp σ) :
    σ → List Event → List ClassYear → List Event × σ × Except String Unit
  | db, evs, [] => (evs, db, .ok ())
  | db, evs, cy :: cys =>
    match app.InsertYearForClass db cy with
    | .error err =>
      (evs ++ [.InsertYearForClass cy.YearID cy.ClassID cy.DisplayName], db, .error err)
    | .ok db1 =>
      insertClassYears app db1
        (evs ++ [.InsertYearForClass cy.YearID cy.ClassID cy.DisplayName]) cys

/-- The handler `newYear` (lines 83-195). -/
def newYear {σ : Type} (app : YearApp σ) (req : Request) (db : σ) : Outcome σ :=
  match app.inputNewYear req.body with
  | .error err =>
    ⟨[.inputJSON] ++ writeErrorResponse app.toApp StatusBadRequest (.error err), db⟩
  | .ok input =>
  match app.GetAllClassIDs db with
  | .error err => ⟨[.inputJSON, .GetAllClassIDs] ++ writeInternalServerError app.toApp err, db⟩
  | .ok allClassIDs =>
  if (newYearChecks input allClassIDs).Valid = false then
    ⟨[.inputJSON, .GetAllClassIDs] ++
      writeErrorResponse app.toApp StatusBadRequest
        (.errors (newYearChecks input allClassIDs).Errors), db⟩
  else
  match app.InsertYear db input.DisplayName input.Courses with
  | .error err =>
    ⟨[.inputJSON, .GetAllClassIDs, .InsertYear input.DisplayName input.Courses] ++
      writeInternalServerError app.toApp err, db⟩
  | .ok (yearID, db1) =>
  match insertNewClasses app req yearID db1
      [.inputJSON, .GetAllClassIDs, .InsertYear input.DisplayName input.Courses] []
      input.NewClasses with
  | (evs, db2, .error err) => ⟨evs ++ writeInternalServerError app.toApp err, db2⟩
  | (evs, db2, .ok classYears) =>
  match insertClassYears app db2 evs
      (classYears ++ input.OldClasses.map (fun oc => ⟨yearID, oc.ClassID, oc.DisplayName⟩)) with
  | (evs1, db3, .error err) => ⟨evs1 ++ writeInternalServerError app.toApp err, db3⟩
  | (evs1, db3, .ok _) =>
  match app.RemoveCurrentYear db3 with
  | .error err => ⟨evs1 ++ [.RemoveCurrentYear] ++ writeInternalServerError app.toApp err, db3⟩
  | .ok db4 =>
  match app.SetYearAsCurrent db4 yearID with
  | .error err =>
    ⟨evs1 ++ [.RemoveCurrentYear, .SetYearAsCurrent yearID] ++
      writeInternalServerError app.toApp err, db4⟩
  | .ok db5 =>
    ⟨evs1 ++ [.RemoveCurrentYear, .SetYearAsCurrent yearID] ++
      outputOrInternalError app.toApp StatusCreated (.message "success"), db5⟩

/-! ## Examples for the single-mark handlers, the grouping loop and `newYear` -/

/-- A batch whose one edit is a good notice with a comment that supplies grade 99, which is
not a valid grade id of the examples. -/
def noticeWithGrade : List StudentInput :=
  [⟨5, none, none, none, [⟨none, some 99, "notice_good", some "well done", false⟩]⟩]

/-- The collaborators of the examples with a lookup of the students of a lesson that fails. -/
def noStudentsApp : MarkApp (List Marks) :=
  { demoMarkApp noticeWithoutComment with
    GetStudentsForLesson := fun _ _ => .error "connection lost" }

/-- The committed state of the examples for `newYear`: the class ids, the years with their
number of courses, the class years, and the current year. -/
structure YearDB where
  classIDs : List Int
  years : List (Int × String × Int)
  classYears : List ClassYear
  current : Option Int
deriving DecidableEq, Repr

/-- The collaborators of the examples for `newYear`, every body decoding to `decoded`; the
collaborators of the mark handlers are not used and fail. -/
def demoYearApp (decoded : NewYearInput) : YearApp YearDB :=
  { GetLessonByID := fun _ _ => .error ErrNoSuchLesson
    GetJournalByID := fun _ _ => .error ErrNoSuchJournal
    inputJSON := fun _ => .error "unused"
    outputJSON := fun _ _ => .ok ()
    now := 1000
    GetMarkIDsForLesson := fun _ _ => .error "unused"
    GetStudentIDsForJournal := fun _ _ => .error "unused"
    GetAllGradeIDs := fun _ => .error "unused"
    Begin := fun db => .ok db
    InsertMarks := fun _ _ => .error "unused"
    UpdateMarks := fun _ _ => .error "unused"
    DeleteMarks := fun _ _ => .error "unused"
    DeleteMarksByStudentIDType := fun _ _ => .error "unused"
    Commit := fun db => .ok db
    inputNewYear := fun _ => .ok decoded
    GetAllClassIDs := fun db => .ok db.classIDs
    InsertYear := fun db name courses =>
      .ok (((db.years.map (fun y => y.1)).foldl max 0 + 1,
        { db with years := db.years ++
            [((db.years.map (fun y => y.1)).foldl max 0 + 1, name, courses)] }))
    InsertClass := fun db _ _ =>
      .ok ((db.classIDs.foldl max 0 + 1,
        { db with classIDs := db.classIDs ++ [db.classIDs.foldl max 0 + 1] }))
    InsertYearForClass := fun db cy => .ok { db with classYears := db.classYears ++ [cy] }
    RemoveCurrentYear := fun db => .ok { db with current := none }
    SetYearAsCurrent := fun db id => .ok { db with current := some id } }

/-- The state of the examples for `newYear`: the classes 1 and 2, one year, which is
current. -/
def demoYearDB : YearDB := ⟨[1, 2], [(1, "2023/2024", 3)], [⟨1, 1, "1A"⟩, ⟨1, 2, "1B"⟩], some 1⟩

/-- A body of `newYear` whose old classes all exist: class 1 becomes 2A and class 2
becomes 2B. -/
def existingClasses : NewYearInput := ⟨"2024/2025", 3, [], [⟨1, "2A"⟩, ⟨2, "2B"⟩]⟩

/-- A body of `newYear` that names the old class 99, which does not exist. -/
def unknownClass : NewYearInput := ⟨"2024/2025", 3, [], [⟨99, "2C"⟩]⟩

/-- A request to `newYear` of an administrator. -/
def yearRequest : Request := ⟨⟨1, RoleAdministrator⟩, none, ""⟩

/-- Journals of the examples for the grouping loop. -/
def demoJournals : List NJournal := [⟨3⟩, ⟨4⟩]

/-- Marks of the examples for the grouping loop: two marks of journal 3 in course 2, one mark
of journal 3 without course, one mark of journal 9, which is not listed. -/
def demoMarks : List Mark :=
  [⟨1, 5, some 7, some 2, some 3, some 3, none, "lesson_grade", some 10, 1, 1⟩,
   ⟨2, 5, none, none, some 3, some 4, none, "subject_grade", some 10, 2, 2⟩,
   ⟨3, 5, some 8, some 2, some 3, none, some "late", "late", some 10, 3, 3⟩,
   ⟨4, 5, none, some 1, some 9, some 3, none, "course_grade", some 10, 4, 4⟩]

/-! ## The closure `newMark` on the calls the handler makes -/

theorem newMark_flag (c : Ctx) (v : Validator) (studentID : Int) (mtype : String)
    (h : mtype = MarkAbsent ∨ mtype = MarkLate ∨ mtype = MarkNotDone) :
    newMark c v 0 0 studentID mtype none none =
      .ok (some (buildMark c 0 studentID mtype none none), v) := by
  rcases h with h | h | h <;> subst h <;>
    simp [newMark, MarkAbsent, MarkLate, MarkNotDone, MarkCommonGrade, MarkNoticeBad,
      MarkNoticeNeutral, MarkNoticeGood]

theorem flagStep_eq (c : Ctx) (studentID : Int) (mtype : String) (flag : Option Bool)
    (st : Staged) (h : mtype = MarkAbsent ∨ mtype = MarkLate ∨ mtype = MarkNotDone) :
    flagStep c studentID mtype flag st =
      .ok { st with
            insertMarks := st.insertMarks ++
              (if flag = some true then [some (buildMark c 0 studentID mtype none none)] else [])
            deletedMarksByStudentIDType := st.deletedMarksByStudentIDType ++
              (if flag = some false then [⟨studentID, mtype⟩] else []) } := by
  rcases flag with _ | _ | _
  · simp [flagStep]
  · simp [flagStep]
  · simp [flagStep, newMark_flag c st.v studentID mtype h]

theorem newMark_valid (c : Ctx) (v : Validator) (index : Nat) (ID studentID : Int)
    (m : MarkInput) (hT : EditType m.Type_)
    (hG : m.Type_ = MarkCommonGrade → ∃ g ∈ m.Grade, g ∈ c.allGradeIDs)
    (hC : NoticeType m.Type_ → ∃ s ∈ m.Comment, s ≠ "") :
    newMark c v index ID studentID m.Type_ m.Comment m.Grade =
      .ok (some (buildMark c ID studentID m.Type_ m.Comment m.Grade), v) := by
  rcases hT with h | h | h | h
  · obtain ⟨g, hg, hmem⟩ := hG h
    rw [Option.mem_def] at hg
    simp [newMark, h, hg, hmem]
  · obtain ⟨t, ht, hne⟩ := hC (Or.inl h)
    rw [Option.mem_def] at ht
    simp [newMark, h, ht, hne, MarkCommonGrade, MarkNoticeBad, MarkNoticeNeutral, MarkNoticeGood]
  · obtain ⟨t, ht, hne⟩ := hC (Or.inr (Or.inl h))
    rw [Option.mem_def] at ht
    simp [newMark, h, ht, hne, MarkCommonGrade, MarkNoticeBad, MarkNoticeNeutral, MarkNoticeGood]
  · obtain ⟨t, ht, hne⟩ := hC (Or.inr (Or.inr h))
    rw [Option.mem_def] at ht
    simp [newMark, h, ht, hne, MarkCommonGrade, MarkNoticeBad, MarkNoticeNeutral, MarkNoticeGood]

theorem markStep_valid (c : Ctx) (studentID : Int) (st : Staged) (mi : Nat) (m : MarkInput)
    (h : ValidEdit c m) :
    markStep c studentID st mi m =
      .ok { st with
            insertMarks := st.insertMarks ++ (editInsert c studentID m).toList
            updateMarks := st.updateMarks ++ (editUpdate c m).toList
            deletedMarkIDs := st.deletedMarkIDs ++ (editDelete m).toList } := by
  obtain ⟨hT, hI, hG, hC⟩ := h
  have hcond : ¬ (m.Type_ ≠ MarkCommonGrade ∧ m.Type_ ≠ MarkNoticeBad ∧
      m.Type_ ≠ MarkNoticeNeutral ∧ m.Type_ ≠ MarkNoticeGood ∧ m.Remove = false) := by
    rintro ⟨h1, h2, h3, h4, h5⟩
    rcases hT with (h | h | h | h) | h
    · exact h1 h
    · exact h4 h
    · exact h3 h
    · exact h2 h
    · rw [h5] at h; exact Bool.noConfusion h
  unfold markStep
  rw [if_neg hcond]
  cases hid : m.ID with
  | none =>
    cases hr : m.Remove with
    | true => simp [editInsert, editUpdate, editDelete, hid, hr]
    | false =>
      have hT2 : EditType m.Type_ := by
        rcases hT with h | h
        · exact h
        · rw [hr] at h; exact Bool.noConfusion h
      simp [editInsert, editUpdate, editDelete, hid, hr,
        newMark_valid c st.v mi 0 studentID m hT2 (hG hr) (hC hr)]
  | some id =>
    have hmem : id ∈ c.allMarkIDs := hI id (by rw [hid]; exact rfl)
    cases hr : m.Remove with
    | true => simp [editInsert, editUpdate, editDelete, hid, hr, hmem]
    | false =>
      have hT2 : EditType m.Type_ := by
        rcases hT with h | h
        · exact h
        · rw [hr] at h; exact Bool.noConfusion h
      simp [editInsert, editUpdate, editDelete, hid, hr, hmem,
        newMark_valid c st.v mi id 0 m hT2 (hG hr) (hC hr)]

theorem toList_append_filterMap {α β : Type} (f : α → Option β) (a : α) (l : List α) :
    (f a).toList ++ l.filterMap f = (a :: l).filterMap f := by
  rw [List.filterMap_cons]
  cases f a <;> simp

theorem marksLoop_valid (c : Ctx) (studentID : Int) (ms : List MarkInput) :
    ∀ (st : Staged) (mi : Nat), (∀ m ∈ ms, ValidEdit c m) →
      marksLoop c studentID st mi ms =
        .ok { st with
              insertMarks := st.insertMarks ++ ms.filterMap (editInsert c studentID)
              updateMarks := st.updateMarks ++ ms.filterMap (editUpdate c)
              deletedMarkIDs := st.deletedMarkIDs ++ ms.filterMap editDelete } := by
  induction ms with
  | nil => intro st mi _; simp [marksLoop]
  | cons m ms ih =>
    intro st mi h
    have hm : ValidEdit c m := h m (List.mem_cons_self _ _)
    have hms : ∀ x ∈ ms, ValidEdit c x := fun x hx => h x (List.mem_cons_of_mem _ hx)
    rw [marksLoop, markStep_valid c studentID st mi m hm]
    simp only [ih _ (mi + 1) hms, List.append_assoc, toList_append_filterMap]

theorem studentStep_valid (c : Ctx) (st : Staged) (s : StudentInput)
    (h1 : 1 ≤ s.StudentID) (h2 : s.StudentID ∈ c.allStudentIDs)
    (h3 : ∀ m ∈ s.Marks, ValidEdit c m) :
    studentStep c st s =
      .ok { st with
            insertMarks := st.insertMarks ++ impliedInserts c s
            updateMarks := st.updateMarks ++ impliedUpdates c s
            deletedMarkIDs := st.deletedMarkIDs ++ impliedDeletes s
            deletedMarksByStudentIDType :=
              st.deletedMarksByStudentIDType ++ impliedKeyDeletes s } := by
  unfold studentStep
  rw [if_neg (by omega), if_neg (by simpa using h2)]
  simp only [flagStep_eq c s.StudentID MarkAbsent s.Absent _ (Or.inl rfl),
    flagStep_eq c s.StudentID MarkLate s.Late _ (Or.inr (Or.inl rfl)),
    flagStep_eq c s.StudentID MarkNotDone s.NotDone _ (Or.inr (Or.inr rfl)),
    marksLoop_valid c s.StudentID s.Marks _ 0 h3]
  simp [impliedInserts, impliedUpdates, impliedDeletes, impliedKeyDeletes]

theorem studentsLoop_valid (c : Ctx) (input : List StudentInput) :
    ∀ (st : Staged), (∀ s ∈ input, 1 ≤ s.StudentID ∧ s.StudentID ∈ c.allStudentIDs ∧
        ∀ m ∈ s.Marks, ValidEdit c m) →
      studentsLoop c st input =
        .ok { st with
              insertMarks := st.insertMarks ++ (impliedStaged c input).insertMarks
              updateMarks := st.updateMarks ++ (impliedStaged c input).updateMarks
              deletedMarkIDs := st.deletedMarkIDs ++ (impliedStaged c input).deletedMarkIDs
              deletedMarksByStudentIDType := st.deletedMarksByStudentIDType ++
                (impliedStaged c input).deletedMarksByStudentIDType } := by
  induction input with
  | nil => intro st _; simp [studentsLoop, impliedStaged]
  | cons s ss ih =>
    intro st h
    obtain ⟨h1, h2, h3⟩ := h s (List.mem_cons_self _ _)
    have hss := fun x hx => h x (List.mem_cons_of_mem s hx)
    rw [studentsLoop, studentStep_valid c st s h1 h2 h3]
    simp only [ih _ hss]
    simp [impliedStaged]

theorem stage_valid (c : Ctx) (input : List StudentInput)
    (h : ∀ s ∈ input, 1 ≤ s.StudentID ∧ s.StudentID ∈ c.allStudentIDs ∧
        ∀ m ∈ s.Marks, ValidEdit c m) :
    stage c input = .ok (impliedStaged c input) := by
  rw [stage, studentsLoop_valid c input _ h]
  simp [Staged.initial, impliedStaged]

/-! ## The handler around the staging loops -/

theorem setMarksForLesson_prepared {σ : Type} (app : App σ) (req : Request) (db : σ)
    (lessonID : Int) (c : Ctx) (input : List StudentInput) (st : Staged)
    (hp : Prepared app req db lessonID c input) (hs : stage c input = .ok st) :
    setMarksForLesson app req db =
      ⟨preloadTrace lessonID c ++ (persist app db st).trace, (persist app db st).db⟩ := by
  obtain ⟨hid, hpos, hl, hj, hauth, hin, hm, hst, hg, hu, ht⟩ := hp
  rcases c with ⟨lesson, journal, user, time, markIDs, studentIDs, gradeIDs⟩
  simp only at hl hj hauth hm hst hg hu ht hs
  subst hu ht
  have hna : ¬ (journal.IsUserTeacherOfJournal req.sessionUser.ID = false ∧
      req.sessionUser.Role ≠ RoleAdministrator) := by
    rintro ⟨h1, h2⟩
    rcases hauth with h | h
    · rw [h1] at h; exact Bool.noConfusion h
    · exact h2 h
  unfold setMarksForLesson
  simp only [hid, if_neg (not_lt.mpr hpos), hl, hj, if_neg hna, hin, hm, hst, hg, hs,
    preloadTrace]

theorem setMarksForLesson_unauthorized {σ : Type} (app : App σ) (req : Request) (db : σ)
    (lessonID : Int) (lesson : Lesson) (journal : Journal)
    (hu : Unauthorized app req db lessonID lesson journal) :
    setMarksForLesson app req db =
      ⟨[.GetLessonByID lessonID, .GetJournalByID lesson.JournalID] ++ notAllowed app, db⟩ := by
  obtain ⟨hid, hpos, hl, hj, h1, h2⟩ := hu
  unfold setMarksForLesson
  simp only [hid, if_neg (not_lt.mpr hpos), hl, hj, if_pos (And.intro h1 h2)]

theorem writeErrorResponse_cases {σ : Type} (app : App σ) (status : Nat) (data : Payload) :
    writeErrorResponse app status data = [.outputJSON status data] ∨
    ∃ err, writeErrorResponse app status data =
      [.log err, .writeHeader StatusInternalServerError, .write "Internal server error"] := by
  unfold writeErrorResponse
  cases app.outputJSON status data with
  | ok _ => exact Or.inl rfl
  | error err => exact Or.inr ⟨err, rfl⟩

theorem writeErrorResponse_not_tx {σ : Type} (app : App σ) (status : Nat) (data : Payload) :
    ∀ e ∈ writeErrorResponse app status data,
      e.isTx = false ∧ e.isLookup = false ∧ e ≠ .inputJSON := by
  intro e he
  rcases writeErrorResponse_cases app status data with h | ⟨err, h⟩ <;> rw [h] at he <;>
    simp at he
  · subst he; simp [Event.isTx, Event.isWrite, Event.isLookup]
  · rcases he with he | he | he <;> subst he <;> simp [Event.isTx, Event.isWrite, Event.isLookup]

theorem writeInternalServerError_not_tx {σ : Type} (app : App σ) (err : String) :
    ∀ e ∈ writeInternalServerError app err,
      e.isTx = false ∧ e.isLookup = false ∧ e ≠ .inputJSON := by
  intro e he
  unfold writeInternalServerError at he
  rcases List.mem_append.mp he with h | h
  · simp at h; subst h; simp [Event.isTx, Event.isWrite, Event.isLookup]
  · exact writeErrorResponse_not_tx app _ _ e h

theorem preloadTrace_not_tx (lessonID : Int) (c : Ctx) :
    ∀ e ∈ preloadTrace lessonID c, e.isTx = false := by
  intro e he
  simp [preloadTrace] at he
  rcases he with h | h | h | h | h | h <;> subst h <;> simp [Event.isTx, Event.isWrite]

/-! ## The transaction -/

theorem txCall_fst {σ α : Type} [DecidableEq α] (xs : List α) (ev : Event)
    (op : σ → List α → Except String σ) (tx : σ) :
    (txCall xs ev op tx).1 = if xs = [] then [] else [ev] := by
  unfold txCall
  cases xs <;> simp

theorem applyStaged_fst_ok {σ : Type} (app : App σ) (st : Staged) (tx0 db1 : σ)
    (h : (applyStaged app st tx0).2 = .ok db1) :
    (applyStaged app st tx0).1 = stagedCalls st ++ [.Commit] := by
  have f1 := txCall_fst st.insertMarks (.InsertMarks st.insertMarks) app.InsertMarks tx0
  unfold applyStaged at h ⊢
  rcases h1 : txCall st.insertMarks (.InsertMarks st.insertMarks) app.InsertMarks tx0 with
    ⟨e1, err | tx1⟩
  · rw [h1] at h; simp at h
  rw [h1] at h f1
  have f2 := txCall_fst st.updateMarks (.UpdateMarks st.updateMarks) app.UpdateMarks tx1
  rcases h2 : txCall st.updateMarks (.UpdateMarks st.updateMarks) app.UpdateMarks tx1 with
    ⟨e2, err | tx2⟩
  · simp [h2] at h
  rw [h2] at f2
  have f3 := txCall_fst st.deletedMarkIDs (.DeleteMarks st.deletedMarkIDs) app.DeleteMarks tx2
  rcases h3 : txCall st.deletedMarkIDs (.DeleteMarks st.deletedMarkIDs) app.DeleteMarks tx2 with
    ⟨e3, err | tx3⟩
  · simp [h2, h3] at h
  rw [h3] at f3
  have f4 := txCall_fst st.deletedMarksByStudentIDType
    (.DeleteMarksByStudentIDType st.deletedMarksByStudentIDType)
    app.DeleteMarksByStudentIDType tx3
  rcases h4 : txCall st.deletedMarksByStudentIDType
    (.DeleteMarksByStudentIDType st.deletedMarksByStudentIDType)
    app.DeleteMarksByStudentIDType tx3 with ⟨e4, err | tx4⟩
  · simp [h2, h3, h4] at h
  rw [h4] at f4
  simp only at f1 f2 f3 f4
  cases h5 : app.Commit tx4 with
  | error err => simp [h2, h3, h4, h5] at h
  | ok db2 => simp [h2, h3, h4, h5, stagedCalls, f1, f2, f3, f4]

theorem applyStaged_fst_error {σ : Type} (app : App σ) (st : Staged) (tx0 : σ) (err : String)
    (h : (applyStaged app st tx0).2 = .error err) :
    ∃ rest, (applyStaged app st tx0).1 ++ rest = stagedCalls st ++ [.Commit] := by
  have f1 := txCall_fst st.insertMarks (.InsertMarks st.insertMarks) app.InsertMarks tx0
  unfold applyStaged at h ⊢
  rcases h1 : txCall st.insertMarks (.InsertMarks st.insertMarks) app.InsertMarks tx0 with
    ⟨e1, err1 | tx1⟩
  · rw [h1] at f1
    simp only at f1
    exact ⟨stagedCalls { st with insertMarks := [] } ++ [.Commit], by simp [stagedCalls, f1]⟩
  rw [h1] at h f1
  have f2 := txCall_fst st.updateMarks (.UpdateMarks st.updateMarks) app.UpdateMarks tx1
  rcases h2 : txCall st.updateMarks (.UpdateMarks st.updateMarks) app.UpdateMarks tx1 with
    ⟨e2, err2 | tx2⟩
  · rw [h2] at f2
    simp only at f1 f2
    exact ⟨stagedCalls { st with insertMarks := [], updateMarks := [] } ++ [.Commit], by
      simp [stagedCalls, f1, f2, h2]⟩
  rw [h2] at f2
  have f3 := txCall_fst st.deletedMarkIDs (.DeleteMarks st.deletedMarkIDs) app.DeleteMarks tx2
  rcases h3 : txCall st.deletedMarkIDs (.DeleteMarks st.deletedMarkIDs) app.DeleteMarks tx2 with
    ⟨e3, err3 | tx3⟩
  · rw [h3] at f3
    simp only at f1 f2 f3
    exact ⟨stagedCalls { st with insertMarks := [], updateMarks := [], deletedMarkIDs := [] } ++
      [.Commit], by simp [stagedCalls, f1, f2, f3, h2, h3]⟩
  rw [h3] at f3
  have f4 := txCall_fst st.deletedMarksByStudentIDType
    (.DeleteMarksByStudentIDType st.deletedMarksByStudentIDType)
    app.DeleteMarksByStudentIDType tx3
  rcases h4 : txCall st.deletedMarksByStudentIDType
    (.DeleteMarksByStudentIDType st.deletedMarksByStudentIDType)
    app.DeleteMarksByStudentIDType tx3 with ⟨e4, err4 | tx4⟩
  · rw [h4] at f4
    simp only at f1 f2 f3 f4
    exact ⟨[.Commit], by simp [stagedCalls, f1, f2, f3, f4, h2, h3, h4]⟩
  rw [h4] at f4
  simp only at f1 f2 f3 f4
  cases h5 : app.Commit tx4 with
  | error err5 => exact ⟨[], by simp [stagedCalls, f1, f2, f3, f4, h2, h3, h4, h5]⟩
  | ok db2 => simp [h2, h3, h4, h5] at h

theorem stagedCalls_isTx (st : Staged) :
    ∀ e ∈ stagedCalls st ++ [.Commit], e.isTx = true ∧ e ≠ .Rollback ∧ e ≠ .Begin := by
  intro e he
  simp only [stagedCalls, List.mem_append, List.mem_singleton] at he
  rcases he with (((he | he) | he) | he) | he
  · split at he <;> simp at he; subst he; simp [Event.isTx, Event.isWrite]
  · split at he <;> simp at he; subst he; simp [Event.isTx, Event.isWrite]
  · split at he <;> simp at he; subst he; simp [Event.isTx, Event.isWrite]
  · split at he <;> simp at he; subst he; simp [Event.isTx, Event.isWrite]
  · subst he; simp [Event.isTx]

theorem validator_valid_false (v : Validator) : v.Valid = false ↔ v.Errors ≠ [] := by
  unfold Validator.Valid
  cases v.Errors <;> simp

theorem persist_invalid {σ : Type} (app : App σ) (db : σ) (st : Staged) (h : st.v.Errors ≠ []) :
    persist app db st = ⟨writeErrorResponse app StatusBadRequest (.errors st.v.Errors), db⟩ := by
  unfold persist
  rw [if_pos ((validator_valid_false st.v).mpr h)]

theorem persist_committed {σ : Type} (app : App σ) (db tx0 db1 : σ) (st : Staged)
    (hv : st.v.Errors = []) (hb : app.Begin db = .ok tx0)
    (ha : (applyStaged app st tx0).2 = .ok db1)
    (ho : app.outputJSON StatusCreated (.message "success") = .ok ()) :
    persist app db st =
      ⟨[.Begin] ++ stagedCalls st ++ [.Commit, .outputJSON StatusCreated (.message "success")],
        db1⟩ := by
  have h1 := applyStaged_fst_ok app st tx0 db1 ha
  have hne : ¬ st.v.Valid = false := by rw [validator_valid_false]; simp [hv]
  unfold persist
  rw [if_neg hne]
  rcases hx : applyStaged app st tx0 with ⟨evs, r⟩
  rw [hx] at h1 ha
  simp only at h1 ha
  subst h1 ha
  simp [hb, ho, hx]

theorem persist_failed {σ : Type} (app : App σ) (db tx0 : σ) (st : Staged) (err : String)
    (hv : st.v.Errors = []) (hb : app.Begin db = .ok tx0)
    (ha : (applyStaged app st tx0).2 = .error err) :
    persist app db st =
      ⟨[.Begin] ++ (applyStaged app st tx0).1 ++ writeInternalServerError app err, db⟩ := by
  have hne : ¬ st.v.Valid = false := by rw [validator_valid_false]; simp [hv]
  unfold persist
  rw [if_neg hne]
  rcases hx : applyStaged app st tx0 with ⟨evs, r⟩
  rw [hx] at ha
  simp only at ha
  subst ha
  simp [hb, hx]

theorem count_stagedCalls (st : Staged) :
    (stagedCalls st).count .Begin = 0 ∧ (stagedCalls st).count .Commit = 0 := by
  constructor <;>
  · rw [List.count_eq_zero]
    intro h
    simp [stagedCalls] at h

theorem txCall_ok_run {σ α : Type} (app : App σ) (xs : List α) (ev : Event)
    (op : σ → List α → Except String σ) (tx tx1 : σ) (e : List Event)
    (hrun : ∀ t, ev.run app t = op t xs) (h : txCall xs ev op tx = (e, .ok tx1)) :
    runEvents app e tx = .ok tx1 := by
  unfold txCall at h
  split at h
  · simp only [Prod.mk.injEq] at h
    obtain ⟨h1, h2⟩ := h
    subst h1
    simp only [runEvents, hrun, h2]
  · simp only [Prod.mk.injEq, Except.ok.injEq] at h
    obtain ⟨h1, h2⟩ := h
    subst h1 h2
    rfl

theorem txCall_error_run {σ α : Type} (app : App σ) (xs : List α) (ev : Event)
    (op : σ → List α → Except String σ) (tx : σ) (e : List Event) (err : String)
    (hrun : ∀ t, ev.run app t = op t xs) (h : txCall xs ev op tx = (e, .error err)) :
    e = [ev] ∧ xs ≠ [] ∧ ev.run app tx = .error err := by
  unfold txCall at h
  split at h
  · rename_i hlen
    simp only [Prod.mk.injEq] at h
    obtain ⟨h1, h2⟩ := h
    refine ⟨h1.symm, ?_, by rw [hrun, h2]⟩
    intro hnil
    rw [hnil] at hlen
    simp at hlen
  · simp at h

theorem runEvents_append {σ : Type} (app : App σ) (xs ys : List Event) :
    ∀ (tx tx1 : σ), runEvents app xs tx = .ok tx1 →
      runEvents app (xs ++ ys) tx = runEvents app ys tx1 := by
  induction xs with
  | nil =>
    intro tx tx1 h
    rw [runEvents] at h
    injection h with h
    subst h
    rfl
  | cons x xs ih =>
    intro tx tx1 h
    rw [runEvents] at h
    rw [List.cons_append, runEvents]
    cases hx : x.run app tx with
    | error e => rw [hx] at h; exact Except.noConfusion h
    | ok t =>
      rw [hx] at h
      exact ih t tx1 h

theorem applyStaged_failed {σ : Type} (app : App σ) (st : Staged) (tx0 : σ) (err : String)
    (h : (applyStaged app st tx0).2 = .error err) :
    ∃ done failing rest txk,
      stagedCalls st ++ [.Commit] = done ++ failing :: rest ∧
      (applyStaged app st tx0).1 = done ++ [failing] ∧
      runEvents app done tx0 = .ok txk ∧
      failing.run app txk = .error err := by
  have f1 := txCall_fst st.insertMarks (.InsertMarks st.insertMarks) app.InsertMarks tx0
  unfold applyStaged at h ⊢
  rcases h1 : txCall st.insertMarks (.InsertMarks st.insertMarks) app.InsertMarks tx0 with
    ⟨e1, err1 | tx1⟩
  · obtain ⟨g1, g2, g3⟩ := txCall_error_run app _ _ _ _ _ _ (fun _ => rfl) h1
    rw [h1] at h
    simp only at h
    injection h with h
    subst h
    exact ⟨[], _, stagedCalls { st with insertMarks := [] } ++ [.Commit], tx0,
      by simp [stagedCalls, g2], by simp [g1], rfl, g3⟩
  have r1 := txCall_ok_run app _ _ _ _ _ _ (fun _ => rfl) h1
  rw [h1] at h f1
  simp only at h f1
  have f2 := txCall_fst st.updateMarks (.UpdateMarks st.updateMarks) app.UpdateMarks tx1
  rcases h2 : txCall st.updateMarks (.UpdateMarks st.updateMarks) app.UpdateMarks tx1 with
    ⟨e2, err2 | tx2⟩
  · obtain ⟨g1, g2, g3⟩ := txCall_error_run app _ _ _ _ _ _ (fun _ => rfl) h2
    rw [h2] at h
    simp only at h
    injection h with h
    subst h
    exact ⟨e1, _, stagedCalls { st with insertMarks := [], updateMarks := [] } ++ [.Commit],
      tx1, by simp [stagedCalls, f1, g2], by simp [h2, g1], r1, g3⟩
  have r2 := txCall_ok_run app _ _ _ _ _ _ (fun _ => rfl) h2
  rw [h2] at h f2
  simp only at h f2
  have r12 : runEvents app (e1 ++ e2) tx0 = .ok tx2 := by
    rw [runEvents_append app e1 e2 tx0 tx1 r1]
    exact r2
  have f3 := txCall_fst st.deletedMarkIDs (.DeleteMarks st.deletedMarkIDs) app.DeleteMarks tx2
  rcases h3 : txCall st.deletedMarkIDs (.DeleteMarks st.deletedMarkIDs) app.DeleteMarks tx2 with
    ⟨e3, err3 | tx3⟩
  · obtain ⟨g1, g2, g3⟩ := txCall_error_run app _ _ _ _ _ _ (fun _ => rfl) h3
    rw [h3] at h
    simp only at h
    injection h with h
    subst h
    exact ⟨e1 ++ e2, _,
      stagedCalls { st with insertMarks := [], updateMarks := [], deletedMarkIDs := [] } ++
        [.Commit],
      tx2, by simp [stagedCalls, f1, f2, g2], by simp [h2, h3, g1], r12, g3⟩
  have r3 := txCall_ok_run app _ _ _ _ _ _ (fun _ => rfl) h3
  rw [h3] at h f3
  simp only at h f3
  have r123 : runEvents app (e1 ++ e2 ++ e3) tx0 = .ok tx3 := by
    rw [runEvents_append app (e1 ++ e2) e3 tx0 tx2 r12]
    exact r3
  have f4 := txCall_fst st.deletedMarksByStudentIDType
    (.DeleteMarksByStudentIDType st.deletedMarksByStudentIDType)
    app.DeleteMarksByStudentIDType tx3
  rcases h4 : txCall st.deletedMarksByStudentIDType
    (.DeleteMarksByStudentIDType st.deletedMarksByStudentIDType)
    app.DeleteMarksByStudentIDType tx3 with ⟨e4, err4 | tx4⟩
  · obtain ⟨g1, g2, g3⟩ := txCall_error_run app _ _ _ _ _ _ (fun _ => rfl) h4
    rw [h4] at h
    simp only at h
    injection h with h
    subst h
    exact ⟨e1 ++ e2 ++ e3, _, [.Commit], tx3, by simp [stagedCalls, f1, f2, f3, g2],
      by simp [h2, h3, h4, g1], r123, g3⟩
  have r4 := txCall_ok_run app _ _ _ _ _ _ (fun _ => rfl) h4
  rw [h4] at h f4
  simp only at h f4
  have r1234 : runEvents app (e1 ++ e2 ++ e3 ++ e4) tx0 = .ok tx4 := by
    rw [runEvents_append app (e1 ++ e2 ++ e3) e4 tx0 tx3 r123]
    exact r4
  cases h5 : app.Commit tx4 with
  | error err5 =>
    rw [h5] at h
    simp only at h
    injection h with h
    subst h
    exact ⟨e1 ++ e2 ++ e3 ++ e4, .Commit, [], tx4, by simp [stagedCalls, f1, f2, f3, f4],
      by simp [h2, h3, h4, h5], r1234, h5⟩
  | ok db2 =>
    simp [h5] at h

/-! ## The validation report -/

theorem newMark_content_invalid (c : Ctx) (v : Validator) (index : Nat) (ID studentID : Int)
    (m : MarkInput) (hT : EditType m.Type_)
    (hn : ¬ ((m.Type_ = MarkCommonGrade → ∃ g ∈ m.Grade, g ∈ c.allGradeIDs) ∧
      (NoticeType m.Type_ → ∃ s ∈ m.Comment, s ≠ ""))) :
    newMark c v index ID studentID m.Type_ m.Comment m.Grade =
      .ok (none, v.Add (contentError index m).1 (contentError index m).2) := by
  rcases hT with h | h | h | h
  · have hg : ¬ ∃ g ∈ m.Grade, g ∈ c.allGradeIDs := by
      intro hg
      apply hn
      refine ⟨fun _ => hg, fun hN => ?_⟩
      rw [h] at hN
      simp [NoticeType, MarkCommonGrade, MarkNoticeBad, MarkNoticeNeutral, MarkNoticeGood] at hN
    cases hgr : m.Grade with
    | none => simp [newMark, contentError, h, hgr]
    | some g =>
      have : g ∉ c.allGradeIDs := fun hmem => hg ⟨g, by rw [hgr]; exact rfl, hmem⟩
      simp [newMark, contentError, h, hgr, this]
  all_goals
    have hc : m.Comment = none ∨ m.Comment = some "" := by
      by_contra hc
      apply hn
      refine ⟨fun hC => ?_, fun _ => ?_⟩
      · rw [h] at hC
        simp [MarkCommonGrade, MarkNoticeBad, MarkNoticeNeutral, MarkNoticeGood] at hC
      · cases hcm : m.Comment with
        | none => exact absurd (Or.inl hcm) hc
        | some t =>
          refine ⟨t, rfl, fun ht => hc (Or.inr ?_)⟩
          rw [hcm, ht]
    simp [newMark, contentError, h, hc, MarkCommonGrade, MarkNoticeBad, MarkNoticeNeutral,
      MarkNoticeGood]

theorem markStep_invalid (c : Ctx) (studentID : Int) (st : Staged) (mi : Nat) (m : MarkInput)
    (h : ¬ ValidEdit c m) :
    ∃ st1, markStep c studentID st mi m = .ok st1 ∧
      st1.v.Errors = st.v.Errors ++ [editError c mi m] := by
  by_cases hT : PassesTypeCheck m
  · have hcond : ¬ (m.Type_ ≠ MarkCommonGrade ∧ m.Type_ ≠ MarkNoticeBad ∧
        m.Type_ ≠ MarkNoticeNeutral ∧ m.Type_ ≠ MarkNoticeGood ∧ m.Remove = false) := by
      rintro ⟨h1, h2, h3, h4, h5⟩
      rcases hT with (h | h | h | h) | h
      · exact h1 h
      · exact h4 h
      · exact h3 h
      · exact h2 h
      · rw [h5] at h; exact Bool.noConfusion h
    unfold markStep
    rw [if_neg hcond]
    cases hid : m.ID with
    | none =>
      cases hr : m.Remove with
      | true =>
        exact absurd ⟨hT, by simp [hid], by simp [hr], by simp [hr]⟩ h
      | false =>
        have hT2 : EditType m.Type_ := by
          rcases hT with h | h
          · exact h
          · rw [hr] at h; exact Bool.noConfusion h
        have hn : ¬ ((m.Type_ = MarkCommonGrade → ∃ g ∈ m.Grade, g ∈ c.allGradeIDs) ∧
            (NoticeType m.Type_ → ∃ s ∈ m.Comment, s ≠ "")) :=
          fun hn => h ⟨hT, by simp [hid], fun _ => hn.1, fun _ => hn.2⟩
        simp [newMark_content_invalid c st.v mi 0 studentID m hT2 hn, editError, hT, hid,
          Validator.Add]
    | some id =>
      by_cases hmem : id ∈ c.allMarkIDs
      · cases hr : m.Remove with
        | true =>
          exact absurd ⟨hT, by simp [hid, hmem], by simp [hr], by simp [hr]⟩ h
        | false =>
          have hT2 : EditType m.Type_ := by
            rcases hT with h | h
            · exact h
            · rw [hr] at h; exact Bool.noConfusion h
          have hn : ¬ ((m.Type_ = MarkCommonGrade → ∃ g ∈ m.Grade, g ∈ c.allGradeIDs) ∧
              (NoticeType m.Type_ → ∃ s ∈ m.Comment, s ≠ "")) :=
            fun hn => h ⟨hT, by simp [hid, hmem], fun _ => hn.1, fun _ => hn.2⟩
          simp [newMark_content_invalid c st.v mi id 0 m hT2 hn, editError, hT, hid, hmem,
            Validator.Add]
      · simp [editError, hT, hid, hmem, Validator.Add]
  · have hcond : m.Type_ ≠ MarkCommonGrade ∧ m.Type_ ≠ MarkNoticeBad ∧
        m.Type_ ≠ MarkNoticeNeutral ∧ m.Type_ ≠ MarkNoticeGood ∧ m.Remove = false := by
      unfold PassesTypeCheck EditType at hT
      push_neg at hT
      obtain ⟨⟨h1, h2, h3, h4⟩, h5⟩ := hT
      exact ⟨h1, h4, h3, h2, by simpa using h5⟩
    unfold markStep
    rw [if_pos hcond]
    exact ⟨_, rfl, by simp [editError, hT, Validator.Add]⟩

theorem markStep_errors (c : Ctx) (studentID : Int) (st : Staged) (mi : Nat) (m : MarkInput) :
    ∃ st1, markStep c studentID st mi m = .ok st1 ∧
      st1.v.Errors = st.v.Errors ++
        ([(mi, m)].filter (fun p => decide (¬ ValidEdit c p.2))).map
          (fun p => editError c p.1 p.2) := by
  by_cases h : ValidEdit c m
  · exact ⟨_, markStep_valid c studentID st mi m h, by simp [h]⟩
  · obtain ⟨st1, h1, h2⟩ := markStep_invalid c studentID st mi m h
    exact ⟨st1, h1, by simp [h, h2]⟩

theorem marksLoop_errors (c : Ctx) (studentID : Int) (ms : List MarkInput) :
    ∀ (st : Staged) (mi : Nat), ∃ st1, marksLoop c studentID st mi ms = .ok st1 ∧
      st1.v.Errors = st.v.Errors ++
        ((ms.enumFrom mi).filter (fun p => decide (¬ ValidEdit c p.2))).map
          (fun p => editError c p.1 p.2) := by
  induction ms with
  | nil => intro st mi; exact ⟨st, rfl, by simp⟩
  | cons m ms ih =>
    intro st mi
    obtain ⟨st1, h1, h2⟩ := markStep_errors c studentID st mi m
    obtain ⟨st2, h3, h4⟩ := ih st1 (mi + 1)
    refine ⟨st2, by rw [marksLoop, h1]; exact h3, ?_⟩
    rw [h4, h2, List.enumFrom_cons, List.append_assoc, ← List.map_append, ← List.filter_append]
    rfl

theorem studentStep_errors (c : Ctx) (st : Staged) (s : StudentInput) :
    ∃ st1, studentStep c st s = .ok st1 ∧
      st1.v.Errors = st.v.Errors ++
        ((Item.entry s :: s.Marks.enum.map (fun p => Item.edit s p.1 p.2)).filter
          (fun i => decide (i.Rejected c))).map (Item.error c) := by
  by_cases h1 : s.StudentID < 1
  · refine ⟨st, by simp [studentStep, h1], ?_⟩
    have : (Item.entry s :: s.Marks.enum.map (fun p => Item.edit s p.1 p.2)).filter
        (fun i => decide (i.Rejected c)) = [] := by
      rw [List.filter_eq_nil_iff]
      intro i hi
      simp only [List.mem_cons, List.mem_map] at hi
      rcases hi with hi | ⟨p, _, hi⟩ <;> subst hi <;> simp [Item.Rejected] <;> omega
    simp [this]
  · by_cases h2 : s.StudentID ∈ c.allStudentIDs
    · have hflags : ∃ st3, studentStep c st s = marksLoop c s.StudentID st3 0 s.Marks ∧
          st3.v = st.v := by
        unfold studentStep
        rw [if_neg h1, if_neg (by simpa using h2)]
        simp only [flagStep_eq c s.StudentID MarkAbsent s.Absent _ (Or.inl rfl),
          flagStep_eq c s.StudentID MarkLate s.Late _ (Or.inr (Or.inl rfl)),
          flagStep_eq c s.StudentID MarkNotDone s.NotDone _ (Or.inr (Or.inr rfl))]
        exact ⟨_, rfl, rfl⟩
      obtain ⟨st3, h3, h4⟩ := hflags
      obtain ⟨st1, h5, h6⟩ := marksLoop_errors c s.StudentID s.Marks st3 0
      refine ⟨st1, by rw [h3, h5], ?_⟩
      rw [h6, h4]
      congr 1
      have hent : decide ((Item.entry s).Rejected c) = false := by
        simp [Item.Rejected, h2]
      rw [List.filter_cons, hent]
      simp only [Bool.false_eq_true, if_false, List.filter_map, List.map_map, List.enum]
      have hcongr : ∀ p ∈ List.enumFrom 0 s.Marks,
          ((fun i => decide (Item.Rejected c i)) ∘ fun p => Item.edit s p.1 p.2) p =
            decide (¬ ValidEdit c p.2) := by
        intro p _
        have h1' : 1 ≤ s.StudentID := by omega
        simp [Item.Rejected, h1', h2]
      rw [List.filter_congr hcongr]
      rfl
    · refine ⟨{ st with
          v := st.v.Add "student_id" (ErrUserNotInJournal ++ ": " ++ toString s.StudentID) },
        by simp [studentStep, h1, h2], ?_⟩
      have hent : decide ((Item.entry s).Rejected c) = true := by
        have h1' : 1 ≤ s.StudentID := by omega
        simp [Item.Rejected, h1', h2]
      have : (s.Marks.enum.map (fun p => Item.edit s p.1 p.2)).filter
          (fun i => decide (i.Rejected c)) = [] := by
        rw [List.filter_eq_nil_iff]
        intro i hi
        simp only [List.mem_map] at hi
        obtain ⟨p, _, hi⟩ := hi
        subst hi
        simp [Item.Rejected, h2]
      rw [List.filter_cons, hent]
      simp [this, Item.error, Validator.Add]

theorem reportedErrors_cons (c : Ctx) (s : StudentInput) (ss : List StudentInput) :
    reportedErrors c (s :: ss) =
      ((Item.entry s :: s.Marks.enum.map (fun p => Item.edit s p.1 p.2)).filter
          (fun i => decide (i.Rejected c))).map (Item.error c) ++ reportedErrors c ss := by
  unfold reportedErrors items
  rw [List.map_cons, List.flatten_cons, List.filter_append, List.map_append]

theorem studentsLoop_errors (c : Ctx) (input : List StudentInput) :
    ∀ (st : Staged), ∃ st1, studentsLoop c st input = .ok st1 ∧
      st1.v.Errors = st.v.Errors ++ reportedErrors c input := by
  induction input with
  | nil => intro st; exact ⟨st, rfl, by simp [reportedErrors, items]⟩
  | cons s ss ih =>
    intro st
    obtain ⟨st1, h1, h2⟩ := studentStep_errors c st s
    obtain ⟨st2, h3, h4⟩ := ih st1
    refine ⟨st2, by rw [studentsLoop, h1]; exact h3, ?_⟩
    rw [h4, h2, reportedErrors_cons, List.append_assoc]

theorem stage_errors (c : Ctx) (input : List StudentInput) :
    ∃ st, stage c input = .ok st ∧ st.v.Errors = reportedErrors c input := by
  obtain ⟨st, h1, h2⟩ := studentsLoop_errors c input Staged.initial
  exact ⟨st, h1, by rw [h2]; simp [Staged.initial, NewValidator]⟩

theorem reportedErrors_ne_nil (c : Ctx) (input : List StudentInput)
    (h : ∃ i ∈ items input, i.Rejected c) : reportedErrors c input ≠ [] := by
  obtain ⟨i, hi, hr⟩ := h
  intro hnil
  have hmem : Item.error c i ∈ reportedErrors c input :=
    List.mem_map_of_mem _ (List.mem_filter.mpr ⟨hi, by simpa using hr⟩)
  rw [hnil] at hmem
  exact List.not_mem_nil _ hmem

theorem studentsLoop_append (c : Ctx) (xs ys : List StudentInput) :
    ∀ (st : Staged), studentsLoop c st (xs ++ ys) =
      Except.bind (studentsLoop c st xs) (fun st1 => studentsLoop c st1 ys) := by
  induction xs with
  | nil => intro st; rfl
  | cons x xs ih =>
    intro st
    rw [List.cons_append, studentsLoop, studentsLoop]
    cases studentStep c st x with
    | error e => rfl
    | ok st1 => exact ih st1

theorem marksLoop_append (c : Ctx) (studentID : Int) (xs ys : List MarkInput) :
    ∀ (st : Staged) (mi : Nat), marksLoop c studentID st mi (xs ++ ys) =
      Except.bind (marksLoop c studentID st mi xs)
        (fun st1 => marksLoop c studentID st1 (mi + xs.length) ys) := by
  induction xs with
  | nil => intro st mi; rfl
  | cons x xs ih =>
    intro st mi
    rw [List.cons_append, marksLoop, marksLoop]
    cases markStep c studentID st mi x with
    | error e => rfl
    | ok st1 =>
      simp only [ih st1 (mi + 1), List.length_cons]
      rw [show mi + 1 + xs.length = mi + (xs.length + 1) by omega]

theorem studentStep_processed (c : Ctx) (st : Staged) (s : StudentInput)
    (h1 : 1 ≤ s.StudentID) (h2 : s.StudentID ∈ c.allStudentIDs) :
    studentStep c st s = marksLoop c s.StudentID (flagsStaged c st s) 0 s.Marks := by
  unfold studentStep
  rw [if_neg (by omega), if_neg (by simpa using h2)]
  simp only [flagStep_eq c s.StudentID MarkAbsent s.Absent _ (Or.inl rfl),
    flagStep_eq c s.StudentID MarkLate s.Late _ (Or.inr (Or.inl rfl)),
    flagStep_eq c s.StudentID MarkNotDone s.NotDone _ (Or.inr (Or.inr rfl))]
  simp [flagsStaged, impliedKeyDeletes]

theorem markStep_type_error (c : Ctx) (studentID : Int) (st : Staged) (mi : Nat)
    (m : MarkInput) (h : ¬ PassesTypeCheck m) :
    markStep c studentID st mi m =
      .ok { st with v := st.v.Add "type" (ErrNoSuchType ++ ": " ++ toString mi) } := by
  have hcond : m.Type_ ≠ MarkCommonGrade ∧ m.Type_ ≠ MarkNoticeBad ∧
      m.Type_ ≠ MarkNoticeNeutral ∧ m.Type_ ≠ MarkNoticeGood ∧ m.Remove = false := by
    unfold PassesTypeCheck EditType at h
    push_neg at h
    obtain ⟨⟨h1, h2, h3, h4⟩, h5⟩ := h
    exact ⟨h1, h4, h3, h2, by simpa using h5⟩
  unfold markStep
  rw [if_pos hcond]

theorem editError_field (c : Ctx) (mi : Nat) (m : MarkInput) (hT : PassesTypeCheck m) :
    (editError c mi m).1 ≠ "type" := by
  unfold editError
  rw [if_neg (not_not.mpr hT)]
  cases m.ID with
  | none => simp only [contentError]; split_ifs <;> simp
  | some id => simp only [contentError]; split_ifs <;> simp

/-! ## The type switch of `newMark` -/

theorem newMark_common (c : Ctx) (v : Validator) (index : Nat) (ID studentID : Int)
    (comment : Option String) (grade : Option Int) :
    newMark c v index ID studentID MarkCommonGrade comment grade =
      match grade with
      | none => .ok (none, v.Add "grade" (toString index ++ ": must be provided"))
      | some g =>
        if g ∈ c.allGradeIDs then
          .ok (some (buildMark c ID studentID MarkCommonGrade comment grade), v)
        else .ok (none, v.Add "grade" (toString index ++ ": invalid grade ID")) := by
  cases grade with
  | none => simp [newMark]
  | some g => by_cases h : g ∈ c.allGradeIDs <;> simp [newMark, h]

theorem newMark_notice (c : Ctx) (v : Validator) (index : Nat) (ID studentID : Int)
    (mtype : String) (comment : Option String) (grade : Option Int) (h : NoticeType mtype) :
    newMark c v index ID studentID mtype comment grade =
      if comment = none ∨ comment = some "" then
        .ok (none, v.Add "comment" (toString index ++ ": must be provided and not empty"))
      else .ok (some (buildMark c ID studentID mtype comment grade), v) := by
  rcases h with h | h | h <;> subst h <;>
    simp [newMark, MarkCommonGrade, MarkNoticeBad, MarkNoticeNeutral, MarkNoticeGood]

theorem newMark_flagType (c : Ctx) (v : Validator) (index : Nat) (ID studentID : Int)
    (mtype : String) (comment : Option String) (grade : Option Int) (h : FlagType mtype) :
    newMark c v index ID studentID mtype comment grade =
      .ok (some (buildMark c ID studentID mtype comment grade), v) := by
  rcases h with h | h | h <;> subst h <;>
    simp [newMark, MarkAbsent, MarkLate, MarkNotDone, MarkCommonGrade, MarkNoticeBad,
      MarkNoticeNeutral, MarkNoticeGood]

theorem notice_ne_common (mtype : String) (h : NoticeType mtype) : mtype ≠ MarkCommonGrade := by
  rcases h with h | h | h <;> subst h <;> decide

theorem flag_ne_common (mtype : String) (h : FlagType mtype) : mtype ≠ MarkCommonGrade := by
  rcases h with h | h | h <;> subst h <;> decide

theorem flag_not_notice (mtype : String) (h : FlagType mtype) : ¬ NoticeType mtype := by
  rcases h with h | h | h <;> subst h <;> decide

theorem newMark_some (c : Ctx) (v v1 : Validator) (index : Nat) (ID studentID : Int)
    (mtype : String) (comment : Option String) (grade : Option Int) (r : Marks)
    (h : newMark c v index ID studentID mtype comment grade = .ok (some r, v1)) :
    Produced c r ∧ v1 = v := by
  by_cases h1 : mtype = MarkCommonGrade
  · subst h1
    rw [newMark_common] at h
    cases grade with
    | none => simp at h
    | some g =>
      by_cases hg : g ∈ c.allGradeIDs
      · simp [hg] at h
        refine ⟨⟨ID, studentID, MarkCommonGrade, comment, some g, h.1.symm,
          Or.inl (Or.inl rfl), fun _ => ⟨g, rfl, hg⟩, fun hn => ?_⟩, h.2.symm⟩
        exact absurd rfl (notice_ne_common _ hn)
      · simp [hg] at h
  · by_cases h2 : NoticeType mtype
    · rw [newMark_notice c v index ID studentID mtype comment grade h2] at h
      by_cases hc : comment = none ∨ comment = some ""
      · simp [hc] at h
      · rw [if_neg hc] at h
        simp at h
        refine ⟨⟨ID, studentID, mtype, comment, grade, h.1.symm, ?_, fun hm => absurd hm h1,
          fun _ => ?_⟩, h.2.symm⟩
        · rcases h2 with h2 | h2 | h2
          · exact Or.inl (Or.inr (Or.inl h2))
          · exact Or.inl (Or.inr (Or.inr (Or.inl h2)))
          · exact Or.inl (Or.inr (Or.inr (Or.inr h2)))
        · cases comment with
          | none => exact absurd (Or.inl rfl) hc
          | some t => exact ⟨t, rfl, fun ht => hc (Or.inr (by rw [ht]))⟩
    · by_cases h3 : FlagType mtype
      · rw [newMark_flagType c v index ID studentID mtype comment grade h3] at h
        simp at h
        exact ⟨⟨ID, studentID, mtype, comment, grade, h.1.symm, Or.inr h3,
          fun hm => absurd hm h1, fun hn => absurd hn h2⟩, h.2.symm⟩
      · exfalso
        unfold newMark at h
        have h2a : ¬ (mtype = MarkNoticeBad ∨ mtype = MarkNoticeNeutral ∨
            mtype = MarkNoticeGood) := by
          rintro (h | h | h)
          · exact h2 (Or.inr (Or.inr h))
          · exact h2 (Or.inr (Or.inl h))
          · exact h2 (Or.inl h)
        have h3a : ¬ (mtype = MarkAbsent ∨ mtype = MarkLate ∨ mtype = MarkNotDone) := h3
        rw [if_neg h1, if_neg h2a, if_neg h3a] at h
        exact Except.noConfusion h

/-! ## Every staged record is a record that `newMark` returns -/

theorem allProduced_insert (c : Ctx) (st : Staged) (v : Validator) (r0 : Option Marks)
    (hst : st.AllProduced c) (h0 : ∀ r, r0 = some r → Produced c r) :
    Staged.AllProduced c { st with v := v, insertMarks := st.insertMarks ++ [r0] } := by
  intro r hr
  simp only [List.mem_append, List.mem_singleton] at hr
  rcases hr with (hr | hr) | hr
  · exact hst r (Or.inl hr)
  · exact h0 r hr.symm
  · exact hst r (Or.inr hr)

theorem allProduced_update (c : Ctx) (st : Staged) (v : Validator) (r0 : Option Marks)
    (hst : st.AllProduced c) (h0 : ∀ r, r0 = some r → Produced c r) :
    Staged.AllProduced c { st with v := v, updateMarks := st.updateMarks ++ [r0] } := by
  intro r hr
  simp only [List.mem_append, List.mem_singleton] at hr
  rcases hr with hr | hr | hr
  · exact hst r (Or.inl hr)
  · exact hst r (Or.inr hr)
  · exact h0 r hr.symm

theorem markStep_produced (c : Ctx) (studentID : Int) (st st1 : Staged) (mi : Nat)
    (m : MarkInput) (hst : st.AllProduced c) (h : markStep c studentID st mi m = .ok st1) :
    st1.AllProduced c := by
  unfold markStep at h
  by_cases hcond : m.Type_ ≠ MarkCommonGrade ∧ m.Type_ ≠ MarkNoticeBad ∧
      m.Type_ ≠ MarkNoticeNeutral ∧ m.Type_ ≠ MarkNoticeGood ∧ m.Remove = false
  · rw [if_pos hcond] at h
    injection h with h
    subst h
    exact hst
  · rw [if_neg hcond] at h
    cases hid : m.ID with
    | none =>
      rw [hid] at h
      simp only at h
      by_cases hr : m.Remove = true
      · rw [if_pos hr] at h
        injection h with h
        subst h
        exact hst
      · rw [if_neg hr] at h
        cases hn : newMark c st.v mi 0 studentID m.Type_ m.Comment m.Grade with
        | error e => rw [hn] at h; exact Except.noConfusion h
        | ok p =>
          obtain ⟨r0, v0⟩ := p
          rw [hn] at h
          injection h with h
          subst h
          exact allProduced_insert c st v0 r0 hst (fun r hr => by
            subst hr
            exact (newMark_some c st.v v0 mi 0 studentID _ _ _ r hn).1)
    | some id =>
      rw [hid] at h
      simp only at h
      by_cases hmem : id ∉ c.allMarkIDs
      · rw [if_pos hmem] at h
        injection h with h
        subst h
        exact hst
      · rw [if_neg hmem] at h
        by_cases hr : m.Remove = true
        · rw [if_pos hr] at h
          injection h with h
          subst h
          exact hst
        · rw [if_neg hr] at h
          cases hn : newMark c st.v mi id 0 m.Type_ m.Comment m.Grade with
          | error e => rw [hn] at h; exact Except.noConfusion h
          | ok p =>
            obtain ⟨r0, v0⟩ := p
            rw [hn] at h
            injection h with h
            subst h
            exact allProduced_update c st v0 r0 hst (fun r hr => by
              subst hr
              exact (newMark_some c st.v v0 mi id 0 _ _ _ r hn).1)

theorem marksLoop_produced (c : Ctx) (studentID : Int) (ms : List MarkInput) :
    ∀ (st st1 : Staged) (mi : Nat), st.AllProduced c →
      marksLoop c studentID st mi ms = .ok st1 → st1.AllProduced c := by
  induction ms with
  | nil =>
    intro st st1 mi hst h
    rw [marksLoop] at h
    injection h with h
    subst h
    exact hst
  | cons m ms ih =>
    intro st st1 mi hst h
    rw [marksLoop] at h
    cases hm : markStep c studentID st mi m with
    | error e => rw [hm] at h; exact Except.noConfusion h
    | ok st2 =>
      rw [hm] at h
      exact ih st2 st1 (mi + 1) (markStep_produced c studentID st st2 mi m hst hm) h

theorem flagsStaged_produced (c : Ctx) (st : Staged) (s : StudentInput)
    (hst : st.AllProduced c) : (flagsStaged c st s).AllProduced c := by
  have hflag : ∀ (t : String), FlagType t →
      Produced c (buildMark c 0 s.StudentID t none none) := by
    intro t ht
    exact ⟨0, s.StudentID, t, none, none, rfl, Or.inr ht,
      fun h => absurd h (flag_ne_common t ht), fun h => absurd h (flag_not_notice t ht)⟩
  intro r hr
  simp only [flagsStaged, List.mem_append] at hr
  rcases hr with (hr | (hr | hr) | hr) | hr
  · exact hst r (Or.inl hr)
  · split at hr
    · simp only [List.mem_singleton, Option.some.injEq] at hr
      subst hr
      exact hflag _ (Or.inl rfl)
    · exact absurd hr (List.not_mem_nil _)
  · split at hr
    · simp only [List.mem_singleton, Option.some.injEq] at hr
      subst hr
      exact hflag _ (Or.inr (Or.inl rfl))
    · exact absurd hr (List.not_mem_nil _)
  · split at hr
    · simp only [List.mem_singleton, Option.some.injEq] at hr
      subst hr
      exact hflag _ (Or.inr (Or.inr rfl))
    · exact absurd hr (List.not_mem_nil _)
  · exact hst r (Or.inr hr)

theorem studentStep_produced (c : Ctx) (st st1 : Staged) (s : StudentInput)
    (hst : st.AllProduced c) (h : studentStep c st s = .ok st1) : st1.AllProduced c := by
  by_cases h1 : s.StudentID < 1
  · simp only [studentStep, if_pos h1] at h
    injection h with h
    subst h
    exact hst
  · by_cases h2 : s.StudentID ∈ c.allStudentIDs
    · rw [studentStep_processed c st s (by omega) h2] at h
      exact marksLoop_produced c s.StudentID s.Marks _ st1 0
        (flagsStaged_produced c st s hst) h
    · have h2a : s.StudentID ∉ c.allStudentIDs := h2
      simp only [studentStep, if_neg h1, if_pos h2a] at h
      injection h with h
      subst h
      exact hst

theorem studentsLoop_produced (c : Ctx) (input : List StudentInput) :
    ∀ (st st1 : Staged), st.AllProduced c →
      studentsLoop c st input = .ok st1 → st1.AllProduced c := by
  induction input with
  | nil =>
    intro st st1 hst h
    rw [studentsLoop] at h
    injection h with h
    subst h
    exact hst
  | cons s ss ih =>
    intro st st1 hst h
    rw [studentsLoop] at h
    cases hm : studentStep c st s with
    | error e => rw [hm] at h; exact Except.noConfusion h
    | ok st2 =>
      rw [hm] at h
      exact ih st2 st1 (studentStep_produced c st st2 s hst hm) h

theorem stage_produced (c : Ctx) (input : List StudentInput) :
    ∃ st, stage c input = .ok st ∧ st.AllProduced c := by
  obtain ⟨st, hs, _⟩ := stage_errors c input
  refine ⟨st, hs, studentsLoop_produced c input Staged.initial st ?_ hs⟩
  intro r hr
  simp [Staged.initial] at hr

theorem produced_type (c : Ctx) (r : Marks) (h : Produced c r) :
    r.Type_ ≠ some MarkCommonGrade ∧
    (r.Type_ = some MarkLessonGrade ∨ (∃ t, NoticeType t ∧ r.Type_ = some t) ∨
      (∃ t, FlagType t ∧ r.Type_ = some t)) := by
  obtain ⟨ID, sid, mtype, comment, grade, hr, ht, _, _⟩ := h
  subst hr
  rcases ht with (ht | ht | ht | ht) | ht
  · subst ht
    exact ⟨by simp [buildMark, MarkCommonGrade, MarkLessonGrade], Or.inl (by simp [buildMark])⟩
  · subst ht
    exact ⟨by simp [buildMark, MarkCommonGrade, MarkNoticeGood],
      Or.inr (Or.inl ⟨MarkNoticeGood, Or.inl rfl,
        by simp [buildMark, MarkCommonGrade, MarkNoticeGood]⟩)⟩
  · subst ht
    exact ⟨by simp [buildMark, MarkCommonGrade, MarkNoticeNeutral],
      Or.inr (Or.inl ⟨MarkNoticeNeutral, Or.inr (Or.inl rfl),
        by simp [buildMark, MarkCommonGrade, MarkNoticeNeutral]⟩)⟩
  · subst ht
    exact ⟨by simp [buildMark, MarkCommonGrade, MarkNoticeBad],
      Or.inr (Or.inl ⟨MarkNoticeBad, Or.inr (Or.inr rfl),
        by simp [buildMark, MarkCommonGrade, MarkNoticeBad]⟩)⟩
  · have hne := flag_ne_common mtype ht
    exact ⟨by simp [buildMark, hne], Or.inr (Or.inr ⟨mtype, ht, by simp [buildMark, hne]⟩)⟩

theorem produced_frame (c : Ctx) (r : Marks) (h : Produced c r) :
    r.LessonID = some c.lesson.ID ∧ r.Course = c.lesson.Course ∧
    r.JournalID = some c.journal.ID ∧ r.TeacherID = some c.sessionUser.ID ∧
    r.CreatedAt = some c.currentTime ∧ r.UpdatedAt = some c.currentTime := by
  obtain ⟨ID, sid, mtype, comment, grade, hr, _, _, _⟩ := h
  subst hr
  simp [buildMark]

theorem produced_lesson_grade (c : Ctx) (r : Marks) (h : Produced c r)
    (h0 : (0 : Int) ∉ c.allGradeIDs) (ht : r.Type_ = some MarkLessonGrade) :
    ∃ g, r.GradeID = some g ∧ g ∈ c.allGradeIDs := by
  obtain ⟨ID, sid, mtype, comment, grade, hr, hty, hg, _⟩ := h
  subst hr
  have hm : mtype = MarkCommonGrade := by
    by_contra hne
    simp only [buildMark, if_neg hne, Option.some.injEq] at ht
    subst ht
    rcases hty with (h | h | h | h) | (h | h | h) <;> revert h <;> decide
  obtain ⟨g, hgr, hmem⟩ := hg hm
  rw [Option.mem_def] at hgr
  subst hgr
  have hg0 : g ≠ 0 := fun h => h0 (h ▸ hmem)
  exact ⟨g, by simp [buildMark, hg0], hmem⟩

/-! ## The in-memory instance -/

theorem txCall_snd {σ α : Type} (xs : List α) (ev : Event) (op : σ → List α → Except String σ)
    (tx : σ) (h : op tx [] = .ok tx) : (txCall xs ev op tx).2 = op tx xs := by
  unfold txCall
  cases xs <;> simp [h]

theorem memInsertMarks_nil (tx : List Marks) : memInsertMarks tx [] = .ok tx := rfl

theorem memUpdateMarks_nil (tx : List Marks) : memUpdateMarks tx [] = .ok tx := rfl

theorem memDeleteMarks_nil (tx : List Marks) : memDeleteMarks tx [] = .ok tx := by
  simp [memDeleteMarks]

theorem memDeleteMarksByStudentIDType_nil (tx : List Marks) :
    memDeleteMarksByStudentIDType tx [] = .ok tx := by
  simp [memDeleteMarksByStudentIDType]

theorem memApp_applyStaged (lesson : Lesson) (journal : Journal) (enrolled grades : List Int)
    (decoded : Except String (List StudentInput)) (now : Nat) (st : Staged) (tx : List Marks) :
    (applyStaged (memApp lesson journal enrolled grades decoded now) st tx).2 =
      memApply tx st := by
  have g1 := txCall_snd st.insertMarks (.InsertMarks st.insertMarks) memInsertMarks tx
    (memInsertMarks_nil tx)
  unfold applyStaged memApply
  simp only [memApp]
  rcases h1 : txCall st.insertMarks (.InsertMarks st.insertMarks) memInsertMarks tx with
    ⟨e1, err | t1⟩
  · rw [h1] at g1; simp only at g1; simp only [← g1]
  rw [h1] at g1
  simp only at g1
  simp only [← g1]
  have g2 := txCall_snd st.updateMarks (.UpdateMarks st.updateMarks) memUpdateMarks t1
    (memUpdateMarks_nil t1)
  rcases h2 : txCall st.updateMarks (.UpdateMarks st.updateMarks) memUpdateMarks t1 with
    ⟨e2, err | t2⟩
  · rw [h2] at g2; simp only at g2; simp only [← g2]
  rw [h2] at g2
  simp only at g2
  simp only [← g2]
  have g3 := txCall_snd st.deletedMarkIDs (.DeleteMarks st.deletedMarkIDs) memDeleteMarks t2
    (memDeleteMarks_nil t2)
  rcases h3 : txCall st.deletedMarkIDs (.DeleteMarks st.deletedMarkIDs) memDeleteMarks t2 with
    ⟨e3, err | t3⟩
  · rw [h3] at g3; simp only at g3; simp only [← g3]
  rw [h3] at g3
  simp only at g3
  simp only [← g3]
  have g4 := txCall_snd st.deletedMarksByStudentIDType
    (.DeleteMarksByStudentIDType st.deletedMarksByStudentIDType)
    memDeleteMarksByStudentIDType t3 (memDeleteMarksByStudentIDType_nil t3)
  rcases h4 : txCall st.deletedMarksByStudentIDType
    (.DeleteMarksByStudentIDType st.deletedMarksByStudentIDType)
    memDeleteMarksByStudentIDType t3 with ⟨e4, err | t4⟩
  · rw [h4] at g4; simp only at g4; simp only [← g4]
  rw [h4] at g4
  simp only at g4
  simp only [← g4]

theorem memApp_prepared (lesson : Lesson) (journal : Journal) (enrolled grades : List Int)
    (input : List StudentInput) (now : Nat) (user : User) (body : String) (db : List Marks)
    (hl : 0 ≤ lesson.ID) (hj : lesson.JournalID = journal.ID)
    (hauth : journal.IsUserTeacherOfJournal user.ID = true ∨ user.Role = RoleAdministrator) :
    Prepared (memApp lesson journal enrolled grades (.ok input) now)
      ⟨user, some lesson.ID, body⟩ db lesson.ID
      (memCtx lesson journal enrolled grades user now db) input := by
  refine ⟨rfl, hl, ?_, ?_, hauth, rfl, rfl, ?_, rfl, rfl, rfl⟩
  · simp [memApp, memCtx]
  · simp [memApp, memCtx, hj]
  · simp [memApp, memCtx]

theorem memApp_outcome (lesson : Lesson) (journal : Journal) (enrolled grades : List Int)
    (input : List StudentInput) (now : Nat) (user : User) (body : String)
    (db d : List Marks) (st : Staged)
    (hl : 0 ≤ lesson.ID) (hj : lesson.JournalID = journal.ID)
    (hauth : journal.IsUserTeacherOfJournal user.ID = true ∨ user.Role = RoleAdministrator)
    (hs : stage (memCtx lesson journal enrolled grades user now db) input = .ok st)
    (hv : st.v.Errors = []) (ha : memApply db st = .ok d) :
    setMarksForLesson (memApp lesson journal enrolled grades (.ok input) now)
        ⟨user, some lesson.ID, body⟩ db =
      ⟨preloadTrace lesson.ID (memCtx lesson journal enrolled grades user now db) ++
        ([.Begin] ++ stagedCalls st ++
          [.Commit, .outputJSON StatusCreated (.message "success")]), d⟩ := by
  rw [setMarksForLesson_prepared _ _ db lesson.ID _ input st
    (memApp_prepared lesson journal enrolled grades input now user body db hl hj hauth) hs]
  rw [persist_committed (memApp lesson journal enrolled grades (.ok input) now) db db d st hv
    rfl (by rw [memApp_applyStaged]; exact ha) rfl]

theorem flagEntry_stage (c : Ctx) (studentID : Int) (mtype : String) (flag : Bool)
    (ht : FlagType mtype) (h1 : 1 ≤ studentID) (h2 : studentID ∈ c.allStudentIDs) :
    stage c [flagEntry studentID mtype flag] =
      .ok ⟨NewValidator,
        if flag = true then [some (buildMark c 0 studentID mtype none none)] else [],
        [], [], if flag = true then [] else [⟨studentID, mtype⟩]⟩ := by
  rw [stage_valid c _ (by
    intro s hs
    rw [List.mem_singleton] at hs
    subst hs
    exact ⟨h1, h2, fun m hm => absurd hm (List.not_mem_nil m)⟩)]
  rcases ht with h | h | h <;> subst h <;> cases flag <;>
    simp [impliedStaged, impliedInserts, impliedUpdates, impliedDeletes, impliedKeyDeletes,
      flagEntry, MarkAbsent, MarkLate, MarkNotDone]

theorem memApp_flag_db (lesson : Lesson) (journal : Journal) (enrolled grades : List Int)
    (now : Nat) (user : User) (body : String) (db : List Marks) (studentID : Int)
    (mtype : String) (flag : Bool)
    (hl : 0 ≤ lesson.ID) (hj : lesson.JournalID = journal.ID)
    (hauth : journal.IsUserTeacherOfJournal user.ID = true ∨ user.Role = RoleAdministrator)
    (ht : FlagType mtype) (h1 : 1 ≤ studentID) (h2 : studentID ∈ enrolled) :
    (setMarksForLesson
        (memApp lesson journal enrolled grades (.ok [flagEntry studentID mtype flag]) now)
        ⟨user, some lesson.ID, body⟩ db).db =
      if flag = true then
        db ++ [{ buildMark (memCtx lesson journal enrolled grades user now db) 0 studentID
                   mtype none none with
                 ID := (db.map (fun x => x.ID)).foldl max 0 + 1 }]
      else db.filter (fun x => ¬ (x.UserID = some studentID ∧ x.Type_ = some mtype)) := by
  have hs := flagEntry_stage (memCtx lesson journal enrolled grades user now db) studentID
    mtype flag ht h1 h2
  cases flag with
  | true =>
    rw [memApp_outcome lesson journal enrolled grades _ now user body db _ _ hl hj hauth hs rfl
      (by simp [memApply, memInsertMarks, memUpdateMarks, memDeleteMarks,
            memDeleteMarksByStudentIDType]; rfl)]
    simp
  | false =>
    rw [memApp_outcome lesson journal enrolled grades _ now user body db _ _ hl hj hauth hs rfl
      (by simp [memApply, memInsertMarks, memUpdateMarks, memDeleteMarks,
            memDeleteMarksByStudentIDType]; rfl)]
    simp

theorem flagEntry_absent (studentID : Int) (flag : Bool) :
    flagEntry studentID MarkAbsent flag = ⟨studentID, some flag, none, none, []⟩ := by
  simp [flagEntry, MarkAbsent, MarkLate, MarkNotDone]

theorem buildMark_flag_key (c : Ctx) (studentID : Int) (mtype : String) (ht : FlagType mtype) :
    (buildMark c 0 studentID mtype none none).UserID = some studentID ∧
    (buildMark c 0 studentID mtype none none).Type_ = some mtype ∧
    (buildMark c 0 studentID mtype none none).GradeID = none ∧
    (buildMark c 0 studentID mtype none none).Comment = none := by
  simp [buildMark, flag_ne_common mtype ht]

/-! ## The claims -/

/-- C1: for every batch in which every entry names an enrolled student (student identifiers
being positive) and every edit is valid for its type, the staging records no validation error
and stages exactly the implied inserts, updates, deletes by id and deletes by (student, type),
each list in input order; when the transaction and its operations succeed, the handler begins
one transaction, invokes the operations for the lists that are not empty, commits once and
reports created. -/
theorem valid_batch_is_staged_and_committed {σ : Type} (app : App σ) (req : Request)
    (db tx0 db1 : σ) (lessonID : Int) (c : Ctx) (input : List StudentInput)
    (hp : Prepared app req db lessonID c input)
    (hpos : ∀ i ∈ c.allStudentIDs, 1 ≤ i)
    (henr : ∀ s ∈ input, s.StudentID ∈ c.allStudentIDs)
    (hval : ∀ s ∈ input, ∀ m ∈ s.Marks, ValidEdit c m)
    (hb : app.Begin db = .ok tx0)
    (ha : (applyStaged app (impliedStaged c input) tx0).2 = .ok db1)
    (ho : app.outputJSON StatusCreated (.message "success") = .ok ()) :
    stage c input = .ok (impliedStaged c input) ∧
    (impliedStaged c input).v.Errors = [] ∧
    setMarksForLesson app req db =
      ⟨preloadTrace lessonID c ++ [.Begin] ++ stagedCalls (impliedStaged c input) ++
        [.Commit, .outputJSON StatusCreated (.message "success")], db1⟩ ∧
    (setMarksForLesson app req db).trace.count .Begin = 1 ∧
    (setMarksForLesson app req db).trace.count .Commit = 1 := by
  have hs : stage c input = .ok (impliedStaged c input) :=
    stage_valid c input (fun s hs => ⟨hpos _ (henr s hs), henr s hs, hval s hs⟩)
  have hv : (impliedStaged c input).v.Errors = [] := rfl
  have ht := setMarksForLesson_prepared app req db lessonID c input _ hp hs
  rw [persist_committed app db tx0 db1 _ hv hb ha ho] at ht
  refine ⟨hs, hv, ?_, ?_, ?_⟩
  · rw [ht]; simp
  · rw [ht]
    simp [preloadTrace, List.count_cons, (count_stagedCalls (impliedStaged c input)).1]
  · rw [ht]
    simp [preloadTrace, List.count_cons, (count_stagedCalls (impliedStaged c input)).2]

/-- Witness of C1 on the example batch: one delete key for absent, one insert for late, one
insert of a lesson grade with grade 3, one delete of mark 42. -/
theorem valid_batch_is_staged_and_committed_witness :
    stage demoCtx demoBatch = .ok (impliedStaged demoCtx demoBatch) ∧
    (impliedStaged demoCtx demoBatch).v.Errors = [] ∧
    setMarksForLesson (demoApp demoBatch) demoRequest demoDB =
      ⟨preloadTrace 7 demoCtx ++ [.Begin] ++ stagedCalls (impliedStaged demoCtx demoBatch) ++
        [.Commit, .outputJSON StatusCreated (.message "success")],
       (setMarksForLesson (demoApp demoBatch) demoRequest demoDB).db⟩ ∧
    (setMarksForLesson (demoApp demoBatch) demoRequest demoDB).trace.count .Begin = 1 ∧
    (setMarksForLesson (demoApp demoBatch) demoRequest demoDB).trace.count .Commit = 1 :=
  valid_batch_is_staged_and_committed (demoApp demoBatch) demoRequest demoDB demoDB
    (setMarksForLesson (demoApp demoBatch) demoRequest demoDB).db 7 demoCtx demoBatch
    ⟨rfl, by decide, rfl, rfl, Or.inl rfl, rfl, rfl, rfl, rfl, rfl, rfl⟩
    (by decide) (by decide) (by decide) rfl rfl rfl

/-- C2, the claim as stated fails: the first entry of the batch names student 0, who is not
enrolled, no validation error is recorded for it, and the handler inserts the absence of
student 5 and commits. -/
theorem unenrolled_entry_batch_is_written :
    (∃ s ∈ skippedBatch, s.StudentID ∉ demoCtx.allStudentIDs) ∧
    (∃ e ∈ (setMarksForLesson (demoApp skippedBatch) demoRequest demoDB).trace,
      e.isWrite = true) ∧
    Event.Commit ∈ (setMarksForLesson (demoApp skippedBatch) demoRequest demoDB).trace ∧
    (setMarksForLesson (demoApp skippedBatch) demoRequest demoDB).db ≠ demoDB := by
  decide

/-- C2, amended: for every batch that contains at least one item the handler rejects (an entry
whose student id is at least 1 and not enrolled, or, in an entry whose student id is at least
1 and enrolled, an edit that is not valid for its type), no transaction is begun or committed,
none of the insert, update and delete operations is invoked, and the database is unchanged. -/
theorem rejected_item_batch_writes_nothing {σ : Type} (app : App σ) (req : Request) (db : σ)
    (lessonID : Int) (c : Ctx) (input : List StudentInput)
    (hp : Prepared app req db lessonID c input)
    (hinv : ∃ i ∈ items input, i.Rejected c) :
    (∀ e ∈ (setMarksForLesson app req db).trace, e.isTx = false) ∧
    (setMarksForLesson app req db).db = db := by
  obtain ⟨st, hs, he⟩ := stage_errors c input
  have hne : st.v.Errors ≠ [] := by rw [he]; exact reportedErrors_ne_nil c input hinv
  rw [setMarksForLesson_prepared app req db lessonID c input st hp hs, persist_invalid app db st hne]
  refine ⟨fun e hm => ?_, rfl⟩
  rcases List.mem_append.mp hm with h | h
  · exact preloadTrace_not_tx lessonID c e h
  · exact (writeErrorResponse_not_tx app _ _ e h).1

/-- Witness of the amended C2: the batch holds an edit of the unknown mark 41. -/
theorem rejected_item_batch_writes_nothing_witness :
    (∀ e ∈ (setMarksForLesson (demoApp rejectedBatch) demoRequest demoDB).trace,
      e.isTx = false) ∧
    (setMarksForLesson (demoApp rejectedBatch) demoRequest demoDB).db = demoDB :=
  rejected_item_batch_writes_nothing (demoApp rejectedBatch) demoRequest demoDB 7 demoCtx
    rejectedBatch ⟨rfl, by decide, rfl, rfl, Or.inl rfl, rfl, rfl, rfl, rfl, rfl, rfl⟩
    ⟨.edit ⟨5, none, some true, none,
        [⟨none, none, "praise", none, false⟩, ⟨some 41, none, "notice_bad", some "x", false⟩,
         ⟨none, none, "notice_good", some "", false⟩, ⟨none, none, "", none, true⟩]⟩ 1
        ⟨some 41, none, "notice_bad", some "x", false⟩, by decide, by decide⟩

/-- C3, the claim as stated fails: the only entry of the batch names student 0, who is not
enrolled, and carries an edit of an unknown type, yet the staging records no validation
error. -/
theorem unenrolled_entry_is_not_reported :
    (0 : Int) ∉ demoCtx.allStudentIDs ∧
    ¬ PassesTypeCheck ⟨none, none, "praise", none, false⟩ ∧
    stage demoCtx [⟨0, some true, none, none, [⟨none, none, "praise", none, false⟩]⟩] =
      .ok Staged.initial ∧
    Staged.initial.v.Errors = [] :=
  ⟨by decide, by decide, rfl, rfl⟩

/-- C3, amended: for every batch, the staging ends without panic and the validation error list
holds exactly one entry per item that the handler rejects (an entry whose student id is at
least 1 and not enrolled, or, in an entry whose student id is at least 1 and enrolled, an edit
that is not valid for its type), in the order of these items in the input; when the list is
not empty it is what the handler reports, as a bad request. -/
theorem error_list_is_one_entry_per_rejected_item {σ : Type} (app : App σ) (req : Request)
    (db : σ) (lessonID : Int) (c : Ctx) (input : List StudentInput)
    (hp : Prepared app req db lessonID c input) :
    ∃ st, stage c input = .ok st ∧
      st.v.Errors =
        ((items input).filter (fun i => decide (i.Rejected c))).map (Item.error c) ∧
      (st.v.Errors ≠ [] →
        (setMarksForLesson app req db).trace =
          preloadTrace lessonID c ++
            writeErrorResponse app StatusBadRequest (.errors (reportedErrors c input))) := by
  obtain ⟨st, hs, he⟩ := stage_errors c input
  refine ⟨st, hs, he, fun hne => ?_⟩
  rw [setMarksForLesson_prepared app req db lessonID c input st hp hs,
    persist_invalid app db st hne, he]

/-- Witness of the amended C3: four rejected items, reported in input order. -/
theorem error_list_is_one_entry_per_rejected_item_witness :
    ∃ st, stage demoCtx rejectedBatch = .ok st ∧
      st.v.Errors =
        ((items rejectedBatch).filter (fun i => decide (i.Rejected demoCtx))).map
          (Item.error demoCtx) ∧
      (st.v.Errors ≠ [] →
        (setMarksForLesson (demoApp rejectedBatch) demoRequest demoDB).trace =
          preloadTrace 7 demoCtx ++
            writeErrorResponse (demoApp rejectedBatch) StatusBadRequest
              (.errors (reportedErrors demoCtx rejectedBatch))) :=
  error_list_is_one_entry_per_rejected_item (demoApp rejectedBatch) demoRequest demoDB 7 demoCtx
    rejectedBatch ⟨rfl, by decide, rfl, rfl, Or.inl rfl, rfl, rfl, rfl, rfl, rfl, rfl⟩

/-- C4, the claim as stated fails: the bulk insert returns an error, the handler reports the
internal failure and returns, and no rollback is issued on the transaction it began. -/
theorem failed_insert_is_not_rolled_back :
    (failingApp demoBatch).InsertMarks demoDB (impliedStaged demoCtx demoBatch).insertMarks =
      .error "insert failed" ∧
    (setMarksForLesson (failingApp demoBatch) demoRequest demoDB).trace =
      preloadTrace 7 demoCtx ++
        [.Begin, .InsertMarks (impliedStaged demoCtx demoBatch).insertMarks,
         .log "insert failed",
         .outputJSON StatusInternalServerError (.error "internal server error")] ∧
    Event.Rollback ∉ (setMarksForLesson (failingApp demoBatch) demoRequest demoDB).trace :=
  ⟨rfl, by decide, by decide⟩

/-- C4, amended: for every batch that passes validation, if one of the four persistence
operations or the commit returns an error, the handler invokes no further operation and no
commit: the calls it made on the transaction are the calls that returned without error, each
on the state left by the one before, followed by the call that returned the error, and this
sequence is an initial part of the staged calls followed by the commit; nothing of the rest
is called. The handler reports a single internal failure, with that error, and no staged
write is committed: the database is unchanged. -/
theorem persistence_failure_reports_internal_error {σ : Type} (app : App σ) (req : Request)
    (db tx0 : σ) (lessonID : Int) (c : Ctx) (input : List StudentInput) (st : Staged)
    (err : String)
    (hp : Prepared app req db lessonID c input)
    (hs : stage c input = .ok st) (hv : st.v.Errors = [])
    (hb : app.Begin db = .ok tx0)
    (ha : (applyStaged app st tx0).2 = .error err) :
    setMarksForLesson app req db =
      ⟨preloadTrace lessonID c ++ [.Begin] ++ (applyStaged app st tx0).1 ++
        writeInternalServerError app err, db⟩ ∧
    (∃ rest, (applyStaged app st tx0).1 ++ rest = stagedCalls st ++ [.Commit]) ∧
    (∃ done failing rest txk,
      stagedCalls st ++ [.Commit] = done ++ failing :: rest ∧
      (applyStaged app st tx0).1 = done ++ [failing] ∧
      runEvents app done tx0 = .ok txk ∧
      failing.run app txk = .error err) ∧
    (∀ e ∈ writeInternalServerError app err, e.isTx = false) := by
  refine ⟨?_, applyStaged_fst_error app st tx0 err ha, applyStaged_failed app st tx0 err ha,
    fun e he => (writeInternalServerError_not_tx app err e he).1⟩
  rw [setMarksForLesson_prepared app req db lessonID c input st hp hs,
    persist_failed app db tx0 st err hv hb ha]
  simp

/-- Witness of the amended C4: the bulk insert of the example batch fails. -/
theorem persistence_failure_reports_internal_error_witness :
    setMarksForLesson (failingApp demoBatch) demoRequest demoDB =
      ⟨preloadTrace 7 demoCtx ++ [.Begin] ++
        (applyStaged (failingApp demoBatch) (impliedStaged demoCtx demoBatch) demoDB).1 ++
        writeInternalServerError (failingApp demoBatch) "insert failed", demoDB⟩ ∧
    (∃ rest, (applyStaged (failingApp demoBatch) (impliedStaged demoCtx demoBatch) demoDB).1 ++
      rest = stagedCalls (impliedStaged demoCtx demoBatch) ++ [.Commit]) ∧
    (∃ done failing rest txk,
      stagedCalls (impliedStaged demoCtx demoBatch) ++ [.Commit] = done ++ failing :: rest ∧
      (applyStaged (failingApp demoBatch) (impliedStaged demoCtx demoBatch) demoDB).1 =
        done ++ [failing] ∧
      runEvents (failingApp demoBatch) done demoDB = .ok txk ∧
      failing.run (failingApp demoBatch) txk = .error "insert failed") ∧
    (∀ e ∈ writeInternalServerError (failingApp demoBatch) "insert failed", e.isTx = false) :=
  persistence_failure_reports_internal_error (failingApp demoBatch) demoRequest demoDB demoDB 7
    demoCtx demoBatch (impliedStaged demoCtx demoBatch) "insert failed"
    ⟨rfl, by decide, rfl, rfl, Or.inl rfl, rfl, rfl, rfl, rfl, rfl, rfl⟩ rfl rfl rfl rfl

/-- C5: for every batch on which at least one validation error was recorded, the handler
responds bad request with the collected errors, begins no transaction and invokes none of the
four persistence operations. -/
theorem validation_errors_are_reported_without_transaction {σ : Type} (app : App σ)
    (req : Request) (db : σ) (lessonID : Int) (c : Ctx) (input : List StudentInput)
    (st : Staged)
    (hp : Prepared app req db lessonID c input)
    (hs : stage c input = .ok st) (he : st.v.Errors ≠ []) :
    setMarksForLesson app req db =
      ⟨preloadTrace lessonID c ++
        writeErrorResponse app StatusBadRequest (.errors st.v.Errors), db⟩ ∧
    (app.outputJSON StatusBadRequest (.errors st.v.Errors) = .ok () →
      (setMarksForLesson app req db).trace =
        preloadTrace lessonID c ++ [.outputJSON StatusBadRequest (.errors st.v.Errors)]) ∧
    (∀ e ∈ (setMarksForLesson app req db).trace, e.isTx = false) := by
  have ht := setMarksForLesson_prepared app req db lessonID c input st hp hs
  rw [persist_invalid app db st he] at ht
  refine ⟨ht, fun ho => ?_, fun e hm => ?_⟩
  · rw [ht]; simp [writeErrorResponse, ho]
  · rw [ht] at hm
    rcases List.mem_append.mp hm with h | h
    · exact preloadTrace_not_tx lessonID c e h
    · exact (writeErrorResponse_not_tx app _ _ e h).1

/-- Witness of C5: the staging of the example batch with rejected items records four
errors. -/
theorem validation_errors_are_reported_without_transaction_witness :
    setMarksForLesson (demoApp rejectedBatch) demoRequest demoDB =
      ⟨preloadTrace 7 demoCtx ++
        writeErrorResponse (demoApp rejectedBatch) StatusBadRequest
          (.errors [("type", "no such mark type: 0"), ("mark_id", "no such mark: 41 at 1"),
            ("comment", "2: must be provided and not empty"),
            ("student_id", "user not in journal: 6")]), demoDB⟩ ∧
    ((demoApp rejectedBatch).outputJSON StatusBadRequest
        (.errors [("type", "no such mark type: 0"), ("mark_id", "no such mark: 41 at 1"),
            ("comment", "2: must be provided and not empty"),
            ("student_id", "user not in journal: 6")]) = .ok () →
      (setMarksForLesson (demoApp rejectedBatch) demoRequest demoDB).trace =
        preloadTrace 7 demoCtx ++ [.outputJSON StatusBadRequest
          (.errors [("type", "no such mark type: 0"), ("mark_id", "no such mark: 41 at 1"),
            ("comment", "2: must be provided and not empty"),
            ("student_id", "user not in journal: 6")])]) ∧
    (∀ e ∈ (setMarksForLesson (demoApp rejectedBatch) demoRequest demoDB).trace,
      e.isTx = false) :=
  validation_errors_are_reported_without_transaction (demoApp rejectedBatch) demoRequest demoDB 7
    demoCtx rejectedBatch
    ⟨⟨[("type", "no such mark type: 0"), ("mark_id", "no such mark: 41 at 1"),
        ("comment", "2: must be provided and not empty"),
        ("student_id", "user not in journal: 6")]⟩,
      [some (buildMark demoCtx 0 5 MarkLate none none), none], [], [], []⟩
    ⟨rfl, by decide, rfl, rfl, Or.inl rfl, rfl, rfl, rfl, rfl, rfl, rfl⟩ rfl (by decide)

/-- C6, the claim as stated fails: student 0 is not enrolled, yet the entry is skipped
without a validation error. -/
theorem unenrolled_student_zero_is_skipped_silently :
    (0 : Int) ∉ demoCtx.allStudentIDs ∧
    studentStep demoCtx Staged.initial
      ⟨0, some true, none, none, [⟨none, some 3, "common_grade", none, false⟩]⟩ =
        .ok Staged.initial ∧
    Staged.initial.v.Errors = [] :=
  ⟨by decide, rfl, rfl⟩

/-- C6, amended: for every batch entry whose student id is at least 1 and is not a member of
the enrolled-student set, the handler records a student_id validation error for that entry and
stages nothing from it (none of its flags and none of its edits); the entries after it are
processed from the accumulators so extended. -/
theorem unenrolled_entry_is_rejected (c : Ctx) (st : Staged) (s : StudentInput)
    (pre post : List StudentInput)
    (h1 : 1 ≤ s.StudentID) (h2 : s.StudentID ∉ c.allStudentIDs) :
    studentStep c st s =
      .ok { st with
            v := st.v.Add "student_id" (ErrUserNotInJournal ++ ": " ++ toString s.StudentID) } ∧
    studentsLoop c st (pre ++ s :: post) =
      Except.bind (studentsLoop c st pre) (fun st1 =>
        studentsLoop c
          { st1 with
            v := st1.v.Add "student_id" (ErrUserNotInJournal ++ ": " ++ toString s.StudentID) }
          post) := by
  have hstep : ∀ st0 : Staged, studentStep c st0 s =
      .ok { st0 with
            v := st0.v.Add "student_id"
              (ErrUserNotInJournal ++ ": " ++ toString s.StudentID) } := by
    intro st0
    unfold studentStep
    rw [if_neg (by omega), if_pos (by simpa using h2)]
  refine ⟨hstep st, ?_⟩
  rw [studentsLoop_append]
  congr 1
  funext st1
  rw [studentsLoop, hstep st1]

/-- Witness of the amended C6: student 6 is not enrolled. -/
theorem unenrolled_entry_is_rejected_witness :
    studentStep demoCtx Staged.initial ⟨6, some true, none, none, []⟩ =
      .ok { Staged.initial with
            v := Staged.initial.v.Add "student_id"
              (ErrUserNotInJournal ++ ": " ++ toString (6 : Int)) } ∧
    studentsLoop demoCtx Staged.initial (demoBatch ++ ⟨6, some true, none, none, []⟩ :: demoBatch) =
      Except.bind (studentsLoop demoCtx Staged.initial demoBatch) (fun st1 =>
        studentsLoop demoCtx
          { st1 with
            v := st1.v.Add "student_id" (ErrUserNotInJournal ++ ": " ++ toString (6 : Int)) }
          demoBatch) :=
  unenrolled_entry_is_rejected demoCtx Staged.initial ⟨6, some true, none, none, []⟩ demoBatch
    demoBatch (by decide) (by decide)

/-- C7: when the acting user is neither the teacher of the journal of the lesson nor an
administrator, the handler rejects the request as not allowed before the batch is decoded:
the outcome is the same for every request body, the body is not decoded, no validation error
is reported and no transaction or persistence operation is invoked. -/
theorem unauthorized_is_rejected_before_decoding {σ : Type} (app : App σ) (req : Request)
    (db : σ) (lessonID : Int) (lesson : Lesson) (journal : Journal) (body : String)
    (hu : Unauthorized app req db lessonID lesson journal) :
    setMarksForLesson app { req with body := body } db =
      ⟨[.GetLessonByID lessonID, .GetJournalByID lesson.JournalID] ++ notAllowed app, db⟩ ∧
    setMarksForLesson app { req with body := body } db = setMarksForLesson app req db ∧
    Event.inputJSON ∉ (setMarksForLesson app { req with body := body } db).trace ∧
    (∀ status errs, Event.outputJSON status (.errors errs) ∉
      (setMarksForLesson app { req with body := body } db).trace) ∧
    (∀ e ∈ (setMarksForLesson app { req with body := body } db).trace, e.isTx = false) := by
  have hu2 : Unauthorized app { req with body := body } db lessonID lesson journal := hu
  have h1 := setMarksForLesson_unauthorized app _ db lessonID lesson journal hu2
  have h2 := setMarksForLesson_unauthorized app req db lessonID lesson journal hu
  have hna := writeErrorResponse_not_tx app StatusForbidden (.error "not allowed")
  refine ⟨h1, by rw [h1, h2], ?_, ?_, ?_⟩
  · rw [h1]
    intro hm
    simp only [List.mem_append, List.mem_cons, List.mem_singleton, List.not_mem_nil,
      or_false] at hm
    rcases hm with (h | h) | h
    · exact Event.noConfusion h
    · exact Event.noConfusion h
    · exact (hna _ h).2.2 rfl
  · intro status errs
    rw [h1]
    intro hm
    simp only [List.mem_append, List.mem_cons, List.mem_singleton, List.not_mem_nil,
      or_false] at hm
    rcases hm with (h | h) | h
    · exact Event.noConfusion h
    · exact Event.noConfusion h
    · unfold notAllowed at h
      rcases writeErrorResponse_cases app StatusForbidden (.error "not allowed") with h3 | ⟨e3, h3⟩
      · rw [h3] at h; simp at h
      · rw [h3] at h; simp at h
  · intro e hm
    rw [h1] at hm
    simp only [List.mem_append, List.mem_cons, List.mem_singleton, List.not_mem_nil,
      or_false] at hm
    rcases hm with (h | h) | h
    · subst h; rfl
    · subst h; rfl
    · exact (hna _ h).1

/-- Witness of C7: user 11 is a teacher, but not of journal 3. -/
theorem unauthorized_is_rejected_before_decoding_witness :
    setMarksForLesson (demoApp demoBatch) { outsiderRequest "" with body := "[]" } demoDB =
      ⟨[.GetLessonByID 7, .GetJournalByID demoLesson.JournalID] ++
        notAllowed (demoApp demoBatch), demoDB⟩ ∧
    setMarksForLesson (demoApp demoBatch) { outsiderRequest "" with body := "[]" } demoDB =
      setMarksForLesson (demoApp demoBatch) (outsiderRequest "") demoDB ∧
    Event.inputJSON ∉
      (setMarksForLesson (demoApp demoBatch) { outsiderRequest "" with body := "[]" } demoDB).trace ∧
    (∀ status errs, Event.outputJSON status (.errors errs) ∉
      (setMarksForLesson (demoApp demoBatch)
        { outsiderRequest "" with body := "[]" } demoDB).trace) ∧
    (∀ e ∈ (setMarksForLesson (demoApp demoBatch)
        { outsiderRequest "" with body := "[]" } demoDB).trace, e.isTx = false) :=
  unauthorized_is_rejected_before_decoding (demoApp demoBatch) (outsiderRequest "") demoDB 7
    demoLesson demoJournal "[]" ⟨rfl, by decide, rfl, rfl, rfl, by decide⟩

/-- C8, the claim as stated fails: before the authorization failure of the outsider is
reported, the handler has looked up the lesson and the journal in the database. -/
theorem unauthorized_request_is_looked_up_first :
    (setMarksForLesson (demoApp demoBatch) (outsiderRequest "") demoDB).trace =
      [.GetLessonByID 7, .GetJournalByID 3,
       .outputJSON StatusForbidden (.error "not allowed")] ∧
    (Event.GetLessonByID 7).isLookup = true ∧ (Event.GetJournalByID 3).isLookup = true := by
  decide

/-- C8, amended: when the acting user is neither the teacher of the journal nor an
administrator, the handler rejects the request after exactly two database lookups, of the
lesson and of its journal, and before any other database access: no further lookup, no
transaction and no write is issued, and the database is unchanged. -/
theorem unauthorized_is_rejected_after_two_lookups {σ : Type} (app : App σ) (req : Request)
    (db : σ) (lessonID : Int) (lesson : Lesson) (journal : Journal)
    (hu : Unauthorized app req db lessonID lesson journal) :
    ∃ report, (setMarksForLesson app req db).trace =
        [.GetLessonByID lessonID, .GetJournalByID lesson.JournalID] ++ report ∧
      report = notAllowed app ∧
      (∀ e ∈ report, e.isLookup = false ∧ e.isTx = false) ∧
      (setMarksForLesson app req db).db = db := by
  refine ⟨notAllowed app, ?_, rfl, fun e he => ?_, ?_⟩
  · rw [setMarksForLesson_unauthorized app req db lessonID lesson journal hu]
  · have := writeErrorResponse_not_tx app StatusForbidden (.error "not allowed") e he
    exact ⟨this.2.1, this.1⟩
  · rw [setMarksForLesson_unauthorized app req db lessonID lesson journal hu]

/-- Witness of the amended C8 on the request of the outsider. -/
theorem unauthorized_is_rejected_after_two_lookups_witness :
    ∃ report, (setMarksForLesson (demoApp demoBatch) (outsiderRequest "") demoDB).trace =
        [.GetLessonByID 7, .GetJournalByID demoLesson.JournalID] ++ report ∧
      report = notAllowed (demoApp demoBatch) ∧
      (∀ e ∈ report, e.isLookup = false ∧ e.isTx = false) ∧
      (setMarksForLesson (demoApp demoBatch) (outsiderRequest "") demoDB).db = demoDB :=
  unauthorized_is_rejected_after_two_lookups (demoApp demoBatch) (outsiderRequest "") demoDB 7
    demoLesson demoJournal ⟨rfl, by decide, rfl, rfl, rfl, by decide⟩

/-- C9: for every edit of an enrolled entry (student identifiers being positive), a type
validation error is recorded if and only if the type of the edit is not one of common_grade,
notice_good, notice_neutral, notice_bad and remove is false; such an edit stages nothing, and
the later edits of the same entry and the later entries are still processed, from the
accumulators extended by that error only. -/
theorem type_error_iff_unknown_type_and_not_remove (c : Ctx) (st : Staged) (s : StudentInput)
    (pre post : List MarkInput) (m : MarkInput) (later : List StudentInput) (mi : Nat)
    (hpos : ∀ i ∈ c.allStudentIDs, 1 ≤ i) (henr : s.StudentID ∈ c.allStudentIDs)
    (hs : s.Marks = pre ++ m :: post) :
    (∃ st1 d, markStep c s.StudentID st mi m = .ok st1 ∧ st1.v.Errors = st.v.Errors ++ d ∧
      ((∃ e ∈ d, e.1 = "type") ↔ (¬ EditType m.Type_ ∧ m.Remove = false))) ∧
    ((¬ EditType m.Type_ ∧ m.Remove = false) →
      markStep c s.StudentID st mi m =
        .ok { st with v := st.v.Add "type" (ErrNoSuchType ++ ": " ++ toString mi) } ∧
      studentsLoop c st (s :: later) =
        Except.bind (studentStep c st { s with Marks := pre }) (fun st1 =>
          Except.bind
            (marksLoop c s.StudentID
              { st1 with v := st1.v.Add "type" (ErrNoSuchType ++ ": " ++ toString pre.length) }
              (pre.length + 1) post)
            (fun st2 => studentsLoop c st2 later))) := by
  have hiff : PassesTypeCheck m ↔ ¬ (¬ EditType m.Type_ ∧ m.Remove = false) := by
    unfold PassesTypeCheck
    cases m.Remove <;> simp
  constructor
  · by_cases hT : PassesTypeCheck m
    · by_cases hv : ValidEdit c m
      · refine ⟨_, [], markStep_valid c s.StudentID st mi m hv, by simp, ?_⟩
        constructor
        · rintro ⟨e, he, _⟩; exact absurd he (List.not_mem_nil e)
        · intro h; exact absurd h (hiff.mp hT)
      · obtain ⟨st1, h1, h2⟩ := markStep_invalid c s.StudentID st mi m hv
        refine ⟨st1, [editError c mi m], h1, h2, ?_⟩
        constructor
        · rintro ⟨e, he, hf⟩
          rw [List.mem_singleton] at he
          subst he
          exact absurd hf (editError_field c mi m hT)
        · intro h; exact absurd h (hiff.mp hT)
    · refine ⟨_, [("type", ErrNoSuchType ++ ": " ++ toString mi)],
        markStep_type_error c s.StudentID st mi m hT, rfl, ?_⟩
      constructor
      · intro _
        by_contra hc
        exact hT (hiff.mpr hc)
      · intro _
        exact ⟨_, List.mem_singleton.mpr rfl, rfl⟩
  · intro hc
    have hT : ¬ PassesTypeCheck m := fun h => hiff.mp h hc
    refine ⟨markStep_type_error c s.StudentID st mi m hT, ?_⟩
    have h1 : 1 ≤ s.StudentID := hpos _ henr
    rw [studentsLoop, studentStep_processed c st s h1 henr,
      studentStep_processed c st { s with Marks := pre } h1 henr, hs, marksLoop_append]
    have hflags : flagsStaged c st { s with Marks := pre } = flagsStaged c st s := rfl
    rw [hflags]
    cases marksLoop c s.StudentID (flagsStaged c st s) 0 pre with
    | error e => rfl
    | ok st1 =>
      simp only [Except.bind, marksLoop, markStep_type_error c s.StudentID st1 _ m hT,
        Nat.zero_add]
      cases marksLoop c s.StudentID
        { st1 with v := st1.v.Add "type" (ErrNoSuchType ++ ": " ++ toString pre.length) }
        (pre.length + 1) post <;> rfl

/-- Witness of C9: the edit of type praise, between two valid edits of student 5. -/
theorem type_error_iff_unknown_type_and_not_remove_witness :
    (∃ st1 d, markStep demoCtx 5 Staged.initial 1 ⟨none, none, "praise", none, false⟩ = .ok st1 ∧
      st1.v.Errors = Staged.initial.v.Errors ++ d ∧
      ((∃ e ∈ d, e.1 = "type") ↔
        (¬ EditType (MarkInput.mk none none "praise" none false).Type_ ∧
          (MarkInput.mk none none "praise" none false).Remove = false))) ∧
    ((¬ EditType (MarkInput.mk none none "praise" none false).Type_ ∧
        (MarkInput.mk none none "praise" none false).Remove = false) →
      markStep demoCtx 5 Staged.initial 1 ⟨none, none, "praise", none, false⟩ =
        .ok { Staged.initial with
              v := Staged.initial.v.Add "type" (ErrNoSuchType ++ ": " ++ toString 1) } ∧
      studentsLoop demoCtx Staged.initial
          (⟨5, none, none, none,
            [⟨none, some 3, "common_grade", none, false⟩] ++
              ⟨none, none, "praise", none, false⟩ :: [⟨some 42, none, "", none, true⟩]⟩ ::
            demoBatch) =
        Except.bind
          (studentStep demoCtx Staged.initial
            ⟨5, none, none, none, [⟨none, some 3, "common_grade", none, false⟩]⟩)
          (fun st1 =>
            Except.bind
              (marksLoop demoCtx 5
                { st1 with v := st1.v.Add "type" (ErrNoSuchType ++ ": " ++ toString 1) }
                (1 + 1) [⟨some 42, none, "", none, true⟩])
              (fun st2 => studentsLoop demoCtx st2 demoBatch))) :=
  type_error_iff_unknown_type_and_not_remove demoCtx Staged.initial
    ⟨5, none, none, none,
      [⟨none, some 3, "common_grade", none, false⟩] ++
        ⟨none, none, "praise", none, false⟩ :: [⟨some 42, none, "", none, true⟩]⟩
    [⟨none, some 3, "common_grade", none, false⟩] [⟨some 42, none, "", none, true⟩]
    ⟨none, none, "praise", none, false⟩ demoBatch 1 (by decide) (by decide) rfl

/-- C10: for every edit that passes the type check and supplies an id that is not in the
mark-id set of the lesson, the handler records a mark_id validation error for that edit,
stages neither an update nor a delete (the four staged lists are unchanged), does not panic,
and goes on with the next edit. -/
theorem unknown_mark_id_is_rejected (c : Ctx) (studentID : Int) (st : Staged) (mi : Nat)
    (m : MarkInput) (id : Int) (rest : List MarkInput)
    (hT : PassesTypeCheck m) (hid : m.ID = some id) (hmem : id ∉ c.allMarkIDs) :
    markStep c studentID st mi m =
      .ok { st with
            v := st.v.Add "mark_id"
              (ErrNoSuchMark ++ ": " ++ toString id ++ " at " ++ toString mi) } ∧
    marksLoop c studentID st mi (m :: rest) =
      marksLoop c studentID
        { st with
          v := st.v.Add "mark_id"
            (ErrNoSuchMark ++ ": " ++ toString id ++ " at " ++ toString mi) }
        (mi + 1) rest := by
  have hcond : ¬ (m.Type_ ≠ MarkCommonGrade ∧ m.Type_ ≠ MarkNoticeBad ∧
      m.Type_ ≠ MarkNoticeNeutral ∧ m.Type_ ≠ MarkNoticeGood ∧ m.Remove = false) := by
    rintro ⟨h1, h2, h3, h4, h5⟩
    rcases hT with (h | h | h | h) | h
    · exact h1 h
    · exact h4 h
    · exact h3 h
    · exact h2 h
    · rw [h5] at h; exact Bool.noConfusion h
  have hstep : markStep c studentID st mi m =
      .ok { st with
            v := st.v.Add "mark_id"
              (ErrNoSuchMark ++ ": " ++ toString id ++ " at " ++ toString mi) } := by
    unfold markStep
    rw [if_neg hcond]
    simp [hid, hmem]
  exact ⟨hstep, by rw [marksLoop, hstep]⟩

/-- Witness of C10: mark 41 is not a mark of lesson 7. -/
theorem unknown_mark_id_is_rejected_witness :
    markStep demoCtx 5 Staged.initial 2 ⟨some 41, none, "notice_bad", some "x", false⟩ =
      .ok { Staged.initial with
            v := Staged.initial.v.Add "mark_id"
              (ErrNoSuchMark ++ ": " ++ toString (41 : Int) ++ " at " ++ toString 2) } ∧
    marksLoop demoCtx 5 Staged.initial 2
        (⟨some 41, none, "notice_bad", some "x", false⟩ :: [⟨some 42, none, "", none, true⟩]) =
      marksLoop demoCtx 5
        { Staged.initial with
          v := Staged.initial.v.Add "mark_id"
            (ErrNoSuchMark ++ ": " ++ toString (41 : Int) ++ " at " ++ toString 2) }
        (2 + 1) [⟨some 42, none, "", none, true⟩] :=
  unknown_mark_id_is_rejected demoCtx 5 Staged.initial 2
    ⟨some 41, none, "notice_bad", some "x", false⟩ 41 [⟨some 42, none, "", none, true⟩]
    (by decide) rfl (by decide)

/-- C11: in every call of `newMark`, for type common_grade a grade error is recorded exactly
when the grade is absent or not in the valid grade-id set; for a notice type a comment error
is recorded exactly when the comment is absent or empty; in either error case the result is
`nil` (no record), otherwise the record is returned and the validator is unchanged; for
absent, late and not_done the record is returned whatever grade and comment are. -/
theorem newMark_checks_grade_and_comment (c : Ctx) (v : Validator) (index : Nat)
    (ID studentID : Int) (mtype : String) (comment : Option String) (grade : Option Int) :
    (mtype = MarkCommonGrade →
      newMark c v index ID studentID mtype comment grade =
        if grade = none ∨ ∃ g ∈ grade, g ∉ c.allGradeIDs then
          .ok (none, v.Add "grade"
            (toString index ++
              (if grade = none then ": must be provided" else ": invalid grade ID")))
        else .ok (some (buildMark c ID studentID mtype comment grade), v)) ∧
    (NoticeType mtype →
      newMark c v index ID studentID mtype comment grade =
        if comment = none ∨ comment = some "" then
          .ok (none, v.Add "comment" (toString index ++ ": must be provided and not empty"))
        else .ok (some (buildMark c ID studentID mtype comment grade), v)) ∧
    (FlagType mtype →
      newMark c v index ID studentID mtype comment grade =
        .ok (some (buildMark c ID studentID mtype comment grade), v)) ∧
    (∀ field message, (v.Add field message).Errors = v.Errors ++ [(field, message)]) := by
  refine ⟨fun h => ?_, fun h => newMark_notice c v index ID studentID mtype comment grade h,
    fun h => newMark_flagType c v index ID studentID mtype comment grade h,
    fun _ _ => rfl⟩
  subst h
  rw [newMark_common]
  cases grade with
  | none => simp
  | some g => by_cases hg : g ∈ c.allGradeIDs <;> simp [hg]

/-- Witness of C11: a common_grade without grade, a notice with an empty comment, and the
flag type late with a grade and a comment. -/
theorem newMark_checks_grade_and_comment_witness :
    newMark demoCtx NewValidator 4 0 5 MarkCommonGrade none none =
      .ok (none, NewValidator.Add "grade" "4: must be provided") ∧
    newMark demoCtx NewValidator 4 0 5 MarkNoticeGood (some "") none =
      .ok (none, NewValidator.Add "comment" "4: must be provided and not empty") ∧
    newMark demoCtx NewValidator 4 0 5 MarkLate (some "x") (some 99) =
      .ok (some (buildMark demoCtx 0 5 MarkLate (some "x") (some 99)), NewValidator) :=
  ⟨(newMark_checks_grade_and_comment demoCtx NewValidator 4 0 5 MarkCommonGrade none
      none).1 rfl,
   (newMark_checks_grade_and_comment demoCtx NewValidator 4 0 5 MarkNoticeGood (some "")
      none).2.1 (Or.inl rfl),
   (newMark_checks_grade_and_comment demoCtx NewValidator 4 0 5 MarkLate (some "x")
      (some 99)).2.2.1 (Or.inr (Or.inl rfl))⟩

/-- C12: for every edit with remove=true and no id, whatever its type, grade and comment, the
loop body stages nothing and records no validation error: the accumulators are unchanged and
the loop goes on with the next edit. -/
theorem remove_without_id_is_ignored (c : Ctx) (studentID : Int) (st : Staged) (mi : Nat)
    (m : MarkInput) (rest : List MarkInput) (hr : m.Remove = true) (hid : m.ID = none) :
    markStep c studentID st mi m = .ok st ∧
    marksLoop c studentID st mi (m :: rest) = marksLoop c studentID st (mi + 1) rest := by
  have hstep : markStep c studentID st mi m = .ok st := by
    unfold markStep
    simp [hr, hid]
  exact ⟨hstep, by rw [marksLoop, hstep]⟩

/-- Witness of C12: a removal without id, of an unknown type, with an invalid grade and an
empty comment. -/
theorem remove_without_id_is_ignored_witness :
    markStep demoCtx 5 Staged.initial 0 ⟨none, some 99, "praise", some "", true⟩ =
      .ok Staged.initial ∧
    marksLoop demoCtx 5 Staged.initial 0
        (⟨none, some 99, "praise", some "", true⟩ :: [⟨some 42, none, "", none, true⟩]) =
      marksLoop demoCtx 5 Staged.initial (0 + 1) [⟨some 42, none, "", none, true⟩] :=
  remove_without_id_is_ignored demoCtx 5 Staged.initial 0
    ⟨none, some 99, "praise", some "", true⟩ [⟨some 42, none, "", none, true⟩] rfl rfl

/-- C13: for every edit whose id is in the mark-id set of the lesson: if remove is true, the
loop body stages exactly one delete by id for that id and nothing else, whatever type, grade
and comment are; otherwise, if the edit is valid, it stages exactly one update record, whose
id is the id of the edit, whose grade and comment are those of the edit (a zero grade and an
empty comment being stored as null), whose teacher is the acting user and whose update time is
the time of the request. -/
theorem known_id_stages_delete_or_update (c : Ctx) (studentID : Int) (st : Staged) (mi : Nat)
    (m : MarkInput) (id : Int) (hid : m.ID = some id) (hmem : id ∈ c.allMarkIDs) :
    (m.Remove = true →
      markStep c studentID st mi m =
        .ok { st with deletedMarkIDs := st.deletedMarkIDs ++ [id] }) ∧
    (m.Remove = false → ValidEdit c m →
      markStep c studentID st mi m =
        .ok { st with
              updateMarks := st.updateMarks ++
                [some (buildMark c id 0 m.Type_ m.Comment m.Grade)] } ∧
      (buildMark c id 0 m.Type_ m.Comment m.Grade).ID = id ∧
      (buildMark c id 0 m.Type_ m.Comment m.Grade).GradeID =
        (if m.Grade = some 0 then none else m.Grade) ∧
      (buildMark c id 0 m.Type_ m.Comment m.Grade).Comment =
        (if m.Comment = some "" then none else m.Comment) ∧
      (buildMark c id 0 m.Type_ m.Comment m.Grade).TeacherID = some c.sessionUser.ID ∧
      (buildMark c id 0 m.Type_ m.Comment m.Grade).UpdatedAt = some c.currentTime) := by
  constructor
  · intro hr
    unfold markStep
    simp [hr, hid, hmem]
  · intro hr hv
    refine ⟨?_, rfl, rfl, rfl, rfl, rfl⟩
    rw [markStep_valid c studentID st mi m hv]
    simp [editInsert, editUpdate, editDelete, hid, hr]

/-- Witness of C13: the removal of mark 42 with an unknown type, and the update of mark 42 by
a notice with a comment. -/
theorem known_id_stages_delete_or_update_witness :
    markStep demoCtx 5 Staged.initial 0 ⟨some 42, none, "praise", none, true⟩ =
      .ok { Staged.initial with deletedMarkIDs := Staged.initial.deletedMarkIDs ++ [42] } ∧
    markStep demoCtx 5 Staged.initial 0 ⟨some 42, none, "notice_good", some "well done", false⟩ =
      .ok { Staged.initial with
            updateMarks := Staged.initial.updateMarks ++
              [some (buildMark demoCtx 42 0 "notice_good" (some "well done") none)] } :=
  ⟨(known_id_stages_delete_or_update demoCtx 5 Staged.initial 0
      ⟨some 42, none, "praise", none, true⟩ 42 rfl (by decide)).1 rfl,
   ((known_id_stages_delete_or_update demoCtx 5 Staged.initial 0
      ⟨some 42, none, "notice_good", some "well done", false⟩ 42 rfl (by decide)).2 rfl
      (by decide)).1⟩

/-- C14: for every valid edit without id that is not a removal, the loop body stages exactly
one insert, for the student of the entry, whose stored type is lesson_grade when the type of
the edit is common_grade and is the type of the edit when it is a notice type; and for every
batch, no staged record has type common_grade. -/
theorem valid_insert_edit_is_staged_with_stored_type (c : Ctx) (studentID : Int) (st : Staged)
    (mi : Nat) (m : MarkInput) (hid : m.ID = none) (hr : m.Remove = false)
    (hv : ValidEdit c m) :
    markStep c studentID st mi m =
      .ok { st with
            insertMarks := st.insertMarks ++
              [some (buildMark c 0 studentID m.Type_ m.Comment m.Grade)] } ∧
    (buildMark c 0 studentID m.Type_ m.Comment m.Grade).UserID = some studentID ∧
    (m.Type_ = MarkCommonGrade →
      (buildMark c 0 studentID m.Type_ m.Comment m.Grade).Type_ = some MarkLessonGrade) ∧
    (NoticeType m.Type_ →
      (buildMark c 0 studentID m.Type_ m.Comment m.Grade).Type_ = some m.Type_) ∧
    (∀ input : List StudentInput, ∃ st1, stage c input = .ok st1 ∧
      ∀ r, some r ∈ st1.insertMarks ∨ some r ∈ st1.updateMarks →
        r.Type_ ≠ some MarkCommonGrade) := by
  refine ⟨?_, rfl, fun h => by simp [buildMark, h], fun h => ?_, fun input => ?_⟩
  · rw [markStep_valid c studentID st mi m hv]
    simp [editInsert, editUpdate, editDelete, hid, hr]
  · simp [buildMark, notice_ne_common _ h]
  · obtain ⟨st1, hs, hp⟩ := stage_produced c input
    exact ⟨st1, hs, fun r hr => (produced_type c r (hp r hr)).1⟩

/-- Witness of C14: the common_grade edit with grade 3 of the example of the spec. -/
theorem valid_insert_edit_is_staged_with_stored_type_witness :
    markStep demoCtx 5 Staged.initial 0 ⟨none, some 3, "common_grade", none, false⟩ =
      .ok { Staged.initial with
            insertMarks := Staged.initial.insertMarks ++
              [some (buildMark demoCtx 0 5 "common_grade" none (some 3))] } ∧
    (buildMark demoCtx 0 5 "common_grade" none (some 3)).Type_ = some MarkLessonGrade :=
  ⟨(valid_insert_edit_is_staged_with_stored_type demoCtx 5 Staged.initial 0
      ⟨none, some 3, "common_grade", none, false⟩ rfl rfl (by decide)).1,
   (valid_insert_edit_is_staged_with_stored_type demoCtx 5 Staged.initial 0
      ⟨none, some 3, "common_grade", none, false⟩ rfl rfl (by decide)).2.2.1 rfl⟩

/-- C18: for every batch, the staging ends without panic and every record it stages (insert
or update) has type lesson_grade, a notice type or a flag type, references the lesson of the
request, carries the course number of that lesson and the id of the journal looked up for it,
and names the acting user as recording teacher; the created and updated timestamps of every
record are the one time read for the request. -/
theorem staged_records_reference_lesson_journal_teacher (c : Ctx) (input : List StudentInput) :
    ∃ st, stage c input = .ok st ∧
      ∀ r, some r ∈ st.insertMarks ∨ some r ∈ st.updateMarks →
        (r.Type_ = some MarkLessonGrade ∨ (∃ t, NoticeType t ∧ r.Type_ = some t) ∨
          (∃ t, FlagType t ∧ r.Type_ = some t)) ∧
        r.LessonID = some c.lesson.ID ∧ r.Course = c.lesson.Course ∧
        r.JournalID = some c.journal.ID ∧ r.TeacherID = some c.sessionUser.ID ∧
        r.CreatedAt = some c.currentTime ∧ r.UpdatedAt = some c.currentTime := by
  obtain ⟨st, hs, hp⟩ := stage_produced c input
  exact ⟨st, hs, fun r hr => ⟨(produced_type c r (hp r hr)).2, produced_frame c r (hp r hr)⟩⟩

/-- C19: valid grade ids being database identifiers (not 0), for every batch, and so for
every batch that passes validation, every record staged with stored type lesson_grade has a
grade id that is not null and is a member of the valid grade-id set. -/
theorem staged_lesson_grade_has_valid_grade (c : Ctx) (input : List StudentInput)
    (h0 : (0 : Int) ∉ c.allGradeIDs) :
    ∃ st, stage c input = .ok st ∧
      ∀ r, some r ∈ st.insertMarks ∨ some r ∈ st.updateMarks →
        r.Type_ = some MarkLessonGrade → ∃ g, r.GradeID = some g ∧ g ∈ c.allGradeIDs := by
  obtain ⟨st, hs, hp⟩ := stage_produced c input
  exact ⟨st, hs, fun r hr ht => produced_lesson_grade c r (hp r hr) h0 ht⟩

/-- Witness of C19 on the example batch, whose lesson grade has grade 3. -/
theorem staged_lesson_grade_has_valid_grade_witness :
    ∃ st, stage demoCtx demoBatch = .ok st ∧
      ∀ r, some r ∈ st.insertMarks ∨ some r ∈ st.updateMarks →
        r.Type_ = some MarkLessonGrade →
          ∃ g, r.GradeID = some g ∧ g ∈ demoCtx.allGradeIDs :=
  staged_lesson_grade_has_valid_grade demoCtx demoBatch (by decide)

/-- C15: for every enrolled entry (student identifiers being positive) and each of the flags
absent, late, not_done: a null flag stages nothing; a true flag stages exactly one insert of a
mark of that type for the student of the entry, with no grade and no comment; a false flag
stages exactly one (student, type) delete key and no insert. The validator is unchanged in
all cases and the staging does not read the existing marks, so a batch consisting only of
absent:false is staged without error and, the delete and the commit succeeding, is reported
as created. -/
theorem flags_stage_insert_or_delete_key (c : Ctx) (st : Staged) (s : StudentInput)
    (hpos : ∀ i ∈ c.allStudentIDs, 1 ≤ i) (henr : s.StudentID ∈ c.allStudentIDs) :
    (∀ (t : String) (st0 : Staged), FlagType t →
      flagStep c s.StudentID t none st0 = .ok st0 ∧
      flagStep c s.StudentID t (some true) st0 =
        .ok { st0 with
              insertMarks := st0.insertMarks ++
                [some (buildMark c 0 s.StudentID t none none)] } ∧
      flagStep c s.StudentID t (some false) st0 =
        .ok { st0 with
              deletedMarksByStudentIDType := st0.deletedMarksByStudentIDType ++
                [⟨s.StudentID, t⟩] } ∧
      (buildMark c 0 s.StudentID t none none).UserID = some s.StudentID ∧
      (buildMark c 0 s.StudentID t none none).Type_ = some t ∧
      (buildMark c 0 s.StudentID t none none).GradeID = none ∧
      (buildMark c 0 s.StudentID t none none).Comment = none) ∧
    (studentStep c st s = marksLoop c s.StudentID (flagsStaged c st s) 0 s.Marks ∧
      (flagsStaged c st s).v = st.v ∧
      (flagsStaged c st s).updateMarks = st.updateMarks ∧
      (flagsStaged c st s).deletedMarkIDs = st.deletedMarkIDs) ∧
    (∀ {σ : Type} (app : App σ) (req : Request) (db tx0 tx1 db1 : σ) (lessonID : Int),
      Prepared app req db lessonID c [⟨s.StudentID, some false, none, none, []⟩] →
      app.Begin db = .ok tx0 →
      app.DeleteMarksByStudentIDType tx0 [⟨s.StudentID, MarkAbsent⟩] = .ok tx1 →
      app.Commit tx1 = .ok db1 →
      app.outputJSON StatusCreated (.message "success") = .ok () →
      setMarksForLesson app req db =
        ⟨preloadTrace lessonID c ++
          [.Begin, .DeleteMarksByStudentIDType [⟨s.StudentID, MarkAbsent⟩], .Commit,
           .outputJSON StatusCreated (.message "success")], db1⟩) := by
  have h1 : 1 ≤ s.StudentID := hpos _ henr
  refine ⟨fun t st0 ht => ?_, ⟨studentStep_processed c st s h1 henr, rfl, rfl, rfl⟩, ?_⟩
  · have hk := buildMark_flag_key c s.StudentID t ht
    refine ⟨?_, ?_, ?_, hk⟩
    · rw [flagStep_eq c s.StudentID t none st0 ht]; simp
    · rw [flagStep_eq c s.StudentID t (some true) st0 ht]; simp
    · rw [flagStep_eq c s.StudentID t (some false) st0 ht]; simp
  · intro σ app req db tx0 tx1 db1 lessonID hp hb hd hc ho
    have hs := flagEntry_stage c s.StudentID MarkAbsent false (Or.inl rfl) h1 henr
    rw [flagEntry_absent] at hs
    simp only [Bool.false_eq_true, if_false] at hs
    rw [setMarksForLesson_prepared app req db lessonID c _ _ hp hs,
      persist_committed app db tx0 db1 _ rfl hb
        (by simp [applyStaged, txCall, hd, hc]) ho]
    simp [stagedCalls]

/-- Witness of C15: absent:false for student 5, who has no absent mark. -/
theorem flags_stage_insert_or_delete_key_witness :
    setMarksForLesson (demoApp [⟨5, some false, none, none, []⟩]) demoRequest demoDB =
      ⟨preloadTrace 7 demoCtx ++
        [.Begin, .DeleteMarksByStudentIDType [⟨5, MarkAbsent⟩], .Commit,
         .outputJSON StatusCreated (.message "success")], demoDB⟩ :=
  (flags_stage_insert_or_delete_key demoCtx Staged.initial ⟨5, some false, none, none, []⟩
    (by decide) (by decide)).2.2 (demoApp [⟨5, some false, none, none, []⟩]) demoRequest
    demoDB demoDB demoDB demoDB 7
    ⟨rfl, by decide, rfl, rfl, Or.inl rfl, rfl, rfl, rfl, rfl, rfl, rfl⟩ rfl rfl rfl rfl

/-- C16: with the four persistence operations modelled on a list of marks, for every enrolled
student (student identifiers being positive) and every initial list of marks, the batch with
absent:true for the student leaves an absent mark of the student, and applying after it the
batch with absent:false leaves no mark of type absent for that student. -/
theorem absent_true_then_false_leaves_no_absent_mark (lesson : Lesson) (journal : Journal)
    (enrolled grades : List Int) (now1 now2 : Nat) (user : User) (body1 body2 : String)
    (db : List Marks) (studentID : Int)
    (hl : 0 ≤ lesson.ID) (hj : lesson.JournalID = journal.ID)
    (hauth : journal.IsUserTeacherOfJournal user.ID = true ∨ user.Role = RoleAdministrator)
    (hpos : ∀ i ∈ enrolled, 1 ≤ i) (henr : studentID ∈ enrolled) :
    marksOf studentID MarkAbsent
        (setMarksForLesson
          (memApp lesson journal enrolled grades
            (.ok [⟨studentID, some true, none, none, []⟩]) now1)
          ⟨user, some lesson.ID, body1⟩ db).db ≠ [] ∧
    marksOf studentID MarkAbsent
        (setMarksForLesson
          (memApp lesson journal enrolled grades
            (.ok [⟨studentID, some false, none, none, []⟩]) now2)
          ⟨user, some lesson.ID, body2⟩
          (setMarksForLesson
            (memApp lesson journal enrolled grades
              (.ok [⟨studentID, some true, none, none, []⟩]) now1)
            ⟨user, some lesson.ID, body1⟩ db).db).db = [] := by
  have h1 : 1 ≤ studentID := hpos _ henr
  have hk := buildMark_flag_key (memCtx lesson journal enrolled grades user now1 db) studentID
    MarkAbsent (Or.inl rfl)
  rw [← flagEntry_absent studentID true, ← flagEntry_absent studentID false]
  rw [memApp_flag_db lesson journal enrolled grades now2 user body2 _ studentID MarkAbsent false
      hl hj hauth (Or.inl rfl) h1 henr,
    memApp_flag_db lesson journal enrolled grades now1 user body1 db studentID MarkAbsent true
      hl hj hauth (Or.inl rfl) h1 henr]
  constructor
  · simp [marksOf, List.filter_append, hk.1, hk.2.1]
  · simp [marksOf, List.filter_filter]

/-- Witness of C16 on the examples: student 5 and the database holding mark 42. -/
theorem absent_true_then_false_leaves_no_absent_mark_witness :
    marksOf 5 MarkAbsent
        (setMarksForLesson (demoApp [⟨5, some true, none, none, []⟩]) demoRequest demoDB).db ≠
      [] ∧
    marksOf 5 MarkAbsent
        (setMarksForLesson (demoApp [⟨5, some false, none, none, []⟩]) demoRequest
          (setMarksForLesson (demoApp [⟨5, some true, none, none, []⟩]) demoRequest
            demoDB).db).db = [] :=
  absent_true_then_false_leaves_no_absent_mark demoLesson demoJournal [5] [3] 1000 1000
    demoTeacher "" "" demoDB 5 (by decide) rfl (Or.inl rfl) (by decide) (by decide)

/-- C20, evaluation of the code at the failing input: for a good notice without comment,
`addMark` calls `InsertMark` with a mark of type notice_good whose comment is null, touches
the journal and reports created; the stored mark has no comment. -/
theorem addMark_inserts_notice_without_comment :
    (addMark (demoMarkApp noticeWithoutComment) demoRequest demoDB).trace =
      [.inputJSON, .GetUserByID 5, .GetLessonByID 7, .GetJournalByID 3, .IsUserInJournal 5 3,
       .InsertMark ⟨0, 5, some 7, some 2, some 3, none, none, "notice_good", some 10, 1000,
          1000⟩,
       .SetJournalLastUpdated 3, .outputJSON StatusCreated (.message "success")] ∧
    (addMark (demoMarkApp noticeWithoutComment) demoRequest demoDB).db =
      demoDB ++ [⟨43, some 5, some 7, some 2, some 3, some 10, some "notice_good", none, none,
        some 1000, some 1000⟩] := by
  decide

/-! ## The order of the persistence calls -/

theorem applyStaged_applyOps_ok {σ : Type} (app : App σ) (st : Staged) (tx0 tx4 : σ)
    (h : applyOps app st tx0 = .ok tx4) :
    applyStaged app st tx0 = (stagedCalls st ++ [.Commit], app.Commit tx4) := by
  have f1 := txCall_fst st.insertMarks (.InsertMarks st.insertMarks) app.InsertMarks tx0
  unfold applyOps at h
  unfold applyStaged
  rcases h1 : txCall st.insertMarks (.InsertMarks st.insertMarks) app.InsertMarks tx0 with
    ⟨e1, err | tx1⟩
  · rw [h1] at h; simp at h
  rw [h1] at h f1
  simp only at h
  have f2 := txCall_fst st.updateMarks (.UpdateMarks st.updateMarks) app.UpdateMarks tx1
  rcases h2 : txCall st.updateMarks (.UpdateMarks st.updateMarks) app.UpdateMarks tx1 with
    ⟨e2, err | tx2⟩
  · rw [h2] at h; simp at h
  rw [h2] at h f2
  simp only at h
  have f3 := txCall_fst st.deletedMarkIDs (.DeleteMarks st.deletedMarkIDs) app.DeleteMarks tx2
  rcases h3 : txCall st.deletedMarkIDs (.DeleteMarks st.deletedMarkIDs) app.DeleteMarks tx2 with
    ⟨e3, err | tx3⟩
  · rw [h3] at h; simp at h
  rw [h3] at h f3
  simp only at h
  have f4 := txCall_fst st.deletedMarksByStudentIDType
    (.DeleteMarksByStudentIDType st.deletedMarksByStudentIDType)
    app.DeleteMarksByStudentIDType tx3
  rcases h4 : txCall st.deletedMarksByStudentIDType
    (.DeleteMarksByStudentIDType st.deletedMarksByStudentIDType)
    app.DeleteMarksByStudentIDType tx3 with ⟨e4, err | t4⟩
  · rw [h4] at h; simp at h
  rw [h4] at h f4
  simp only at h f1 f2 f3 f4
  injection h with h
  subst h
  cases h5 : app.Commit t4 with
  | error err => simp [stagedCalls, h2, h3, h4, h5, f1, f2, f3, f4]
  | ok db2 => simp [stagedCalls, h2, h3, h4, h5, f1, f2, f3, f4]

theorem applyStaged_applyOps_error {σ : Type} (app : App σ) (st : Staged) (tx0 : σ)
    (err : String) (h : applyOps app st tx0 = .error err) :
    (applyStaged app st tx0).2 = .error err ∧ Event.Commit ∉ (applyStaged app st tx0).1 ∧
      ∃ rest, (applyStaged app st tx0).1 ++ rest = stagedCalls st := by
  have f1 := txCall_fst st.insertMarks (.InsertMarks st.insertMarks) app.InsertMarks tx0
  unfold applyOps at h
  unfold applyStaged
  rcases h1 : txCall st.insertMarks (.InsertMarks st.insertMarks) app.InsertMarks tx0 with
    ⟨e1, err1 | tx1⟩
  · rw [h1] at h f1
    simp only at h f1
    injection h with h
    subst h
    refine ⟨rfl, by simp only [f1]; split <;> simp, ?_⟩
    exact ⟨stagedCalls { st with insertMarks := [] }, by simp [stagedCalls, f1]⟩
  rw [h1] at h f1
  simp only at h
  have f2 := txCall_fst st.updateMarks (.UpdateMarks st.updateMarks) app.UpdateMarks tx1
  rcases h2 : txCall st.updateMarks (.UpdateMarks st.updateMarks) app.UpdateMarks tx1 with
    ⟨e2, err2 | tx2⟩
  · rw [h2] at h f2
    simp only at h f1 f2
    injection h with h
    subst h
    refine ⟨by simp [h2], by simp only [h2, f1, f2]; split <;> split <;> simp, ?_⟩
    exact ⟨stagedCalls { st with insertMarks := [], updateMarks := [] }, by
      simp [stagedCalls, h2, f1, f2]⟩
  rw [h2] at h f2
  simp only at h
  have f3 := txCall_fst st.deletedMarkIDs (.DeleteMarks st.deletedMarkIDs) app.DeleteMarks tx2
  rcases h3 : txCall st.deletedMarkIDs (.DeleteMarks st.deletedMarkIDs) app.DeleteMarks tx2 with
    ⟨e3, err3 | tx3⟩
  · rw [h3] at h f3
    simp only at h f1 f2 f3
    injection h with h
    subst h
    refine ⟨by simp [h2, h3],
      by simp only [h2, h3, f1, f2, f3]; split <;> split <;> split <;> simp, ?_⟩
    exact ⟨stagedCalls { st with insertMarks := [], updateMarks := [], deletedMarkIDs := [] },
      by simp [stagedCalls, h2, h3, f1, f2, f3]⟩
  rw [h3] at h f3
  simp only at h
  have f4 := txCall_fst st.deletedMarksByStudentIDType
    (.DeleteMarksByStudentIDType st.deletedMarksByStudentIDType)
    app.DeleteMarksByStudentIDType tx3
  rcases h4 : txCall st.deletedMarksByStudentIDType
    (.DeleteMarksByStudentIDType st.deletedMarksByStudentIDType)
    app.DeleteMarksByStudentIDType tx3 with ⟨e4, err4 | t4⟩
  · rw [h4] at h f4
    simp only at h f1 f2 f3 f4
    injection h with h
    subst h
    refine ⟨by simp [h2, h3, h4],
      by simp only [h2, h3, h4, f1, f2, f3, f4]; split <;> split <;> split <;> split <;> simp,
      ?_⟩
    exact ⟨[], by simp [stagedCalls, h2, h3, h4, f1, f2, f3, f4]⟩
  · rw [h4] at h
    simp at h

/-! ## The calls of the handler on every path -/

theorem writeErrorResponse_isReport {σ : Type} (app : App σ) (status : Nat) (data : Payload) :
    ∀ e ∈ writeErrorResponse app status data, e.isReport = true := by
  intro e he
  rcases writeErrorResponse_cases app status data with h | ⟨err, h⟩ <;> rw [h] at he <;>
    simp at he
  · subst he; rfl
  · rcases he with he | he | he <;> subst he <;> rfl

theorem writeInternalServerError_isReport {σ : Type} (app : App σ) (err : String) :
    ∀ e ∈ writeInternalServerError app err, e.isReport = true := by
  intro e he
  unfold writeInternalServerError at he
  rcases List.mem_append.mp he with h | h
  · simp at h; subst h; rfl
  · exact writeErrorResponse_isReport app _ _ e h

theorem notAllowed_isReport {σ : Type} (app : App σ) :
    ∀ e ∈ notAllowed app, e.isReport = true :=
  writeErrorResponse_isReport app _ _

theorem notFoundOrInternal_isReport {σ : Type} (app : App σ) (err known : String) :
    ∀ e ∈ (if err = known then writeErrorResponse app StatusNotFound (.error err)
          else writeInternalServerError app err), e.isReport = true := by
  intro e he
  split at he
  · exact writeErrorResponse_isReport app _ _ e he
  · exact writeInternalServerError_isReport app _ e he

theorem isReport_not_call (e : Event) (h : e.isReport = true) :
    e.isTx = false ∧ e.isSingleWrite = false ∧ e.isLookup = false ∧ e ≠ .inputJSON ∧
      ∀ msg, e ≠ .goPanic msg := by
  cases e <;> simp [Event.isReport, Event.isResponse] at h <;>
    simp [Event.isTx, Event.isWrite, Event.isSingleWrite, Event.isLookup]

theorem early_events (pre report : List Event)
    (hpre : ∀ e ∈ pre, e.isLookup = true ∨ e = .inputJSON)
    (hrep : ∀ e ∈ report, e.isReport = true) :
    ∀ e ∈ pre ++ report, e.isLookup = true ∨ e = .inputJSON ∨ e.isReport = true := by
  intro e he
  rcases List.mem_append.mp he with h | h
  · rcases hpre e h with h1 | h1
    · exact Or.inl h1
    · exact Or.inr (Or.inl h1)
  · exact Or.inr (Or.inr (hrep e h))

theorem setMarksForLesson_cases {σ : Type} (app : App σ) (req : Request) (db : σ) :
    (∀ e ∈ (setMarksForLesson app req db).trace,
      e.isLookup = true ∨ e = .inputJSON ∨ e.isReport = true) ∨
    ∃ lessonID c input st, Prepared app req db lessonID c input ∧ stage c input = .ok st ∧
      setMarksForLesson app req db =
        ⟨preloadTrace lessonID c ++ (persist app db st).trace, (persist app db st).db⟩ := by
  cases hid : req.URLParamID with
  | none =>
    left
    unfold setMarksForLesson
    simp only [hid]
    exact early_events [] _ (by simp) (writeErrorResponse_isReport app _ _)
  | some lessonID =>
    by_cases hneg : lessonID < 0
    · left
      unfold setMarksForLesson
      simp only [hid, if_pos hneg]
      exact early_events [] _ (by simp) (writeErrorResponse_isReport app _ _)
    cases hl : app.GetLessonByID db lessonID with
    | error err =>
      left
      unfold setMarksForLesson
      simp only [hid, if_neg hneg, hl]
      exact early_events _ _ (by simp [Event.isLookup]) (notFoundOrInternal_isReport app _ _)
    | ok lesson =>
    cases hj : app.GetJournalByID db lesson.JournalID with
    | error err =>
      left
      unfold setMarksForLesson
      simp only [hid, if_neg hneg, hl, hj]
      exact early_events _ _ (by simp [Event.isLookup]) (notFoundOrInternal_isReport app _ _)
    | ok journal =>
    by_cases hau : journal.IsUserTeacherOfJournal req.sessionUser.ID = false ∧
        req.sessionUser.Role ≠ RoleAdministrator
    · left
      unfold setMarksForLesson
      simp only [hid, if_neg hneg, hl, hj, if_pos hau]
      exact early_events _ _ (by simp [Event.isLookup]) (notAllowed_isReport app)
    cases hin : app.inputJSON req.body with
    | error err =>
      left
      unfold setMarksForLesson
      simp only [hid, if_neg hneg, hl, hj, if_neg hau, hin]
      exact early_events _ _ (by simp [Event.isLookup]) (writeErrorResponse_isReport app _ _)
    | ok input =>
    cases hm : app.GetMarkIDsForLesson db lesson.ID with
    | error err =>
      left
      unfold setMarksForLesson
      simp only [hid, if_neg hneg, hl, hj, if_neg hau, hin, hm]
      exact early_events _ _ (by simp [Event.isLookup])
        (writeInternalServerError_isReport app _)
    | ok allMarkIDs =>
    cases hst : app.GetStudentIDsForJournal db journal.ID with
    | error err =>
      left
      unfold setMarksForLesson
      simp only [hid, if_neg hneg, hl, hj, if_neg hau, hin, hm, hst]
      exact early_events _ _ (by simp [Event.isLookup])
        (writeInternalServerError_isReport app _)
    | ok allStudentIDs =>
    cases hg : app.GetAllGradeIDs db with
    | error err =>
      left
      unfold setMarksForLesson
      simp only [hid, if_neg hneg, hl, hj, if_neg hau, hin, hm, hst, hg]
      exact early_events _ _ (by simp [Event.isLookup])
        (writeInternalServerError_isReport app _)
    | ok allGradeIDs =>
      right
      obtain ⟨st, hs, _⟩ := stage_errors
        ⟨lesson, journal, req.sessionUser, app.now, allMarkIDs, allStudentIDs, allGradeIDs⟩ input
      have hauth : journal.IsUserTeacherOfJournal req.sessionUser.ID = true ∨
          req.sessionUser.Role = RoleAdministrator := by
        by_cases h1 : journal.IsUserTeacherOfJournal req.sessionUser.ID = true
        · exact Or.inl h1
        · right
          by_contra h2
          exact hau ⟨by simpa using h1, h2⟩
      have hp : Prepared app req db lessonID
          ⟨lesson, journal, req.sessionUser, app.now, allMarkIDs, allStudentIDs, allGradeIDs⟩
          input :=
        ⟨hid, not_lt.mp hneg, hl, hj, hauth, hin, hm, hst, hg, rfl, rfl⟩
      exact ⟨lessonID, _, input, st, hp, hs,
        setMarksForLesson_prepared app req db lessonID _ input st hp hs⟩

theorem applyStaged_fst_mem {σ : Type} (app : App σ) (st : Staged) (tx0 : σ) :
    ∀ e ∈ (applyStaged app st tx0).1, e ∈ stagedCalls st ++ [.Commit] := by
  intro e he
  cases h : (applyStaged app st tx0).2 with
  | ok db1 =>
    rw [applyStaged_fst_ok app st tx0 db1 h] at he
    exact he
  | error err =>
    obtain ⟨rest, hr⟩ := applyStaged_fst_error app st tx0 err h
    rw [← hr]
    exact List.mem_append_left _ he

theorem persist_events {σ : Type} (app : App σ) (db : σ) (st : Staged) :
    ∀ e ∈ (persist app db st).trace,
      e.isReport = true ∨
        (st.v.Errors = [] ∧ (e = .Begin ∨ e ∈ stagedCalls st ∨ e = .Commit)) := by
  intro e he
  by_cases hv : st.v.Errors = []
  · have hne : ¬ st.v.Valid = false := by rw [validator_valid_false]; simp [hv]
    unfold persist at he
    rw [if_neg hne] at he
    cases hb : app.Begin db with
    | error err =>
      rw [hb] at he
      simp only [List.mem_append, List.mem_singleton] at he
      rcases he with he | he
      · exact Or.inr ⟨hv, Or.inl he⟩
      · exact Or.inl (writeInternalServerError_isReport app err e he)
    | ok tx0 =>
      rw [hb] at he
      simp only at he
      have hmem := applyStaged_fst_mem app st tx0
      rcases hx : applyStaged app st tx0 with ⟨evs, r⟩
      rw [hx] at he hmem
      simp only at hmem
      have hcall : e ∈ [Event.Begin] ++ evs →
          st.v.Errors = [] ∧ (e = .Begin ∨ e ∈ stagedCalls st ∨ e = .Commit) := by
        intro h
        simp only [List.mem_append, List.mem_singleton] at h
        rcases h with h | h
        · exact ⟨hv, Or.inl h⟩
        · have h2 := hmem e h
          simp only [List.mem_append, List.mem_singleton] at h2
          rcases h2 with h2 | h2
          · exact ⟨hv, Or.inr (Or.inl h2)⟩
          · exact ⟨hv, Or.inr (Or.inr h2)⟩
      cases r with
      | error err =>
        simp only at he
        rcases List.mem_append.mp he with h | h
        · exact Or.inr (hcall h)
        · exact Or.inl (writeInternalServerError_isReport app err e h)
      | ok db1 =>
        simp only at he
        cases ho : app.outputJSON StatusCreated (.message "success") with
        | ok u =>
          rw [ho] at he
          simp only at he
          rcases List.mem_append.mp he with h | h
          · exact Or.inr (hcall h)
          · simp only [List.mem_singleton] at h
            subst h
            exact Or.inl rfl
        | error err =>
          rw [ho] at he
          simp only at he
          rcases List.mem_append.mp he with h | h
          · exact Or.inr (hcall h)
          · exact Or.inl (writeInternalServerError_isReport app err e h)
  · rw [persist_invalid app db st hv] at he
    exact Or.inl (writeErrorResponse_isReport app _ _ e he)

theorem setMarksForLesson_events {σ : Type} (app : App σ) (req : Request) (db : σ) :
    ∀ e ∈ (setMarksForLesson app req db).trace,
      e.isLookup = true ∨ e = .inputJSON ∨ e.isReport = true ∨ e.isTx = true := by
  intro e he
  rcases setMarksForLesson_cases app req db with h | ⟨lessonID, c, input, st, _, _, h⟩
  · rcases h e he with h1 | h1 | h1
    · exact Or.inl h1
    · exact Or.inr (Or.inl h1)
    · exact Or.inr (Or.inr (Or.inl h1))
  · rw [h] at he
    simp only [List.mem_append] at he
    rcases he with he | he
    · simp only [preloadTrace, List.mem_cons, List.mem_singleton, List.not_mem_nil,
        or_false] at he
      rcases he with h1 | h1 | h1 | h1 | h1 | h1 <;> subst h1 <;> simp [Event.isLookup]
    · rcases persist_events app db st e he with h1 | ⟨_, h1 | h1 | h1⟩
      · exact Or.inr (Or.inr (Or.inl h1))
      · subst h1; exact Or.inr (Or.inr (Or.inr rfl))
      · exact Or.inr (Or.inr (Or.inr
          (stagedCalls_isTx st e (List.mem_append_left _ h1)).1))
      · subst h1; exact Or.inr (Or.inr (Or.inr rfl))

theorem persist_begun {σ : Type} (app : App σ) (db tx0 : σ) (st : Staged)
    (hv : st.v.Errors = []) (hb : app.Begin db = .ok tx0) :
    ∃ report, (persist app db st).trace = [.Begin] ++ (applyStaged app st tx0).1 ++ report ∧
      ∀ e ∈ report, e.isReport = true := by
  have hne : ¬ st.v.Valid = false := by rw [validator_valid_false]; simp [hv]
  unfold persist
  rw [if_neg hne, hb]
  simp only
  rcases hx : applyStaged app st tx0 with ⟨evs, r⟩
  cases r with
  | error err => exact ⟨_, rfl, writeInternalServerError_isReport app err⟩
  | ok db1 =>
    simp only
    cases ho : app.outputJSON StatusCreated (.message "success") with
    | ok u =>
      refine ⟨[.outputJSON StatusCreated (.message "success")], rfl, ?_⟩
      intro e he
      simp only [List.mem_singleton] at he
      subst he
      rfl
    | error err => exact ⟨_, rfl, writeInternalServerError_isReport app err⟩

/-! ## The type switch of `newMark` never panics in the loops -/

theorem newMark_error_iff (c : Ctx) (v : Validator) (index : Nat) (ID studentID : Int)
    (mtype : String) (comment : Option String) (grade : Option Int) :
    (∃ e, newMark c v index ID studentID mtype comment grade = .error e) ↔
      ¬ (EditType mtype ∨ FlagType mtype) := by
  constructor
  · rintro ⟨e, h⟩ hT
    rcases hT with (h1 | h1) | h1
    · subst h1
      rw [newMark_common] at h
      cases grade with
      | none => simp at h
      | some g => by_cases hg : g ∈ c.allGradeIDs <;> simp [hg] at h
    · rw [newMark_notice c v index ID studentID mtype comment grade h1] at h
      by_cases hc : comment = none ∨ comment = some ""
      · rw [if_pos hc] at h; exact Except.noConfusion h
      · rw [if_neg hc] at h; exact Except.noConfusion h
    · rw [newMark_flagType c v index ID studentID mtype comment grade h1] at h
      exact Except.noConfusion h
  · intro hT
    have h1 : ¬ mtype = MarkCommonGrade := fun h => hT (Or.inl (Or.inl h))
    have h2 : ¬ (mtype = MarkNoticeBad ∨ mtype = MarkNoticeNeutral ∨
        mtype = MarkNoticeGood) := by
      rintro (h | h | h)
      · exact hT (Or.inl (Or.inr (Or.inr (Or.inr h))))
      · exact hT (Or.inl (Or.inr (Or.inr (Or.inl h))))
      · exact hT (Or.inl (Or.inr (Or.inl h)))
    have h3 : ¬ (mtype = MarkAbsent ∨ mtype = MarkLate ∨ mtype = MarkNotDone) :=
      fun h => hT (Or.inr h)
    unfold newMark
    rw [if_neg h1, if_neg h2, if_neg h3]
    exact ⟨_, rfl⟩

theorem newMark_none (c : Ctx) (v v1 : Validator) (index : Nat) (ID studentID : Int)
    (mtype : String) (comment : Option String) (grade : Option Int)
    (h : newMark c v index ID studentID mtype comment grade = .ok (none, v1)) :
    ∃ field msg, v1 = v.Add field msg := by
  by_cases hT : EditType mtype ∨ FlagType mtype
  · rcases hT with (h1 | h1) | h1
    · subst h1
      rw [newMark_common] at h
      cases grade with
      | none =>
        simp only [Except.ok.injEq, Prod.mk.injEq, true_and] at h
        exact ⟨_, _, h.symm⟩
      | some g =>
        by_cases hg : g ∈ c.allGradeIDs
        · simp [hg] at h
        · simp only [hg, if_false, Except.ok.injEq, Prod.mk.injEq, true_and] at h
          exact ⟨_, _, h.symm⟩
    · rw [newMark_notice c v index ID studentID mtype comment grade h1] at h
      by_cases hc : comment = none ∨ comment = some ""
      · rw [if_pos hc] at h
        simp only [Except.ok.injEq, Prod.mk.injEq, true_and] at h
        exact ⟨_, _, h.symm⟩
      · rw [if_neg hc] at h
        simp at h
    · rw [newMark_flagType c v index ID studentID mtype comment grade h1] at h
      simp at h
  · obtain ⟨e, he⟩ := (newMark_error_iff c v index ID studentID mtype comment grade).mpr hT
    rw [he] at h
    exact Except.noConfusion h

/-! ## Properties that every step of the staging loops keeps -/

theorem marksLoop_preserves (c : Ctx) (studentID : Int) (I : Staged → Prop)
    (hmark : ∀ st st1 mi m, I st → markStep c studentID st mi m = .ok st1 → I st1)
    (ms : List MarkInput) :
    ∀ (st st1 : Staged) (mi : Nat), I st → marksLoop c studentID st mi ms = .ok st1 → I st1 := by
  induction ms with
  | nil =>
    intro st st1 mi hst h
    rw [marksLoop] at h
    injection h with h
    subst h
    exact hst
  | cons m ms ih =>
    intro st st1 mi hst h
    rw [marksLoop] at h
    cases hm : markStep c studentID st mi m with
    | error e => rw [hm] at h; exact Except.noConfusion h
    | ok st2 =>
      rw [hm] at h
      exact ih st2 st1 (mi + 1) (hmark st st2 mi m hst hm) h

theorem studentStep_preserves (c : Ctx) (I : Staged → Prop)
    (hmark : ∀ studentID st st1 mi m, I st → markStep c studentID st mi m = .ok st1 → I st1)
    (hflags : ∀ st s, Processed c s → I st → I (flagsStaged c st s))
    (hrej : ∀ (st : Staged) (field msg : String), I st → I { st with v := st.v.Add field msg })
    (st st1 : Staged) (s : StudentInput) (hst : I st) (h : studentStep c st s = .ok st1) :
    I st1 := by
  by_cases h1 : s.StudentID < 1
  · simp only [studentStep, if_pos h1] at h
    injection h with h
    subst h
    exact hst
  · by_cases h2 : s.StudentID ∈ c.allStudentIDs
    · rw [studentStep_processed c st s (by omega) h2] at h
      exact marksLoop_preserves c s.StudentID I (hmark s.StudentID) s.Marks _ st1 0
        (hflags st s ⟨by omega, h2⟩ hst) h
    · have h2a : s.StudentID ∉ c.allStudentIDs := h2
      simp only [studentStep, if_neg h1, if_pos h2a] at h
      injection h with h
      subst h
      exact hrej st _ _ hst

theorem studentsLoop_preserves (c : Ctx) (I : Staged → Prop)
    (hmark : ∀ studentID st st1 mi m, I st → markStep c studentID st mi m = .ok st1 → I st1)
    (hflags : ∀ st s, Processed c s → I st → I (flagsStaged c st s))
    (hrej : ∀ (st : Staged) (field msg : String), I st → I { st with v := st.v.Add field msg })
    (input : List StudentInput) :
    ∀ (st st1 : Staged), I st → studentsLoop c st input = .ok st1 → I st1 := by
  induction input with
  | nil =>
    intro st st1 hst h
    rw [studentsLoop] at h
    injection h with h
    subst h
    exact hst
  | cons s ss ih =>
    intro st st1 hst h
    rw [studentsLoop] at h
    cases hm : studentStep c st s with
    | error e => rw [hm] at h; exact Except.noConfusion h
    | ok st2 =>
      rw [hm] at h
      exact ih st2 st1 (studentStep_preserves c I hmark hflags hrej st st2 s hst hm) h

theorem stage_preserves (c : Ctx) (I : Staged → Prop) (h0 : I Staged.initial)
    (hmark : ∀ studentID st st1 mi m, I st → markStep c studentID st mi m = .ok st1 → I st1)
    (hflags : ∀ st s, Processed c s → I st → I (flagsStaged c st s))
    (hrej : ∀ (st : Staged) (field msg : String), I st → I { st with v := st.v.Add field msg })
    (input : List StudentInput) : ∃ st, stage c input = .ok st ∧ I st := by
  obtain ⟨st, hs, _⟩ := stage_errors c input
  exact ⟨st, hs, studentsLoop_preserves c I hmark hflags hrej input Staged.initial st h0 hs⟩

theorem add_errors_ne_nil (v : Validator) (field msg : String) :
    (v.Add field msg).Errors ≠ [] := by
  simp [Validator.Add]

theorem markStep_nilMeansError (c : Ctx) (studentID : Int) (st st1 : Staged) (mi : Nat)
    (m : MarkInput) (hst : st.NilMeansError) (h : markStep c studentID st mi m = .ok st1) :
    st1.NilMeansError := by
  by_cases hv : ValidEdit c m
  · rw [markStep_valid c studentID st mi m hv] at h
    injection h with h
    subst h
    intro hn
    apply hst
    simp only [List.mem_append] at hn
    rcases hn with (hn | hn) | (hn | hn)
    · exact Or.inl hn
    · exfalso
      unfold editInsert at hn
      split at hn <;> simp at hn
    · exact Or.inr hn
    · exfalso
      unfold editUpdate at hn
      split at hn
      · split at hn <;> simp at hn
      · simp at hn
  · obtain ⟨st2, h2, h3⟩ := markStep_invalid c studentID st mi m hv
    rw [h2] at h
    injection h with h
    subst h
    intro _
    rw [h3]
    simp

theorem stage_nilMeansError (c : Ctx) (input : List StudentInput) :
    ∃ st, stage c input = .ok st ∧ st.NilMeansError := by
  refine stage_preserves c Staged.NilMeansError ?_ ?_ ?_ ?_ input
  · intro h
    simp [Staged.initial] at h
  · intro studentID st st1 mi m hst h
    exact markStep_nilMeansError c studentID st st1 mi m hst h
  · intro st s _ hst hn
    apply hst
    simp only [flagsStaged, List.mem_append] at hn
    rcases hn with (hn | (hn | hn) | hn) | hn
    · exact Or.inl hn
    · exfalso; split at hn <;> simp at hn
    · exfalso; split at hn <;> simp at hn
    · exfalso; split at hn <;> simp at hn
    · exact Or.inr hn
  · intro st field msg _ _
    exact add_errors_ne_nil st.v field msg

/-- C22: for every batch that passes validation (the request is prepared, the staging ends
with a validator without errors) and whose transaction begins, the trace of the handler is
the preloads, one `Begin`, the calls of the transaction and a report, and neither the
preloads nor the report contain a call on the transaction. The calls of the transaction are a
prefix of the fixed sequence bulk insert, bulk update, delete by id, delete by (student,
type), `Commit`, in which exactly the calls whose staged list is empty are left out, each call
receiving the state of the transaction left by the call before. `Commit` is called exactly
when the four guarded calls all returned without error, and then after all of them; when one
of them fails, the calls stop there. -/
theorem persistence_calls_follow_fixed_order {σ : Type} (app : App σ) (req : Request)
    (db tx0 : σ) (lessonID : Int) (c : Ctx) (input : List StudentInput) (st : Staged)
    (hp : Prepared app req db lessonID c input)
    (hs : stage c input = .ok st) (hv : st.v.Errors = [])
    (hb : app.Begin db = .ok tx0) :
    (∃ report, (setMarksForLesson app req db).trace =
        preloadTrace lessonID c ++ [.Begin] ++ (applyStaged app st tx0).1 ++ report ∧
      ∀ e ∈ preloadTrace lessonID c ++ report, e.isTx = false) ∧
    (∃ rest, (applyStaged app st tx0).1 ++ rest = stagedCalls st ++ [.Commit]) ∧
    stagedCalls st =
      (if st.insertMarks = [] then [] else [Event.InsertMarks st.insertMarks]) ++
      (if st.updateMarks = [] then [] else [Event.UpdateMarks st.updateMarks]) ++
      (if st.deletedMarkIDs = [] then [] else [Event.DeleteMarks st.deletedMarkIDs]) ++
      (if st.deletedMarksByStudentIDType = [] then []
        else [Event.DeleteMarksByStudentIDType st.deletedMarksByStudentIDType]) ∧
    (Event.Commit ∈ (applyStaged app st tx0).1 ↔ ∃ tx4, applyOps app st tx0 = .ok tx4) ∧
    (∀ tx4, applyOps app st tx0 = .ok tx4 →
      applyStaged app st tx0 = (stagedCalls st ++ [.Commit], app.Commit tx4)) ∧
    (∀ err, applyOps app st tx0 = .error err →
      (applyStaged app st tx0).2 = .error err ∧
        ∃ rest, (applyStaged app st tx0).1 ++ rest = stagedCalls st) := by
  refine ⟨?_, ?_, rfl, ?_, fun tx4 h => applyStaged_applyOps_ok app st tx0 tx4 h,
    fun err h => ⟨(applyStaged_applyOps_error app st tx0 err h).1,
      (applyStaged_applyOps_error app st tx0 err h).2.2⟩⟩
  · obtain ⟨report, hr, hrep⟩ := persist_begun app db tx0 st hv hb
    refine ⟨report, ?_, ?_⟩
    · rw [setMarksForLesson_prepared app req db lessonID c input st hp hs, hr]
      simp
    · intro e he
      rcases List.mem_append.mp he with h | h
      · exact preloadTrace_not_tx lessonID c e h
      · exact (isReport_not_call e (hrep e h)).1
  · cases h : applyOps app st tx0 with
    | ok tx4 =>
      rw [applyStaged_applyOps_ok app st tx0 tx4 h]
      exact ⟨[], by simp⟩
    | error err =>
      obtain ⟨rest, hr⟩ := (applyStaged_applyOps_error app st tx0 err h).2.2
      exact ⟨rest ++ [.Commit], by rw [← List.append_assoc, hr]⟩
  · cases h : applyOps app st tx0 with
    | ok tx4 =>
      rw [applyStaged_applyOps_ok app st tx0 tx4 h]
      simp
    | error err =>
      have hn := (applyStaged_applyOps_error app st tx0 err h).2.1
      simp [hn]

/-- Witness of C22 on the example batch, whose four staged lists are an insert of two
records, no update, a delete of mark 42 and one delete key. -/
theorem persistence_calls_follow_fixed_order_witness :
    (∃ report, (setMarksForLesson (demoApp demoBatch) demoRequest demoDB).trace =
        preloadTrace 7 demoCtx ++ [.Begin] ++
          (applyStaged (demoApp demoBatch) (impliedStaged demoCtx demoBatch) demoDB).1 ++
          report ∧
      ∀ e ∈ preloadTrace 7 demoCtx ++ report, e.isTx = false) ∧
    (∃ rest, (applyStaged (demoApp demoBatch) (impliedStaged demoCtx demoBatch) demoDB).1 ++
      rest = stagedCalls (impliedStaged demoCtx demoBatch) ++ [.Commit]) ∧
    stagedCalls (impliedStaged demoCtx demoBatch) =
      (if (impliedStaged demoCtx demoBatch).insertMarks = [] then []
        else [Event.InsertMarks (impliedStaged demoCtx demoBatch).insertMarks]) ++
      (if (impliedStaged demoCtx demoBatch).updateMarks = [] then []
        else [Event.UpdateMarks (impliedStaged demoCtx demoBatch).updateMarks]) ++
      (if (impliedStaged demoCtx demoBatch).deletedMarkIDs = [] then []
        else [Event.DeleteMarks (impliedStaged demoCtx demoBatch).deletedMarkIDs]) ++
      (if (impliedStaged demoCtx demoBatch).deletedMarksByStudentIDType = [] then []
        else [Event.DeleteMarksByStudentIDType
          (impliedStaged demoCtx demoBatch).deletedMarksByStudentIDType]) ∧
    (Event.Commit ∈
        (applyStaged (demoApp demoBatch) (impliedStaged demoCtx demoBatch) demoDB).1 ↔
      ∃ tx4, applyOps (demoApp demoBatch) (impliedStaged demoCtx demoBatch) demoDB = .ok tx4) ∧
    (∀ tx4, applyOps (demoApp demoBatch) (impliedStaged demoCtx demoBatch) demoDB = .ok tx4 →
      applyStaged (demoApp demoBatch) (impliedStaged demoCtx demoBatch) demoDB =
        (stagedCalls (impliedStaged demoCtx demoBatch) ++ [.Commit],
          (demoApp demoBatch).Commit tx4)) ∧
    (∀ err, applyOps (demoApp demoBatch) (impliedStaged demoCtx demoBatch) demoDB =
        .error err →
      (applyStaged (demoApp demoBatch) (impliedStaged demoCtx demoBatch) demoDB).2 =
          .error err ∧
        ∃ rest, (applyStaged (demoApp demoBatch) (impliedStaged demoCtx demoBatch) demoDB).1 ++
          rest = stagedCalls (impliedStaged demoCtx demoBatch)) :=
  persistence_calls_follow_fixed_order (demoApp demoBatch) demoRequest demoDB demoDB 7 demoCtx
    demoBatch (impliedStaged demoCtx demoBatch)
    ⟨rfl, by decide, rfl, rfl, Or.inl rfl, rfl, rfl, rfl, rfl, rfl, rfl⟩ rfl rfl rfl

/-- C23: for every batch (any student ids, flags, types, ids, grades, comments and remove
values) the staging loops end without panic: the type switch of `newMark` panics exactly when
the type is none of common_grade, notice_good, notice_neutral, notice_bad, absent, late,
not_done; the three flag blocks call it with absent, late and not_done and never panic; the
body of the loop over the edits never panics, whatever the edit; the staging of the batch
gives a state of the accumulators; and no trace of the handler contains a panic. -/
theorem newMark_panic_branch_is_unreachable {σ : Type} (app : App σ) (req : Request) (db : σ)
    (c : Ctx) (input : List StudentInput) :
    (∀ (v : Validator) (index : Nat) (ID studentID : Int) (mtype : String)
      (comment : Option String) (grade : Option Int),
      (∃ e, newMark c v index ID studentID mtype comment grade = .error e) ↔
        ¬ (EditType mtype ∨ FlagType mtype)) ∧
    (∀ (st : Staged) (s : StudentInput),
      (∃ st1, flagStep c s.StudentID MarkAbsent s.Absent st = .ok st1) ∧
      (∃ st1, flagStep c s.StudentID MarkLate s.Late st = .ok st1) ∧
      (∃ st1, flagStep c s.StudentID MarkNotDone s.NotDone st = .ok st1)) ∧
    (∀ (studentID : Int) (st : Staged) (mi : Nat) (m : MarkInput),
      ∃ st1, markStep c studentID st mi m = .ok st1) ∧
    (∃ st, stage c input = .ok st) ∧
    (∀ msg, Event.goPanic msg ∉ (setMarksForLesson app req db).trace) := by
  refine ⟨fun v index ID studentID mtype comment grade =>
      newMark_error_iff c v index ID studentID mtype comment grade, ?_, ?_, ?_, ?_⟩
  · intro st s
    exact ⟨⟨_, flagStep_eq c s.StudentID MarkAbsent s.Absent st (Or.inl rfl)⟩,
      ⟨_, flagStep_eq c s.StudentID MarkLate s.Late st (Or.inr (Or.inl rfl))⟩,
      ⟨_, flagStep_eq c s.StudentID MarkNotDone s.NotDone st (Or.inr (Or.inr rfl))⟩⟩
  · intro studentID st mi m
    obtain ⟨st1, h, _⟩ := markStep_errors c studentID st mi m
    exact ⟨st1, h⟩
  · obtain ⟨st, h, _⟩ := stage_errors c input
    exact ⟨st, h⟩
  · intro msg hmem
    rcases setMarksForLesson_events app req db _ hmem with h | h | h | h <;>
      simp [Event.isLookup, Event.isReport, Event.isResponse, Event.isTx, Event.isWrite] at h

/-- C24: `newMark` returns nil only together with a validator that has one more error than
before; so for every batch the staging gives a state in which a nil record among the staged
inserts or updates comes with a recorded error, and when the validator is valid after the
loops neither list contains a nil record; and on no path does the handler pass a list that
contains a nil record to `InsertMarks` or `UpdateMarks`. -/
theorem nil_record_is_never_persisted {σ : Type} (app : App σ) (req : Request) (db : σ)
    (c : Ctx) (input : List StudentInput) :
    (∀ (v v1 : Validator) (index : Nat) (ID studentID : Int) (mtype : String)
      (comment : Option String) (grade : Option Int),
      newMark c v index ID studentID mtype comment grade = .ok (none, v1) →
        ∃ field msg, v1.Errors = v.Errors ++ [(field, msg)]) ∧
    (∃ st, stage c input = .ok st ∧
      (st.v.Valid = true → none ∉ st.insertMarks ∧ none ∉ st.updateMarks)) ∧
    (∀ ms, Event.InsertMarks ms ∈ (setMarksForLesson app req db).trace ∨
        Event.UpdateMarks ms ∈ (setMarksForLesson app req db).trace → none ∉ ms) := by
  refine ⟨?_, ?_, ?_⟩
  · intro v v1 index ID studentID mtype comment grade h
    obtain ⟨field, msg, h1⟩ := newMark_none c v v1 index ID studentID mtype comment grade h
    exact ⟨field, msg, by rw [h1]; rfl⟩
  · obtain ⟨st, hs, hn⟩ := stage_nilMeansError c input
    refine ⟨st, hs, fun hv => ?_⟩
    have hv1 : st.v.Errors = [] := by
      by_contra hne
      rw [(validator_valid_false st.v).mpr hne] at hv
      exact Bool.noConfusion hv
    exact ⟨fun h => hn (Or.inl h) hv1, fun h => hn (Or.inr h) hv1⟩
  · intro ms hms
    rcases setMarksForLesson_cases app req db with h | ⟨lessonID, c1, input1, st, _, hs, h⟩
    · exfalso
      rcases hms with hms | hms <;> rcases h _ hms with h1 | h1 | h1 <;>
        simp [Event.isLookup, Event.isReport, Event.isResponse] at h1
    · obtain ⟨st2, hs2, hn⟩ := stage_nilMeansError c1 input1
      rw [hs] at hs2
      injection hs2 with hs2
      subst hs2
      have key : ∀ e, e ∈ (setMarksForLesson app req db).trace →
          (e = Event.InsertMarks ms ∨ e = Event.UpdateMarks ms) →
          st.v.Errors = [] ∧ e ∈ stagedCalls st := by
        intro e he hform
        rw [h] at he
        simp only [List.mem_append] at he
        rcases he with he | he
        · exfalso
          simp only [preloadTrace, List.mem_cons, List.mem_singleton, List.not_mem_nil,
            or_false] at he
          rcases hform with hf | hf <;> subst hf <;> simp at he
        · rcases persist_events app db st e he with h1 | ⟨hv, h1 | h1 | h1⟩
          · exfalso
            rcases hform with hf | hf <;> subst hf <;>
              simp [Event.isReport, Event.isResponse] at h1
          · exfalso
            rcases hform with hf | hf <;> subst hf <;> simp at h1
          · exact ⟨hv, h1⟩
          · exfalso
            rcases hform with hf | hf <;> subst hf <;> simp at h1
      rcases hms with hms | hms
      · obtain ⟨hv, hmem⟩ := key _ hms (Or.inl rfl)
        have : ms = st.insertMarks := by
          simp only [stagedCalls, List.mem_append] at hmem
          rcases hmem with ((hm | hm) | hm) | hm <;> split at hm <;> simp at hm
          exact hm
        subst this
        exact fun hnil => hn (Or.inl hnil) hv
      · obtain ⟨hv, hmem⟩ := key _ hms (Or.inr rfl)
        have : ms = st.updateMarks := by
          simp only [stagedCalls, List.mem_append] at hmem
          rcases hmem with ((hm | hm) | hm) | hm <;> split at hm <;> simp at hm
          exact hm
        subst this
        exact fun hnil => hn (Or.inr hnil) hv

/-- C25, evaluation of the code at the failing input: grade 99 is not a valid grade id, the
batch with a good notice that carries a comment and grade 99 is staged without validation
error as an insert whose grade id is 99, and the handler passes that record to `InsertMarks`,
commits and reports created; the stored notice has grade id 99. -/
theorem notice_with_unknown_grade_is_staged :
    (99 : Int) ∉ demoCtx.allGradeIDs ∧
    stage demoCtx noticeWithGrade =
      .ok ⟨⟨[]⟩, [some ⟨0, some 5, some 7, some 2, some 3, some 10, some "notice_good", some 99,
        some "well done", some 1000, some 1000⟩], [], [], []⟩ ∧
    (setMarksForLesson (demoApp noticeWithGrade) demoRequest demoDB).trace =
      preloadTrace 7 demoCtx ++
        [.Begin,
         .InsertMarks [some ⟨0, some 5, some 7, some 2, some 3, some 10, some "notice_good",
           some 99, some "well done", some 1000, some 1000⟩],
         .Commit, .outputJSON StatusCreated (.message "success")] ∧
    (setMarksForLesson (demoApp noticeWithGrade) demoRequest demoDB).db =
      demoDB ++ [⟨43, some 5, some 7, some 2, some 3, some 10, some "notice_good", some 99,
        some "well done", some 1000, some 1000⟩] :=
  ⟨by decide, rfl, by decide, by decide⟩

/-! ## What one step of the loop over the edits appends -/

theorem newMark_result (c : Ctx) (v v1 : Validator) (index : Nat) (ID studentID : Int)
    (mtype : String) (comment : Option String) (grade : Option Int) (r : Marks)
    (h : newMark c v index ID studentID mtype comment grade = .ok (some r, v1)) :
    r = buildMark c ID studentID mtype comment grade ∧ v1 = v := by
  by_cases hT : EditType mtype ∨ FlagType mtype
  · rcases hT with (h1 | h1) | h1
    · subst h1
      rw [newMark_common] at h
      cases grade with
      | none => simp at h
      | some g =>
        by_cases hg : g ∈ c.allGradeIDs
        · simp only [hg, if_true, Except.ok.injEq, Prod.mk.injEq, Option.some.injEq] at h
          exact ⟨h.1.symm, h.2.symm⟩
        · simp [hg] at h
    · rw [newMark_notice c v index ID studentID mtype comment grade h1] at h
      by_cases hc : comment = none ∨ comment = some ""
      · rw [if_pos hc] at h
        simp at h
      · rw [if_neg hc] at h
        simp only [Except.ok.injEq, Prod.mk.injEq, Option.some.injEq] at h
        exact ⟨h.1.symm, h.2.symm⟩
    · rw [newMark_flagType c v index ID studentID mtype comment grade h1] at h
      simp only [Except.ok.injEq, Prod.mk.injEq, Option.some.injEq] at h
      exact ⟨h.1.symm, h.2.symm⟩
  · obtain ⟨e, he⟩ := (newMark_error_iff c v index ID studentID mtype comment grade).mpr hT
    rw [he] at h
    exact Except.noConfusion h

theorem markStep_result (c : Ctx) (studentID : Int) (st st1 : Staged) (mi : Nat)
    (m : MarkInput) (h : markStep c studentID st mi m = .ok st1) :
    st1.deletedMarksByStudentIDType = st.deletedMarksByStudentIDType ∧
    (st1.insertMarks = st.insertMarks ∨
      ∃ r, st1.insertMarks = st.insertMarks ++ [r] ∧
        ∀ x, r = some x → x = buildMark c 0 studentID m.Type_ m.Comment m.Grade) ∧
    (st1.updateMarks = st.updateMarks ∨
      ∃ id r, m.ID = some id ∧ st1.updateMarks = st.updateMarks ++ [r] ∧
        ∀ x, r = some x → x = buildMark c id 0 m.Type_ m.Comment m.Grade) := by
  unfold markStep at h
  by_cases hcond : m.Type_ ≠ MarkCommonGrade ∧ m.Type_ ≠ MarkNoticeBad ∧
      m.Type_ ≠ MarkNoticeNeutral ∧ m.Type_ ≠ MarkNoticeGood ∧ m.Remove = false
  · rw [if_pos hcond] at h
    injection h with h
    subst h
    exact ⟨rfl, Or.inl rfl, Or.inl rfl⟩
  · rw [if_neg hcond] at h
    cases hid : m.ID with
    | none =>
      rw [hid] at h
      simp only at h
      by_cases hr : m.Remove = true
      · rw [if_pos hr] at h
        injection h with h
        subst h
        exact ⟨rfl, Or.inl rfl, Or.inl rfl⟩
      · rw [if_neg hr] at h
        cases hn : newMark c st.v mi 0 studentID m.Type_ m.Comment m.Grade with
        | error e => rw [hn] at h; exact Except.noConfusion h
        | ok p =>
          obtain ⟨r0, v0⟩ := p
          rw [hn] at h
          injection h with h
          subst h
          refine ⟨rfl, Or.inr ⟨r0, rfl, fun x hx => ?_⟩, Or.inl rfl⟩
          subst hx
          exact (newMark_result c st.v v0 mi 0 studentID _ _ _ x hn).1
    | some id =>
      rw [hid] at h
      simp only at h
      by_cases hmem : id ∉ c.allMarkIDs
      · rw [if_pos hmem] at h
        injection h with h
        subst h
        exact ⟨rfl, Or.inl rfl, Or.inl rfl⟩
      · rw [if_neg hmem] at h
        by_cases hr : m.Remove = true
        · rw [if_pos hr] at h
          injection h with h
          subst h
          exact ⟨rfl, Or.inl rfl, Or.inl rfl⟩
        · rw [if_neg hr] at h
          cases hn : newMark c st.v mi id 0 m.Type_ m.Comment m.Grade with
          | error e => rw [hn] at h; exact Except.noConfusion h
          | ok p =>
            obtain ⟨r0, v0⟩ := p
            rw [hn] at h
            injection h with h
            subst h
            refine ⟨rfl, Or.inl rfl, Or.inr ⟨id, r0, rfl, rfl, fun x hx => ?_⟩⟩
            subst hx
            exact (newMark_result c st.v v0 mi id 0 _ _ _ x hn).1

theorem markStep_with_id (c : Ctx) (studentID studentID1 : Int) (st : Staged) (mi : Nat)
    (m : MarkInput) (h : m.ID ≠ none) :
    markStep c studentID st mi m = markStep c studentID1 st mi m := by
  unfold markStep
  cases hid : m.ID with
  | none => exact absurd hid h
  | some id => rfl

/-! ## The staged delete keys -/

theorem marksLoop_keys (c : Ctx) (studentID : Int) (ms : List MarkInput) (st st1 : Staged)
    (mi : Nat) (h : marksLoop c studentID st mi ms = .ok st1) :
    st1.deletedMarksByStudentIDType = st.deletedMarksByStudentIDType :=
  marksLoop_preserves c studentID
    (fun x => x.deletedMarksByStudentIDType = st.deletedMarksByStudentIDType)
    (fun a a1 i m ha hm => ((markStep_result c studentID a a1 i m hm).1).trans ha)
    ms st st1 mi rfl h

theorem studentStep_keys (c : Ctx) (st st1 : Staged) (s : StudentInput)
    (h : studentStep c st s = .ok st1) :
    st1.deletedMarksByStudentIDType = st.deletedMarksByStudentIDType ++
      (if Processed c s then impliedKeyDeletes s else []) := by
  by_cases h1 : s.StudentID < 1
  · have hP : ¬ Processed c s := fun hp => by have := hp.1; omega
    simp only [studentStep, if_pos h1] at h
    injection h with h
    subst h
    simp [hP]
  · by_cases h2 : s.StudentID ∈ c.allStudentIDs
    · have hP : Processed c s := ⟨by omega, h2⟩
      rw [studentStep_processed c st s hP.1 h2] at h
      rw [marksLoop_keys c s.StudentID s.Marks _ st1 0 h, if_pos hP]
      rfl
    · have hP : ¬ Processed c s := fun hp => h2 hp.2
      have h2a : s.StudentID ∉ c.allStudentIDs := h2
      simp only [studentStep, if_neg h1, if_pos h2a] at h
      injection h with h
      subst h
      simp [hP]

theorem studentsLoop_keys (c : Ctx) (input : List StudentInput) :
    ∀ (st st1 : Staged), studentsLoop c st input = .ok st1 →
      st1.deletedMarksByStudentIDType = st.deletedMarksByStudentIDType ++
        ((input.filter (fun s => decide (Processed c s))).map impliedKeyDeletes).flatten := by
  induction input with
  | nil =>
    intro st st1 h
    rw [studentsLoop] at h
    injection h with h
    subst h
    simp
  | cons s ss ih =>
    intro st st1 h
    rw [studentsLoop] at h
    cases hm : studentStep c st s with
    | error e => rw [hm] at h; exact Except.noConfusion h
    | ok st2 =>
      rw [hm] at h
      rw [ih st2 st1 h, studentStep_keys c st st2 s hm]
      by_cases hP : Processed c s
      · simp [hP, List.filter_cons]
      · simp [hP, List.filter_cons]

theorem stage_keys (c : Ctx) (input : List StudentInput) :
    ∃ st, stage c input = .ok st ∧
      st.deletedMarksByStudentIDType =
        ((input.filter (fun s => decide (Processed c s))).map impliedKeyDeletes).flatten := by
  obtain ⟨st, hs, _⟩ := stage_errors c input
  refine ⟨st, hs, ?_⟩
  rw [studentsLoop_keys c input Staged.initial st hs]
  simp [Staged.initial]

theorem impliedKeyDeletes_mem (s : StudentInput) (k : MarkByStudentIDType)
    (h : k ∈ impliedKeyDeletes s) : k.StudentID = s.StudentID ∧ FlagType k.Type_ := by
  simp only [impliedKeyDeletes, List.mem_append] at h
  rcases h with (h | h) | h
  · split at h
    · simp only [List.mem_singleton] at h
      subst h
      exact ⟨rfl, Or.inl rfl⟩
    · exact absurd h (List.not_mem_nil _)
  · split at h
    · simp only [List.mem_singleton] at h
      subst h
      exact ⟨rfl, Or.inr (Or.inl rfl)⟩
    · exact absurd h (List.not_mem_nil _)
  · split at h
    · simp only [List.mem_singleton] at h
      subst h
      exact ⟨rfl, Or.inr (Or.inr rfl)⟩
    · exact absurd h (List.not_mem_nil _)

theorem prepared_write_events {σ : Type} (app : App σ) (req : Request) (db : σ)
    (lessonID : Int) (c : Ctx) (input : List StudentInput) (st : Staged)
    (hp : Prepared app req db lessonID c input) (hs : stage c input = .ok st) :
    ∀ e ∈ (setMarksForLesson app req db).trace, e.isWrite = true →
      st.v.Errors = [] ∧ e ∈ stagedCalls st := by
  intro e he hw
  rw [setMarksForLesson_prepared app req db lessonID c input st hp hs] at he
  simp only [List.mem_append] at he
  rcases he with he | he
  · exfalso
    simp only [preloadTrace, List.mem_cons, List.mem_singleton, List.not_mem_nil,
      or_false] at he
    rcases he with h1 | h1 | h1 | h1 | h1 | h1 <;> subst h1 <;> simp [Event.isWrite] at hw
  · rcases persist_events app db st e he with h1 | ⟨hv, h1 | h1 | h1⟩
    · exfalso
      have h2 := (isReport_not_call e h1).1
      cases e <;> simp [Event.isWrite] at hw <;> simp [Event.isTx, Event.isWrite] at h2
    · subst h1; simp [Event.isWrite] at hw
    · exact ⟨hv, h1⟩
    · subst h1; simp [Event.isWrite] at hw

/-! ## Two runs of the staging loops on entries with the same edits -/

theorem newMark_other (c : Ctx) (v : Validator) (index : Nat) (ID studentID : Int)
    (mtype : String) (comment : Option String) (grade : Option Int)
    (hT : ¬ (EditType mtype ∨ FlagType mtype)) :
    newMark c v index ID studentID mtype comment grade =
      .error ("invalid or no type: " ++ mtype) := by
  have h1 : ¬ mtype = MarkCommonGrade := fun h => hT (Or.inl (Or.inl h))
  have h2 : ¬ (mtype = MarkNoticeBad ∨ mtype = MarkNoticeNeutral ∨
      mtype = MarkNoticeGood) := by
    rintro (h | h | h)
    · exact hT (Or.inl (Or.inr (Or.inr (Or.inr h))))
    · exact hT (Or.inl (Or.inr (Or.inr (Or.inl h))))
    · exact hT (Or.inl (Or.inr (Or.inl h)))
  have h3 : ¬ (mtype = MarkAbsent ∨ mtype = MarkLate ∨ mtype = MarkNotDone) :=
    fun h => hT (Or.inr h)
  unfold newMark
  rw [if_neg h1, if_neg h2, if_neg h3]

theorem newMark_validator (c : Ctx) (v : Validator) (index : Nat) (ID studentID ID1 studentID1 : Int)
    (mtype : String) (comment : Option String) (grade : Option Int) :
    (∃ e, newMark c v index ID studentID mtype comment grade = .error e ∧
      newMark c v index ID1 studentID1 mtype comment grade = .error e) ∨
    (∃ r r1 v1, newMark c v index ID studentID mtype comment grade = .ok (r, v1) ∧
      newMark c v index ID1 studentID1 mtype comment grade = .ok (r1, v1)) := by
  by_cases hT : EditType mtype ∨ FlagType mtype
  · right
    rcases hT with (h1 | h1) | h1
    · subst h1
      rw [newMark_common, newMark_common]
      cases grade with
      | none => exact ⟨_, _, _, rfl, rfl⟩
      | some g =>
        by_cases hg : g ∈ c.allGradeIDs
        · simp only [hg, if_true]
          exact ⟨_, _, _, rfl, rfl⟩
        · simp only [hg, if_false]
          exact ⟨_, _, _, rfl, rfl⟩
    · rw [newMark_notice c v index ID studentID mtype comment grade h1,
        newMark_notice c v index ID1 studentID1 mtype comment grade h1]
      by_cases hc : comment = none ∨ comment = some ""
      · rw [if_pos hc, if_pos hc]
        exact ⟨_, _, _, rfl, rfl⟩
      · rw [if_neg hc, if_neg hc]
        exact ⟨_, _, _, rfl, rfl⟩
    · rw [newMark_flagType c v index ID studentID mtype comment grade h1,
        newMark_flagType c v index ID1 studentID1 mtype comment grade h1]
      exact ⟨_, _, _, rfl, rfl⟩
  · left
    exact ⟨_, newMark_other c v index ID studentID mtype comment grade hT,
      newMark_other c v index ID1 studentID1 mtype comment grade hT⟩

theorem markStep_same (c : Ctx) (studentID studentID1 : Int) (st st0 st1 st2 : Staged)
    (mi : Nat) (m : MarkInput) (hR : SameUpdates st st0)
    (h1 : markStep c studentID st mi m = .ok st1)
    (h2 : markStep c studentID1 st0 mi m = .ok st2) : SameUpdates st1 st2 := by
  obtain ⟨hv, hu, hd⟩ := hR
  unfold markStep at h1 h2
  rw [← hv] at h2
  by_cases hcond : m.Type_ ≠ MarkCommonGrade ∧ m.Type_ ≠ MarkNoticeBad ∧
      m.Type_ ≠ MarkNoticeNeutral ∧ m.Type_ ≠ MarkNoticeGood ∧ m.Remove = false
  · rw [if_pos hcond] at h1 h2
    injection h1 with h1
    injection h2 with h2
    subst h1 h2
    exact ⟨rfl, hu, hd⟩
  · rw [if_neg hcond] at h1 h2
    cases hid : m.ID with
    | none =>
      rw [hid] at h1 h2
      simp only at h1 h2
      by_cases hr : m.Remove = true
      · rw [if_pos hr] at h1 h2
        injection h1 with h1
        injection h2 with h2
        subst h1 h2
        exact ⟨hv, hu, hd⟩
      · rw [if_neg hr] at h1 h2
        rcases newMark_validator c st.v mi 0 studentID 0 studentID1 m.Type_ m.Comment
          m.Grade with ⟨e, he1, _⟩ | ⟨r, r1, v1, hn1, hn2⟩
        · rw [he1] at h1
          exact Except.noConfusion h1
        · rw [hn1] at h1
          rw [hn2] at h2
          injection h1 with h1
          injection h2 with h2
          subst h1 h2
          exact ⟨rfl, hu, hd⟩
    | some id =>
      rw [hid] at h1 h2
      simp only at h1 h2
      by_cases hmem : id ∉ c.allMarkIDs
      · rw [if_pos hmem] at h1 h2
        injection h1 with h1
        injection h2 with h2
        subst h1 h2
        exact ⟨rfl, hu, hd⟩
      · rw [if_neg hmem] at h1 h2
        by_cases hr : m.Remove = true
        · rw [if_pos hr] at h1 h2
          injection h1 with h1
          injection h2 with h2
          subst h1 h2
          exact ⟨rfl, hu, by simp [hd]⟩
        · rw [if_neg hr] at h1 h2
          cases hn : newMark c st.v mi id 0 m.Type_ m.Comment m.Grade with
          | error e => rw [hn] at h1; exact Except.noConfusion h1
          | ok p =>
            obtain ⟨r0, v0⟩ := p
            rw [hn] at h1 h2
            injection h1 with h1
            injection h2 with h2
            subst h1 h2
            exact ⟨rfl, by simp [hu], hd⟩

theorem marksLoop_same (c : Ctx) (studentID studentID1 : Int) (ms : List MarkInput) :
    ∀ (st st0 st1 st2 : Staged) (mi : Nat), SameUpdates st st0 →
      marksLoop c studentID st mi ms = .ok st1 →
      marksLoop c studentID1 st0 mi ms = .ok st2 → SameUpdates st1 st2 := by
  induction ms with
  | nil =>
    intro st st0 st1 st2 mi hR h1 h2
    rw [marksLoop] at h1 h2
    injection h1 with h1
    injection h2 with h2
    subst h1 h2
    exact hR
  | cons m ms ih =>
    intro st st0 st1 st2 mi hR h1 h2
    rw [marksLoop] at h1 h2
    cases hm1 : markStep c studentID st mi m with
    | error e => rw [hm1] at h1; exact Except.noConfusion h1
    | ok a =>
      cases hm2 : markStep c studentID1 st0 mi m with
      | error e => rw [hm2] at h2; exact Except.noConfusion h2
      | ok b =>
        rw [hm1] at h1
        rw [hm2] at h2
        exact ih a b st1 st2 (mi + 1)
          (markStep_same c studentID studentID1 st st0 a b mi m hR hm1 hm2) h1 h2

theorem studentStep_same (c : Ctx) (st st0 st1 st2 : Staged) (s s1 : StudentInput)
    (hR : SameUpdates st st0) (hE : SameEdits c s s1)
    (h1 : studentStep c st s = .ok st1) (h2 : studentStep c st0 s1 = .ok st2) :
    SameUpdates st1 st2 := by
  by_cases hP : Processed c s
  · have hP1 : Processed c s1 := by
      rcases hE with h | ⟨_, _, h⟩
      · rw [h]; exact hP
      · exact h
    have hM : s.Marks = s1.Marks := by
      rcases hE with h | ⟨h, _, _⟩
      · rw [h]
      · exact h
    rw [studentStep_processed c st s hP.1 hP.2] at h1
    rw [studentStep_processed c st0 s1 hP1.1 hP1.2, ← hM] at h2
    have hF : SameUpdates (flagsStaged c st s) (flagsStaged c st0 s1) :=
      ⟨hR.1, hR.2.1, hR.2.2⟩
    exact marksLoop_same c s.StudentID s1.StudentID s.Marks (flagsStaged c st s)
      (flagsStaged c st0 s1) st1 st2 0 hF h1 h2
  · have hs : s1 = s := by
      rcases hE with h | ⟨_, h, _⟩
      · exact h
      · exact absurd h hP
    subst hs
    by_cases h3 : s1.StudentID < 1
    · simp only [studentStep, if_pos h3] at h1 h2
      injection h1 with h1
      injection h2 with h2
      subst h1 h2
      exact hR
    · have h4 : s1.StudentID ∉ c.allStudentIDs := fun h => hP ⟨by omega, h⟩
      simp only [studentStep, if_neg h3, if_pos h4] at h1 h2
      injection h1 with h1
      injection h2 with h2
      subst h1 h2
      exact ⟨by simp [hR.1], hR.2.1, hR.2.2⟩

theorem studentsLoop_same (c : Ctx) (xs ys : List StudentInput)
    (hE : List.Forall₂ (SameEdits c) xs ys) :
    ∀ (st st0 st1 st2 : Staged), SameUpdates st st0 →
      studentsLoop c st xs = .ok st1 → studentsLoop c st0 ys = .ok st2 →
      SameUpdates st1 st2 := by
  induction hE with
  | nil =>
    intro st st0 st1 st2 hR h1 h2
    rw [studentsLoop] at h1 h2
    injection h1 with h1
    injection h2 with h2
    subst h1 h2
    exact hR
  | @cons x y xs1 ys1 hxy _ ih =>
    intro st st0 st1 st2 hR h1 h2
    rw [studentsLoop] at h1 h2
    cases hm1 : studentStep c st x with
    | error e => rw [hm1] at h1; exact Except.noConfusion h1
    | ok a =>
      cases hm2 : studentStep c st0 y with
      | error e => rw [hm2] at h2; exact Except.noConfusion h2
      | ok b =>
        rw [hm1] at h1
        rw [hm2] at h2
        exact ih a b st1 st2 (studentStep_same c st st0 a b x y hR hxy hm1 hm2) h1 h2

theorem sameEdits_replace (c : Ctx) (pre post : List StudentInput) (s s1 : StudentInput)
    (h : SameEdits c s s1) :
    List.Forall₂ (SameEdits c) (pre ++ s :: post) (pre ++ s1 :: post) := by
  have hrefl : ∀ (xs : List StudentInput), List.Forall₂ (SameEdits c) xs xs := by
    intro xs
    induction xs with
    | nil => exact List.Forall₂.nil
    | cons x xs ih => exact List.Forall₂.cons (Or.inl rfl) ih
  induction pre with
  | nil => exact List.Forall₂.cons h (hrefl post)
  | cons x xs ih => exact List.Forall₂.cons (Or.inl rfl) ih

theorem stage_updates_name_user_zero (c : Ctx) (input : List StudentInput) :
    ∃ st, stage c input = .ok st ∧ ∀ r, some r ∈ st.updateMarks → r.UserID = some 0 := by
  refine stage_preserves c (fun st => ∀ r, some r ∈ st.updateMarks → r.UserID = some 0)
    ?_ ?_ ?_ ?_ input
  · intro r hr
    simp [Staged.initial] at hr
  · intro studentID st st1 mi m hst h r hr
    rcases (markStep_result c studentID st st1 mi m h).2.2 with h1 | ⟨id, r0, _, h1, h2⟩
    · rw [h1] at hr
      exact hst r hr
    · rw [h1] at hr
      simp only [List.mem_append, List.mem_singleton] at hr
      rcases hr with hr | hr
      · exact hst r hr
      · rw [h2 r hr.symm]
        rfl
  · intro st s _ hst r hr
    exact hst r hr
  · intro st field msg hst r hr
    exact hst r hr

/-- C26: student identifiers being positive, for every batch and every entry of it whose
student is enrolled, replacing the student id of the entry by any other enrolled student id
gives the same staged update records, the same staged deleted ids and the same validator;
every staged update record names user 0; and the body of the loop over the edits does the
same for an edit that carries an id whatever the student id of the entry is, the id being
checked against the mark ids of the lesson only. -/
theorem staged_updates_and_deletes_ignore_student (c : Ctx) (pre post : List StudentInput)
    (s : StudentInput) (studentID : Int)
    (hpos : ∀ i ∈ c.allStudentIDs, 1 ≤ i)
    (h1 : s.StudentID ∈ c.allStudentIDs) (h2 : studentID ∈ c.allStudentIDs) :
    ∃ st st1, stage c (pre ++ s :: post) = .ok st ∧
      stage c (pre ++ { s with StudentID := studentID } :: post) = .ok st1 ∧
      st.updateMarks = st1.updateMarks ∧ st.deletedMarkIDs = st1.deletedMarkIDs ∧
      st.v = st1.v ∧
      (∀ r, some r ∈ st.updateMarks → r.UserID = some 0) ∧
      (∀ (a : Staged) (mi : Nat) (m : MarkInput), m.ID ≠ none →
        markStep c s.StudentID a mi m = markStep c studentID a mi m) := by
  have hP : Processed c s := ⟨hpos _ h1, h1⟩
  have hP1 : Processed c { s with StudentID := studentID } := ⟨hpos _ h2, h2⟩
  obtain ⟨st, hs, hu0⟩ := stage_updates_name_user_zero c (pre ++ s :: post)
  obtain ⟨st1, hs1, _⟩ := stage_errors c (pre ++ { s with StudentID := studentID } :: post)
  have hR := studentsLoop_same c _ _
    (sameEdits_replace c pre post s { s with StudentID := studentID } (Or.inr ⟨rfl, hP, hP1⟩))
    Staged.initial Staged.initial st st1 ⟨rfl, rfl, rfl⟩ hs hs1
  exact ⟨st, st1, hs, hs1, hR.2.1, hR.2.2, hR.1, hu0,
    fun a mi m hm => markStep_with_id c _ _ a mi m hm⟩

/-- Witness of C26: with the students 5 and 6 enrolled, an entry of student 5 that updates
mark 42 with grade 3 and removes mark 42, and the same entry for student 6. -/
theorem staged_updates_and_deletes_ignore_student_witness :
    ∃ st st1,
      stage ⟨demoLesson, demoJournal, demoTeacher, 1000, [42], [5, 6], [3]⟩
        ([] ++ (⟨5, some true, none, none,
          [⟨some 42, some 3, "common_grade", none, false⟩, ⟨some 42, none, "", none, true⟩]⟩ :
          StudentInput) :: []) = .ok st ∧
      stage ⟨demoLesson, demoJournal, demoTeacher, 1000, [42], [5, 6], [3]⟩
        ([] ++ { (⟨5, some true, none, none,
          [⟨some 42, some 3, "common_grade", none, false⟩, ⟨some 42, none, "", none, true⟩]⟩ :
          StudentInput) with StudentID := 6 } :: []) = .ok st1 ∧
      st.updateMarks = st1.updateMarks ∧ st.deletedMarkIDs = st1.deletedMarkIDs ∧
      st.v = st1.v ∧
      (∀ r, some r ∈ st.updateMarks → r.UserID = some 0) ∧
      (∀ (a : Staged) (mi : Nat) (m : MarkInput), m.ID ≠ none →
        markStep ⟨demoLesson, demoJournal, demoTeacher, 1000, [42], [5, 6], [3]⟩
            (⟨5, some true, none, none,
              [⟨some 42, some 3, "common_grade", none, false⟩,
               ⟨some 42, none, "", none, true⟩]⟩ : StudentInput).StudentID a mi m =
          markStep ⟨demoLesson, demoJournal, demoTeacher, 1000, [42], [5, 6], [3]⟩ 6 a mi m) :=
  staged_updates_and_deletes_ignore_student
    ⟨demoLesson, demoJournal, demoTeacher, 1000, [42], [5, 6], [3]⟩ [] []
    ⟨5, some true, none, none,
      [⟨some 42, some 3, "common_grade", none, false⟩, ⟨some 42, none, "", none, true⟩]⟩ 6
    (by decide) (by decide) (by decide)

/-- C27: student identifiers being positive, for a fixed batch and every two lessons (with
any journals, marks, grades, users and times) whose journals enrol the students of the batch,
the staging gives the same list of (student, type) delete keys: the keys implied by the
flags of the batch that are false, in input order, each made of the student id of its entry
and one of absent, late, not_done. The key, the call recorded for the bulk delete and the
operation itself carry the key list and, for the operation, the transaction, and no lesson or
journal: for a prepared request, the list passed to `DeleteMarksByStudentIDType` is that
staged key list. -/
theorem bulk_delete_keys_carry_no_lesson_scope {σ : Type} (app : App σ) (req : Request)
    (db : σ) (lessonID : Int) (c c1 : Ctx) (input : List StudentInput)
    (hp : Prepared app req db lessonID c input)
    (hpos : ∀ i ∈ c.allStudentIDs, 1 ≤ i) (hpos1 : ∀ i ∈ c1.allStudentIDs, 1 ≤ i)
    (henr : ∀ s ∈ input, s.StudentID ∈ c.allStudentIDs)
    (henr1 : ∀ s ∈ input, s.StudentID ∈ c1.allStudentIDs) :
    ∃ st st1, stage c input = .ok st ∧ stage c1 input = .ok st1 ∧
      st.deletedMarksByStudentIDType = (input.map impliedKeyDeletes).flatten ∧
      st1.deletedMarksByStudentIDType = st.deletedMarksByStudentIDType ∧
      (∀ k ∈ st.deletedMarksByStudentIDType,
        ∃ s ∈ input, k = ⟨s.StudentID, k.Type_⟩ ∧ FlagType k.Type_) ∧
      (∀ keys, Event.DeleteMarksByStudentIDType keys ∈ (setMarksForLesson app req db).trace →
        keys = st.deletedMarksByStudentIDType) := by
  have hall : ∀ (c0 : Ctx), (∀ i ∈ c0.allStudentIDs, 1 ≤ i) →
      (∀ s ∈ input, s.StudentID ∈ c0.allStudentIDs) →
      input.filter (fun s => decide (Processed c0 s)) = input := by
    intro c0 hp0 he0
    rw [List.filter_eq_self]
    intro s hs
    simpa using (⟨hp0 _ (he0 s hs), he0 s hs⟩ : Processed c0 s)
  obtain ⟨st, hs, hk⟩ := stage_keys c input
  obtain ⟨st1, hs1, hk1⟩ := stage_keys c1 input
  rw [hall c hpos henr] at hk
  rw [hall c1 hpos1 henr1] at hk1
  refine ⟨st, st1, hs, hs1, hk, by rw [hk, hk1], ?_, ?_⟩
  · intro k hkm
    rw [hk] at hkm
    simp only [List.mem_flatten, List.mem_map] at hkm
    obtain ⟨l, ⟨s, hsm, hl⟩, hkl⟩ := hkm
    subst hl
    obtain ⟨h1, h2⟩ := impliedKeyDeletes_mem s k hkl
    exact ⟨s, hsm, by rw [← h1], h2⟩
  · intro keys hmem
    obtain ⟨_, hcall⟩ := prepared_write_events app req db lessonID c input st hp hs _ hmem rfl
    simp only [stagedCalls, List.mem_append] at hcall
    rcases hcall with ((hm | hm) | hm) | hm <;> split at hm <;> simp at hm
    exact hm

/-- Witness of C27: the example batch for the lesson of the examples and for lesson 8 of
journal 4, taught by another teacher, with other marks and grades. -/
theorem bulk_delete_keys_carry_no_lesson_scope_witness :
    ∃ st st1, stage demoCtx demoBatch = .ok st ∧
      stage ⟨⟨8, some 1, 4⟩, ⟨4, 11⟩, demoOutsider, 2000, [], [5, 6], [1, 2]⟩ demoBatch =
        .ok st1 ∧
      st.deletedMarksByStudentIDType = (demoBatch.map impliedKeyDeletes).flatten ∧
      st1.deletedMarksByStudentIDType = st.deletedMarksByStudentIDType ∧
      (∀ k ∈ st.deletedMarksByStudentIDType,
        ∃ s ∈ demoBatch, k = ⟨s.StudentID, k.Type_⟩ ∧ FlagType k.Type_) ∧
      (∀ keys, Event.DeleteMarksByStudentIDType keys ∈
          (setMarksForLesson (demoApp demoBatch) demoRequest demoDB).trace →
        keys = st.deletedMarksByStudentIDType) :=
  bulk_delete_keys_carry_no_lesson_scope (demoApp demoBatch) demoRequest demoDB 7 demoCtx
    ⟨⟨8, some 1, 4⟩, ⟨4, 11⟩, demoOutsider, 2000, [], [5, 6], [1, 2]⟩ demoBatch
    ⟨rfl, by decide, rfl, rfl, Or.inl rfl, rfl, rfl, rfl, rfl, rfl, rfl⟩
    (by decide) (by decide) (by decide) (by decide)

/-! ## The writes of the single-mark handlers -/

theorem checkOldClasses_errors (ocs : List OldClassInput) :
    ∀ (v : Validator) (e : String × String), e ∈ (checkOldClasses v ocs).Errors →
      e ∈ v.Errors ∨ e.1 = "display_name" := by
  induction ocs with
  | nil => intro v e he; exact Or.inl he
  | cons oc ocs ih =>
    intro v e he
    rw [checkOldClasses] at he
    rcases ih _ e he with h | h
    · unfold Validator.Check at h
      split at h
      · exact Or.inl h
      · simp only [Validator.Add, List.mem_append, List.mem_singleton] at h
        rcases h with h | h
        · exact Or.inl h
        · right; rw [h]
    · exact Or.inr h

theorem checkNewClasses_errors (ncs : List NewClassInput) :
    ∀ (v : Validator) (e : String × String), e ∈ (checkNewClasses v ncs).Errors →
      e ∈ v.Errors ∨ e.1 = "display_name" ∨ e.1 = "name" := by
  induction ncs with
  | nil => intro v e he; exact Or.inl he
  | cons nc ncs ih =>
    intro v e he
    rw [checkNewClasses] at he
    rcases ih _ e he with h | h
    · unfold Validator.Check at h
      split at h <;> split at h <;>
        try simp only [Validator.Add, List.mem_append, List.mem_singleton] at h
      · exact Or.inl h
      · rcases h with h | h
        · exact Or.inl h
        · right; left; rw [h]
      · rcases h with h | h
        · exact Or.inl h
        · right; right; rw [h]
      · rcases h with (h | h) | h
        · exact Or.inl h
        · right; left; rw [h]
        · right; right; rw [h]
    · exact Or.inr h

theorem verifyExistsInSlice_none (ids all : List Int) :
    VerifyExistsInSlice ids all = none ↔ ∀ i ∈ ids, i ∈ all := by
  unfold VerifyExistsInSlice
  split
  · rename_i h
    rw [List.filter_eq_nil_iff] at h
    simp only [decide_eq_true_eq, not_not] at h
    exact ⟨fun _ => h, fun _ => rfl⟩
  · rename_i h
    constructor
    · intro h1
      exact Option.noConfusion h1
    · intro h1
      exfalso
      apply h
      rw [List.filter_eq_nil_iff]
      intro a ha
      simpa using h1 a ha

/-- C28, what the code does, and its evaluation at the failing inputs: for every decoded body
and every list of existing class ids, `newYear` records a class_id validation error exactly
when every class id of old_classes exists, the reverse of the claim. With the classes 1 and 2
in the database, the body that lists the existing classes 1 and 2 (display name and courses
valid) is rejected with the class_id error and no year is inserted, and the body that lists
the unknown class 99 is accepted: the year is inserted, with a class year for class 99. -/
theorem newYear_class_check_is_inverted :
    (∀ (input : NewYearInput) (allClassIDs : List Int),
      (∃ msg, ("class_id", msg) ∈ (newYearChecks input allClassIDs).Errors) ↔
        ∀ id ∈ input.OldClasses.map (fun oc => oc.ClassID), id ∈ allClassIDs) ∧
    VerifyExistsInSlice [1, 2] demoYearDB.classIDs = none ∧
    (newYear (demoYearApp existingClasses) yearRequest demoYearDB).trace =
      [.inputJSON, .GetAllClassIDs,
        .outputJSON StatusBadRequest (.errors [("class_id", "invalid class id(s): []")])] ∧
    (newYear (demoYearApp existingClasses) yearRequest demoYearDB).db = demoYearDB ∧
    VerifyExistsInSlice [99] demoYearDB.classIDs = some [99] ∧
    (newYear (demoYearApp unknownClass) yearRequest demoYearDB).trace =
      [.inputJSON, .GetAllClassIDs, .InsertYear "2024/2025" 3,
        .InsertYearForClass 2 99 "2C", .RemoveCurrentYear, .SetYearAsCurrent 2,
        .outputJSON StatusCreated (.message "success")] ∧
    (newYear (demoYearApp unknownClass) yearRequest demoYearDB).db =
      ⟨[1, 2], [(1, "2023/2024", 3), (2, "2024/2025", 3)],
        [⟨1, 1, "1A"⟩, ⟨1, 2, "1B"⟩, ⟨2, 99, "2C"⟩], some 2⟩ := by
  refine ⟨?_, by decide, by decide, by decide, by decide, by decide, by decide⟩
  intro input allClassIDs
  rw [← verifyExistsInSlice_none]
  unfold newYearChecks
  constructor
  · rintro ⟨msg, hmem⟩
    by_contra hne
    unfold Validator.Check at hmem
    rw [if_pos (by simpa using hne)] at hmem
    rcases checkNewClasses_errors _ _ _ hmem with h | h | h
    · rcases checkOldClasses_errors _ _ _ h with h1 | h1
      · split at h1
        · split at h1
          · simp [NewValidator] at h1
          · simp [NewValidator, Validator.Add] at h1
        · split at h1
          · simp [NewValidator, Validator.Add] at h1
          · simp [NewValidator, Validator.Add] at h1
      · simp at h1
    · simp at h
    · simp at h
  · intro hnone
    refine ⟨"invalid class id(s): " ++ sprintInts
      (VerifyExistsInSlice (input.OldClasses.map (fun oc => oc.ClassID)) allClassIDs), ?_⟩
    unfold Validator.Check
    rw [if_neg (by simp [hnone])]
    simp only [Validator.Add, List.mem_append, List.mem_singleton]
    exact Or.inr trivial

/-- C29, evaluation of the code at the failing input: when `GetStudentsForLesson` returns an
error for the request of the teacher, `getMarksForLesson` logs the error, writes the
internal-error response and then writes a second response, status 200 with the students
payload of the nil slice; the trace holds two responses. -/
theorem getMarksForLesson_writes_two_responses :
    (getMarksForLesson noStudentsApp demoRequest demoDB).trace =
      [.GetLessonByID 7, .GetJournalByID 3, .GetStudentsForLesson 7, .log "connection lost",
       .outputJSON StatusInternalServerError (.error "internal server error"),
       .outputJSON StatusOK (.students [])] ∧
    ((getMarksForLesson noStudentsApp demoRequest demoDB).trace.filter
      Event.isResponse).length = 2 := by
  decide

/-! ## The grouping loop -/

theorem bucket_cons (journalID key : Int) (m : Mark) (ms : List Mark) :
    bucket journalID key (m :: ms) =
      (if m.JournalID = some journalID ∧ courseKey m = key then [m] else []) ++
        bucket journalID key ms := by
  unfold bucket
  rw [List.filter_cons]
  split_ifs with h1 h2 h2
  · rfl
  · exact absurd (by simpa using h1) h2
  · exact absurd (by simpa using h2) h1
  · rfl

theorem groupStep_eq (j : jwm) (m : Mark) (journalID : Int) (h : m.JournalID = some journalID) :
    groupStep j m =
      .ok ⟨j.journal, fun k => j.Marks k ++
        (if m.JournalID = some j.journal.ID ∧ courseKey m = k then [m] else [])⟩ := by
  unfold groupStep
  rw [h]
  simp only
  by_cases hid : j.journal.ID = journalID
  · rw [if_pos hid]
    subst hid
    cases hc : m.Course with
    | none =>
      simp only [Except.ok.injEq]
      congr 1
      funext k
      by_cases hk : k = -1
      · simp [appendAt, courseKey, hc, hk]
      · have hk1 : ¬ ((-1 : Int) = k) := fun h => hk h.symm
        simp [appendAt, courseKey, hc, hk, hk1]
    | some course =>
      simp only [Except.ok.injEq]
      congr 1
      funext k
      by_cases hk : k = course
      · simp [appendAt, courseKey, hc, hk]
      · have hk1 : ¬ (course = k) := fun h => hk h.symm
        simp [appendAt, courseKey, hc, hk, hk1]
  · rw [if_neg hid]
    have hne : ¬ (some journalID = some j.journal.ID) := by
      intro h1
      injection h1 with h1
      exact hid h1.symm
    simp only [Except.ok.injEq]
    cases j with
    | mk journal marks =>
      congr 1
      funext k
      simp [hne]

theorem groupInner_eq (marks : List Mark) :
    ∀ (j : jwm), (∀ m ∈ marks, m.JournalID ≠ none) →
      groupInner j marks =
        .ok ⟨j.journal, fun k => j.Marks k ++ bucket j.journal.ID k marks⟩ := by
  induction marks with
  | nil =>
    intro j _
    cases j with
    | mk journal ms =>
      rw [groupInner]
      simp [bucket]
  | cons m ms ih =>
    intro j h
    have hm : m.JournalID ≠ none := h m (List.mem_cons_self _ _)
    obtain ⟨journalID, hj⟩ := Option.ne_none_iff_exists'.mp hm
    rw [groupInner, groupStep_eq j m journalID hj]
    simp only
    rw [ih _ (fun x hx => h x (List.mem_cons_of_mem _ hx))]
    simp only [Except.ok.injEq]
    congr 1
    funext k
    rw [bucket_cons, List.append_assoc]

theorem groupOuter_eq (marks : List Mark) (h : ∀ m ∈ marks, m.JournalID ≠ none)
    (js : List jwm) :
    groupOuter js marks =
      .ok (js.map (fun j => ⟨j.journal, fun k => j.Marks k ++ bucket j.journal.ID k marks⟩)) := by
  induction js with
  | nil => rfl
  | cons j js ih =>
    rw [groupOuter, groupInner_eq marks j h]
    simp only
    rw [ih]
    rfl

theorem journalsWithMarks_eq (journals : List NJournal) (marks : List Mark)
    (h : ∀ m ∈ marks, m.JournalID ≠ none) :
    journalsWithMarks journals marks =
      .ok (journals.map (fun j => ⟨j, fun k => bucket j.ID k marks⟩)) := by
  unfold journalsWithMarks
  rw [groupOuter_eq marks h, List.map_map]
  simp only [Except.ok.injEq]
  apply List.map_congr_left
  intro j _
  simp

theorem nodup_index_unique {α : Type} (l : List α) (h : l.Nodup) (i j : Nat) (a : α)
    (hi : l[i]? = some a) (hj : l[j]? = some a) : i = j := by
  have hlen : ∀ (n : Nat), l[n]? = some a → n < l.length := by
    intro n hn
    by_contra hge
    rw [List.getElem?_eq_none (by omega)] at hn
    exact Option.noConfusion hn
  by_contra hne
  rcases Nat.lt_or_gt_of_ne hne with h1 | h1
  · exact List.nodup_iff_getElem?_ne_getElem?.mp h i j h1 (hlen j hj) (hi.trans hj.symm)
  · exact List.nodup_iff_getElem?_ne_getElem?.mp h j i h1 (hlen i hi) (hj.trans hi.symm)

theorem bucket_mem (journalID key : Int) (marks : List Mark) (m : Mark) :
    m ∈ bucket journalID key marks ↔
      m ∈ marks ∧ m.JournalID = some journalID ∧ courseKey m = key := by
  unfold bucket
  simp [List.mem_filter]

/-- C30: every mark carrying a journal id (the journal reference of a mark is mandatory in the
data model) and the listed journals having distinct ids, the grouping loop of
`getMarksForStudent` ends without panic with one element per listed journal, in the order of
the journals. Under each key the element of a journal holds the marks of that journal whose
key (the course number, or -1 for a mark without course) is that key, in their input order.
So a mark whose journal id is that of a listed journal occurs under that journal and its key
as often as it occurs in the input, and under no other element or key; and every mark found
under an element and a key is a mark of the input, of that journal, with that key. -/
theorem marks_are_grouped_by_journal_and_course (journals : List NJournal)
    (marks : List Mark) (hj : ∀ m ∈ marks, m.JournalID ≠ none)
    (hd : (journals.map (fun j => j.ID)).Nodup) :
    ∃ res, journalsWithMarks journals marks = .ok res ∧
      res.map (fun r => r.journal) = journals ∧
      (∀ r ∈ res, ∀ k, r.Marks k = bucket r.journal.ID k marks ∧ (r.Marks k).Sublist marks) ∧
      (∀ m ∈ marks, ∀ (i : Nat) (r : jwm), res[i]? = some r →
        m.JournalID = some r.journal.ID →
          (r.Marks (courseKey m)).count m = marks.count m ∧
          ∀ (i1 : Nat) (r1 : jwm) (k1 : Int), res[i1]? = some r1 → m ∈ r1.Marks k1 →
            i1 = i ∧ k1 = courseKey m) ∧
      (∀ r ∈ res, ∀ k, ∀ m ∈ r.Marks k,
        m ∈ marks ∧ m.JournalID = some r.journal.ID ∧ courseKey m = k ∧
          r.journal ∈ journals) := by
  have hres : ∀ (i : Nat) (r : jwm),
      (journals.map (fun j => (⟨j, fun k => bucket j.ID k marks⟩ : jwm)))[i]? = some r →
        (journals.map (fun j => j.ID))[i]? = some r.journal.ID ∧
          ∀ k, r.Marks k = bucket r.journal.ID k marks := by
    intro i r hr
    rw [List.getElem?_map] at hr ⊢
    cases hji : journals[i]? with
    | none => rw [hji] at hr; simp at hr
    | some j =>
      rw [hji] at hr
      simp only [Option.map_some', Option.some.injEq] at hr
      subst hr
      exact ⟨rfl, fun k => rfl⟩
  have hmemres : ∀ r ∈ journals.map (fun j => (⟨j, fun k => bucket j.ID k marks⟩ : jwm)),
      r.journal ∈ journals ∧ ∀ k, r.Marks k = bucket r.journal.ID k marks := by
    intro r hr
    rw [List.mem_map] at hr
    obtain ⟨j, hjm, hr⟩ := hr
    subst hr
    exact ⟨hjm, fun k => rfl⟩
  refine ⟨_, journalsWithMarks_eq journals marks hj, ?_, ?_, ?_, ?_⟩
  · rw [List.map_map]
    exact List.map_id' _
  · intro r hr k
    rw [(hmemres r hr).2 k]
    exact ⟨rfl, List.filter_sublist _⟩
  · intro m _ i r hr hmj
    obtain ⟨hidx, hb⟩ := hres i r hr
    refine ⟨?_, ?_⟩
    · rw [hb, bucket]
      exact List.count_filter (by simp [hmj])
    · intro i1 r1 k1 hr1 hm1
      obtain ⟨hidx1, hb1⟩ := hres i1 r1 hr1
      rw [hb1, bucket_mem] at hm1
      obtain ⟨_, hmj1, hk1⟩ := hm1
      have hsame : r1.journal.ID = r.journal.ID := by
        rw [hmj] at hmj1
        injection hmj1 with hmj1
        exact hmj1.symm
      rw [hsame] at hidx1
      exact ⟨nodup_index_unique _ hd i1 i _ hidx1 hidx, hk1.symm⟩
  · intro r hr k m hm
    rw [(hmemres r hr).2 k, bucket_mem] at hm
    exact ⟨hm.1, hm.2.1, hm.2.2, (hmemres r hr).1⟩

/-- Witness of C30 on the journals 3 and 4 and four marks: two of journal 3 in course 2, one
of journal 3 without course, one of journal 9, which is not listed. -/
theorem marks_are_grouped_by_journal_and_course_witness :
    ∃ res, journalsWithMarks demoJournals demoMarks = .ok res ∧
      res.map (fun r => r.journal) = demoJournals ∧
      (∀ r ∈ res, ∀ k,
        r.Marks k = bucket r.journal.ID k demoMarks ∧ (r.Marks k).Sublist demoMarks) ∧
      (∀ m ∈ demoMarks, ∀ (i : Nat) (r : jwm), res[i]? = some r →
        m.JournalID = some r.journal.ID →
          (r.Marks (courseKey m)).count m = demoMarks.count m ∧
          ∀ (i1 : Nat) (r1 : jwm) (k1 : Int), res[i1]? = some r1 → m ∈ r1.Marks k1 →
            i1 = i ∧ k1 = courseKey m) ∧
      (∀ r ∈ res, ∀ k, ∀ m ∈ r.Marks k,
        m ∈ demoMarks ∧ m.JournalID = some r.journal.ID ∧ courseKey m = k ∧
          r.journal ∈ demoJournals) :=
  marks_are_grouped_by_journal_and_course demoJournals demoMarks (by decide) (by decide)

end Lavurso
